import Mathlib

/-!
# qamax-local-agent: the orchestration engine of `agent.go`, the configuration
file of `config.go` and the login callback of `cmd_login.go`

A shallow embedding of the agent's registration, tracker, poll loop, heartbeat,
execution pipeline (`ExecuteTest`), runner-configuration generation and artifact
collection, of the persistent configuration and of the handler of the login
callback, followed by the properties established about them.

Conventions of the embedding.

* The Go strings of the agent are Lean `String`s.  Every string the agent handles
  arrives through `json.Unmarshal`, which yields valid UTF-8, so a sequence of
  Unicode scalar values is the right carrier.
* The Go strings of the configuration and of the login callback come from the
  command line, from the query of a URL and from a file, and need not be valid
  UTF-8.  They are `GoString`s: sequences of runes and of bytes that are not part of
  a valid encoding.
* Go `int` and `time.Duration` are `Int`; where 64-bit wrap-around matters the
  arithmetic is reduced with `wrapInt64`.
* Calls that leave the process (HTTP, file system, sub-processes) are recorded as
  `Action`s in the order the code performs them; what the outside answers is read
  from a `World` value.  Log output is not recorded.
-/

namespace QamaxAgent

/-! ## Dynamic values and `%v` formatting -/

/-- A value held in an `interface{}` field after `json.Unmarshal`. -/
inductive GoValue where
  /-- JSON `null` or an absent field. -/
  | nil
  /-- A JSON string. -/
  | str (s : String)
  /-- A JSON boolean. -/
  | bool (b : Bool)
  /-- A JSON number (a `float64`) with an integral value below `10^6` in
  magnitude, which `%v` prints in plain decimal. -/
  | num (n : Int)
  /-- Any other number (printed by `%v` with an exponent or a fraction), array or
  object, carried by its `%v` text. -/
  | other (rendered : String)
  deriving DecidableEq

/-- The text of `fmt.Sprintf("%v", v)`. -/
def sprintV : GoValue → String
  | .nil => "<nil>"
  | .str s => s
  | .bool b => if b then "true" else "false"
  | .num n => toString n
  | .other rendered => rendered

/-! ## Data model -/

/-- The `Assignment` struct of `agent.go`. -/
structure Assignment where
  ID : GoValue
  ScriptID : GoValue
  Code : String
  Framework : String
  CustomURL : String
  ExecutionID : GoValue
  Headless : Bool
  Browser : String
  ViewportWidth : Int
  ViewportHeight : Int
  deriving DecidableEq

/-- The fields of `Agent` that the orchestration engine reads or writes.
`activeTests` holds the keys of the `sync.Map`. -/
structure Agent where
  CloudURL : String
  APIKey : String
  AgentID : String
  HeartbeatInterval : Int
  activeTests : Finset String
  activeCount : Int
  running : Bool
  deriving DecidableEq

/-- An agent as `NewAgent` leaves it: nothing tracked, counter zero, not running. -/
def NewAgent (cloudURL apiKey agentID : String) (heartbeatInterval : Int) : Agent :=
  { CloudURL := cloudURL, APIKey := apiKey, AgentID := agentID,
    HeartbeatInterval := heartbeatInterval,
    activeTests := ∅, activeCount := 0, running := false }

/-! ## Tracker operations -/

/-- The body of the `for _, assignment := range assignments` loop in `Run`:
skip a tracked ID, otherwise store it, count it and start a pipeline.
The second component is the pipeline started, if any. -/
def Agent.claim (a : Agent) (assignment : Assignment) : Agent × Option Assignment :=
  let id := sprintV assignment.ID
  if id ∈ a.activeTests then
    (a, none)
  else
    ({ a with activeTests := insert id a.activeTests, activeCount := a.activeCount + 1 },
     some assignment)

/-- The whole `for` loop of one poll tick: the agent afterwards and the pipelines
started, in order. -/
def Agent.processAssignments (a : Agent) : List Assignment → Agent × List Assignment
  | [] => (a, [])
  | assignment :: rest =>
    let r := a.claim assignment
    let r2 := Agent.processAssignments r.1 rest
    (r2.1, r.2.toList ++ r2.2)

/-- Several poll ticks in a row, each with the assignments `PollAssignments`
returned for it: the agent afterwards and the pipelines started, in order. -/
def Agent.pollTicks (a : Agent) : List (List Assignment) → Agent × List Assignment
  | [] => (a, [])
  | response :: later =>
    let r := a.processAssignments response
    let r2 := Agent.pollTicks r.1 later
    (r2.1, r.2 ++ r2.2)

/-- The function `PollAssignments`.  The argument is the answer of the service: a
transport error, or the status code with the decoded body (an error text when
the body is not valid JSON). -/
def PollAssignments (a : Agent) (answer : Except String (Nat × Except String (List Assignment))) :
    Except String (List Assignment) :=
  if a.AgentID = "" ∨ a.APIKey = "" then .ok []
  else
    match answer with
    | .error err => .error err
    | .ok (code, body) =>
      if code ≠ 200 then .error ("poll assignments failed: " ++ toString code)
      else
        match body with
        | .error err => .error ("parse assignments: " ++ err)
        | .ok assignments => .ok assignments

/-- The deferred function of `ExecuteTest`:
`activeTests.Delete(assignmentID)` followed by `activeCount--`. -/
def Agent.release (a : Agent) (assignmentID : String) : Agent :=
  { a with activeTests := a.activeTests.erase assignmentID, activeCount := a.activeCount - 1 }

/-! ## Heartbeat back-off -/

/-- Reduction of an integer to the signed 64-bit range, as Go arithmetic on
`int64` does. -/
def wrapInt64 (x : Int) : Int :=
  (x + 2 ^ 63) % 2 ^ 64 - 2 ^ 63

/-- One second as a `time.Duration` (nanoseconds). -/
def Second : Int := 1000000000

/-- The constant `maxBackoff := 300 * time.Second`. -/
def maxBackoff : Int := 300 * Second

/-- The delay computed at the top of the `heartbeatLoop` body.
`time.Duration(1<<uint(c))` is a shift in `int64`, and the product is an `int64`
product. -/
def heartbeatWait (heartbeatInterval : Int) (consecutiveFailures : Nat) : Int :=
  if consecutiveFailures > 0 then
    let backoff := wrapInt64 (heartbeatInterval * wrapInt64 (2 ^ consecutiveFailures))
    if backoff > maxBackoff then maxBackoff else backoff
  else
    heartbeatInterval

/-- The update of `consecutiveFailures` after `SendHeartbeat` returned. -/
def nextFailures (consecutiveFailures : Nat) (heartbeatFailed : Bool) : Nat :=
  if heartbeatFailed then consecutiveFailures + 1 else 0

/-! ## JSON string literals (`encoding/json`) -/

/-- The double quote character. -/
def dquote : Char := Char.ofNat 34

/-- The backslash character. -/
def backslash : Char := Char.ofNat 92

/-- The table `hex = "0123456789abcdef"` of `encoding/json`, indexed by a nibble. -/
def hexDigit (n : Nat) : Char :=
  "0123456789abcdef".data.getD n '0'

/-- What `appendString` of `encoding/json` (with `escapeHTML` set, as `json.Marshal`
does) emits for one rune of a valid UTF-8 string: the quote and the backslash get a
backslash in front, `\b \f \n \r \t` their short escapes, the other bytes below
`0x20` and `<`, `>`, `&` the form `\u00XY`, the runes U+2028 and U+2029 the form
`\u202X`, and every other rune is copied. -/
def escapeRune (c : Char) : List Char :=
  if c = backslash ∨ c = dquote then [backslash, c]
  else if c = Char.ofNat 8 then [backslash, 'b']
  else if c = Char.ofNat 12 then [backslash, 'f']
  else if c = Char.ofNat 10 then [backslash, 'n']
  else if c = Char.ofNat 13 then [backslash, 'r']
  else if c = Char.ofNat 9 then [backslash, 't']
  else if c.toNat < 32 ∨ c = '<' ∨ c = '>' ∨ c = '&' then
    [backslash, 'u', '0', '0', hexDigit (c.toNat / 16), hexDigit (c.toNat % 16)]
  else if c = Char.ofNat 8232 ∨ c = Char.ofNat 8233 then
    [backslash, 'u', '2', '0', '2', hexDigit (c.toNat % 16)]
  else [c]

/-- The bytes `json.Marshal` returns for a Go string, as characters. -/
def jsonMarshalChars (s : List Char) : List Char :=
  dquote :: (s.flatMap escapeRune ++ [dquote])

/-- The result of `json.Marshal(s)` for a string `s`, converted with `string(b)`. -/
def jsonMarshalString (s : String) : String :=
  String.mk (jsonMarshalChars s.data)

/-- The value of a hexadecimal digit. -/
def hexVal (c : Char) : Option Nat :=
  if 48 ≤ c.toNat ∧ c.toNat ≤ 57 then some (c.toNat - 48)
  else if 97 ≤ c.toNat ∧ c.toNat ≤ 102 then some (c.toNat - 87)
  else if 65 ≤ c.toNat ∧ c.toNat ≤ 70 then some (c.toNat - 55)
  else none

/-- The character a one-letter JSON escape stands for. -/
def simpleEscape (e : Char) : Option Char :=
  if e = dquote then some dquote
  else if e = backslash then some backslash
  else if e = '/' then some '/'
  else if e = 'b' then some (Char.ofNat 8)
  else if e = 'f' then some (Char.ofNat 12)
  else if e = 'n' then some (Char.ofNat 10)
  else if e = 'r' then some (Char.ofNat 13)
  else if e = 't' then some (Char.ofNat 9)
  else none

/-- The reader of the inside of a JSON string literal (RFC 8259, section 7): it
consumes characters up to the first unescaped double quote, which has to be the
last character of the input, and returns the string denoted.  An unescaped control
character, an unknown escape, a missing closing quote and text after the closing
quote are errors; `\u` escapes in the surrogate range are declined. -/
def jsonStringBody : List Char → Option (List Char)
  | [] => none
  | c :: rest =>
    if c = dquote then
      (if rest.isEmpty then some [] else none)
    else if c = backslash then
      match rest with
      | [] => none
      | e :: rest1 =>
        if e = 'u' then
          match rest1 with
          | h1 :: h2 :: h3 :: h4 :: rest2 =>
            match hexVal h1, hexVal h2, hexVal h3, hexVal h4 with
            | some v1, some v2, some v3, some v4 =>
              let v := ((v1 * 16 + v2) * 16 + v3) * 16 + v4
              if 55296 ≤ v ∧ v ≤ 57343 then none
              else (jsonStringBody rest2).map (fun t => Char.ofNat v :: t)
            | _, _, _, _ => none
          | _ => none
        else
          match simpleEscape e with
          | some ch => (jsonStringBody rest1).map (fun t => ch :: t)
          | none => none
    else if c.toNat < 32 then none
    else (jsonStringBody rest).map (fun t => c :: t)

/-- The reader of a complete JSON string literal: opening quote, body, closing
quote and nothing else. -/
def jsonUnquote (s : String) : Option String :=
  match s.data with
  | [] => none
  | c :: rest => if c = dquote then (jsonStringBody rest).map String.mk else none

/-! ## Base64 (`encoding/base64`, `StdEncoding`) -/

/-- The alphabet of the standard encoding, indexed by a 6-bit value. -/
def base64Char (n : Nat) : Char :=
  "ABCDEFGHIJKLMNOPQRSTUVWXYZabcdefghijklmnopqrstuvwxyz0123456789+/".data.getD n 'A'

/-- The text of `base64.StdEncoding.EncodeToString` as characters: three bytes
become four characters, a last group of one or two bytes is padded with `=`. -/
def base64Chars : List (Fin 256) → List Char
  | [] => []
  | [a] => [base64Char (a.val / 4), base64Char (a.val % 4 * 16), '=', '=']
  | [a, b] =>
    [base64Char (a.val / 4), base64Char (a.val % 4 * 16 + b.val / 16),
     base64Char (b.val % 16 * 4), '=']
  | a :: b :: c :: rest =>
    base64Char (a.val / 4) :: base64Char (a.val % 4 * 16 + b.val / 16) ::
      base64Char (b.val % 16 * 4 + c.val / 64) :: base64Char (c.val % 64) ::
      base64Chars rest

/-- The function `base64.StdEncoding.EncodeToString`. -/
def EncodeToString (data : List (Fin 256)) : String :=
  String.mk (base64Chars data)

/-- The function `strings.HasSuffix`. -/
def HasSuffix (s suffix : String) : Bool :=
  suffix.data.isSuffixOf s.data

/-! ## Runner configuration -/

/-- The table `browserMap` of `ExecuteTest`. -/
def browserMap : List (String × (String × String)) :=
  [("chromium", ("chromium", "Desktop Chrome")),
   ("firefox", ("firefox", "Desktop Firefox")),
   ("webkit", ("webkit", "Desktop Safari"))]

/-- The lookup `mapping, ok := browserMap[browser]` with the fallback
`mapping = browserMap["chromium"]`. -/
def browserMapping (browser : String) : String × String :=
  match browserMap.lookup browser with
  | some mapping => mapping
  | none => (browserMap.lookup "chromium").getD ("", "")

/-- The six arguments `ExecuteTest` passes to the `fmt.Sprintf` that builds the
runner configuration. -/
structure ConfigArgs where
  playwrightBrowser : String
  deviceName : String
  baseURLJS : String
  headless : Bool
  vpWidth : Int
  vpHeight : Int
  deriving DecidableEq

/-- The local variables `browser`, `headless`, `vpWidth`, `vpHeight`, `mapping` and
`baseURLJS` of `ExecuteTest`, computed from the assignment. -/
def configArgs (assignment : Assignment) : ConfigArgs :=
  let browser := if assignment.Browser = "" then "chromium" else assignment.Browser
  let vpWidth := if assignment.ViewportWidth = 0 then 1280 else assignment.ViewportWidth
  let vpHeight := if assignment.ViewportHeight = 0 then 720 else assignment.ViewportHeight
  let mapping := browserMapping browser
  let baseURLJS :=
    if assignment.CustomURL ≠ "" then jsonMarshalString assignment.CustomURL else "undefined"
  { playwrightBrowser := mapping.1, deviceName := mapping.2, baseURLJS := baseURLJS,
    headless := assignment.Headless, vpWidth := vpWidth, vpHeight := vpHeight }

/-- The text `fmt.Sprintf` produces from the configuration template
(`%s %s %s %v %d %d`). -/
def playwrightConfig (c : ConfigArgs) : String :=
  "// @ts-check\n" ++
  "const \x7b defineConfig, devices \x7d = require(\x27@playwright/test\x27);\n" ++
  "\n" ++
  "module.exports = defineConfig(\x7b\n" ++
  "  testDir: \x27./\x27,\n" ++
  "  fullyParallel: false,\n" ++
  "  workers: 1,\n" ++
  "  retries: 0,\n" ++
  "  reporter: \x27json\x27,\n" ++
  "  projects: [\n" ++
  "    \x7b\n" ++
  "      name: \x27" ++ c.playwrightBrowser ++ "\x27,\n" ++
  "      use: \x7b\n" ++
  "        ...devices[\x27" ++ c.deviceName ++ "\x27],\n" ++
  "        baseURL: " ++ c.baseURLJS ++ ",\n" ++
  "        headless: " ++ (if c.headless then "true" else "false") ++ ",\n" ++
  "        viewport: \x7b width: " ++ toString c.vpWidth ++
    ", height: " ++ toString c.vpHeight ++ " \x7d,\n" ++
  "        screenshot: \x27on\x27,\n" ++
  "        video: \x27on\x27,\n" ++
  "      \x7d,\n" ++
  "    \x7d,\n" ++
  "  ],\n" ++
  "\x7d);\n"

/-- The content written to `playwright.config.js` for an assignment. -/
def generatedConfig (assignment : Assignment) : String :=
  playwrightConfig (configArgs assignment)

/-- The lines of the configuration template before the project entry. -/
def configHead : String :=
  "// @ts-check\n" ++
  "const \x7b defineConfig, devices \x7d = require(\x27@playwright/test\x27);\n" ++
  "\n" ++
  "module.exports = defineConfig(\x7b\n" ++
  "  testDir: \x27./\x27,\n" ++
  "  fullyParallel: false,\n" ++
  "  workers: 1,\n" ++
  "  retries: 0,\n" ++
  "  reporter: \x27json\x27,\n" ++
  "  projects: [\n" ++
  "    \x7b\n"

/-- The lines of the configuration template after the `viewport` line. -/
def configTail : String :=
  "        screenshot: \x27on\x27,\n" ++
  "        video: \x27on\x27,\n" ++
  "      \x7d,\n" ++
  "    \x7d,\n" ++
  "  ],\n" ++
  "\x7d);\n"

/-- The text `json.MarshalIndent(packageJSON, "", "  ")` produces (map keys are
written in sorted order). -/
def packageJSON (assignmentID : String) : String :=
  "\x7b\n" ++
  "  \x22dependencies\x22: \x7b\n" ++
  "    \x22@playwright/test\x22: \x22^1.51.0\x22\n" ++
  "  \x7d,\n" ++
  "  \x22name\x22: " ++ jsonMarshalString ("qamax-test-" ++ assignmentID) ++ ",\n" ++
  "  \x22scripts\x22: \x7b\n" ++
  "    \x22test\x22: \x22playwright test\x22\n" ++
  "  \x7d,\n" ++
  "  \x22version\x22: \x221.0.0\x22\n" ++
  "\x7d"

/-! ## Artifact collection -/

/-- A `map[string]string` with the keys `filename` and `data`. -/
structure FileArtifact where
  filename : String
  data : String
  deriving DecidableEq

/-- The map `collectArtifacts` returns: the `screenshots` list and the `video`
entry (`none` for `nil`). -/
structure Artifacts where
  screenshots : List FileArtifact
  video : Option FileArtifact
  deriving DecidableEq

/-- One call of the `filepath.Walk` callback: the name `info.Name()`, whether the
walk passed an error, whether the entry is a directory, and what `os.ReadFile` on
its path gives (`none` when reading fails). -/
structure WalkEntry where
  name : String
  walkErr : Bool
  isDir : Bool
  content : Option (List (Fin 256))
  deriving DecidableEq

/-- The callback passed to `filepath.Walk`, as a transformer of the variables
`screenshots` and `artifacts["video"]` it closes over. -/
def visit (st : Artifacts) (e : WalkEntry) : Artifacts :=
  if e.walkErr || e.isDir then st
  else
    let afterPng : Option Artifacts :=
      if HasSuffix e.name ".png" then
        match e.content with
        | none => none
        | some data =>
          some { st with
            screenshots := st.screenshots ++ [{ filename := e.name, data := EncodeToString data }] }
      else some st
    match afterPng with
    | none => st
    | some st1 =>
      if HasSuffix e.name ".webm" && st1.video.isNone then
        match e.content with
        | none => st1
        | some data =>
          { st1 with video := some { filename := e.name, data := EncodeToString data } }
      else st1

/-- The function `collectArtifacts`.  The argument is the state of the
`test-results` directory: `none` when `os.Stat` reports that it does not exist,
otherwise the callback invocations of the walk, in walk order. -/
def collectArtifacts (testResults : Option (List WalkEntry)) : Artifacts :=
  match testResults with
  | none => { screenshots := [], video := none }
  | some entries => entries.foldl visit { screenshots := [], video := none }

/-! ## The execution pipeline -/

/-- The body of the result request built by `reportResult`. -/
structure ResultPayload where
  success : Bool
  message : String
  output : String
  errors : String
  artifacts : Option Artifacts
  deriving DecidableEq

/-- The map `resultData` built at the end of `ExecuteTest`. -/
structure ResultData where
  success : Bool
  output : String
  errors : String
  artifacts : Artifacts
  deriving DecidableEq

/-- What the pipeline does, in program order: calls of `reportResult`, requests,
file-system operations, external commands and the deferred release. -/
inductive Action where
  /-- The call `a.reportResult(assignmentID, success, message, ...)`, whatever it
  goes on to send. -/
  | callReportResult (assignmentID : String) (success : Bool) (message : String)
  /-- The call `fetchScriptCode(scriptID)`: a GET of `/api/automation/scripts/{id}`. -/
  | getScript (scriptID : String)
  /-- The POST of `/assignments/{id}/result` made by `reportResult`. -/
  | postResult (assignmentID : String) (payload : ResultPayload)
  /-- The POST of `/assignments/{id}/status` made by `updateAssignmentStatus`. -/
  | postStatus (assignmentID : String) (status : String)
  /-- The call `os.MkdirTemp("", pattern)`. -/
  | mkdirTemp (pattern : String)
  /-- The call `os.WriteFile(path, content, 0644)`. -/
  | writeFile (path : String) (content : String)
  /-- An external command started in `dir` under a timeout in seconds. -/
  | exec (dir : String) (name : String) (args : List String) (timeoutSeconds : Nat)
  /-- The deferred `activeTests.Delete` and `activeCount--`. -/
  | trackerRelease (assignmentID : String)
  /-- The deferred `os.RemoveAll(testDir)`. -/
  | removeAll (path : String)
  deriving DecidableEq

/-- The outcome of `cmd.CombinedOutput()`: the error text, if any, and the output. -/
structure CmdResult where
  err : Option String
  out : String
  deriving DecidableEq

/-- The outcome of the test run: the text of `runErr`, if any, and the two buffers. -/
structure RunResult where
  runErr : Option String
  stdout : String
  stderr : String
  deriving DecidableEq

/-- What the outside answers to one pipeline. -/
structure World where
  /-- The return value of `fetchScriptCode`: an error text or the code. -/
  fetchScriptCode : Except String String
  /-- The return value of `os.MkdirTemp`: an error text or the directory. -/
  mkdirTemp : Except String String
  /-- The error text `os.WriteFile` returns for a path, `none` on success. -/
  writeFile : String → Option String
  /-- The run of `npm install`. -/
  npmInstall : CmdResult
  /-- The run of `npx playwright install <browser>`. -/
  playwrightInstall : CmdResult
  /-- The run of `npx playwright test --project <browser>`. -/
  testRun : RunResult
  /-- The `test-results` directory after the run. -/
  testResults : Option (List WalkEntry)
  /-- The answer to the result POST: a transport error or the status code. -/
  postResult : Except String Nat

/-- The function `updateAssignmentStatus`: nothing for an unregistered agent,
otherwise one status POST, whose answer is only logged. -/
def updateAssignmentStatus (a : Agent) (assignmentID status : String) : List Action :=
  if a.AgentID = "" ∨ a.APIKey = "" then []
  else [Action.postStatus assignmentID status]

/-- The function `reportResult`: after the call is entered, nothing for an
unregistered agent, otherwise the result POST and, when it is answered 200, the
final status. -/
def reportResult (w : World) (a : Agent) (assignmentID : String) (success : Bool)
    (message : String) (resultData : Option ResultData) : List Action :=
  Action.callReportResult assignmentID success message ::
    (if a.AgentID = "" ∨ a.APIKey = "" then []
    else
      let payload : ResultPayload :=
        { success := success, message := message,
          output := (resultData.map (fun d => d.output)).getD "",
          errors := (resultData.map (fun d => d.errors)).getD "",
          artifacts := resultData.map (fun d => d.artifacts) }
      match w.postResult with
      | .error _ => [Action.postResult assignmentID payload]
      | .ok code =>
        if code = 200 then
          Action.postResult assignmentID payload ::
            updateAssignmentStatus a assignmentID (if success then "completed" else "failed")
        else [Action.postResult assignmentID payload])

/-- The predicate `unicode.IsSpace`. -/
def isSpace (c : Char) : Bool :=
  let n := c.toNat
  (9 ≤ n && n ≤ 13) || n = 32 || n = 133 || n = 160 || n = 5760 ||
    (8192 ≤ n && n ≤ 8202) || n = 8232 || n = 8233 || n = 8239 || n = 8287 || n = 12288

/-- The function `strings.Fields`. -/
def Fields (s : String) : List String :=
  ((s.data.splitOnP isSpace).filter (fun f => !f.isEmpty)).map String.mk

/-- The error `runCommand` returns: `fmt.Errorf("%s: %s", err, string(out))`, or
`none` when the command succeeded. -/
def runCommandError (r : CmdResult) : Option String :=
  r.err.map (fun e => e ++ ": " ++ r.out)

/-- The function `filepath.Join(dir, name)` for a clean directory path. -/
def joinPath (dir name : String) : String :=
  dir ++ "/" ++ name

/-- The part of `ExecuteTest` after the two deferred calls were registered, up to
its `return`: from the `started` status to the final `reportResult`. -/
def runPipeline (w : World) (a : Agent) (assignment : Assignment)
    (assignmentID testCode testDir : String) : List Action :=
  let started := updateAssignmentStatus a assignmentID "started"
  let testFile := joinPath testDir "test.spec.js"
  let writeTest := [Action.writeFile testFile testCode]
  match w.writeFile testFile with
  | some err =>
    started ++ writeTest ++
      reportResult w a assignmentID false ("Failed to write test file: " ++ err) none
  | none =>
    let pkgPath := joinPath testDir "package.json"
    let writePkg := [Action.writeFile pkgPath (packageJSON assignmentID)]
    match w.writeFile pkgPath with
    | some err =>
      started ++ writeTest ++ writePkg ++
        reportResult w a assignmentID false ("Failed to write package.json: " ++ err) none
    | none =>
      let c := configArgs assignment
      let configPath := joinPath testDir "playwright.config.js"
      let writeCfg := [Action.writeFile configPath (playwrightConfig c)]
      match w.writeFile configPath with
      | some err =>
        started ++ writeTest ++ writePkg ++ writeCfg ++
          reportResult w a assignmentID false ("Failed to write config: " ++ err) none
      | none =>
        let npm := [Action.exec testDir "npm" (Fields "install") 300]
        match runCommandError w.npmInstall with
        | some err =>
          started ++ writeTest ++ writePkg ++ writeCfg ++ npm ++
            reportResult w a assignmentID false ("Dependency installation failed: " ++ err) none
        | none =>
          let install :=
            [Action.exec testDir "npx" (Fields ("playwright install " ++ c.playwrightBrowser)) 300]
          let run :=
            [Action.exec testDir "npx" ["playwright", "test", "--project", c.playwrightBrowser] 600]
          let artifacts := collectArtifacts w.testResults
          let success := w.testRun.runErr.isNone
          let resultData : ResultData :=
            { success := success, output := w.testRun.stdout, errors := w.testRun.stderr,
              artifacts := artifacts }
          started ++ writeTest ++ writePkg ++ writeCfg ++ npm ++ install ++ run ++
            reportResult w a assignmentID success w.testRun.stdout (some resultData)

/-- The outcome of one call of `ExecuteTest`: the agent afterwards and the actions
performed, in order. -/
structure ExecResult where
  agent : Agent
  actions : List Action

/-- The start of `ExecuteTest`, up to the test `testCode == ""`: the script is
fetched when there is no inline code and `scriptID` is neither empty nor `<nil>`,
and a fetch that fails leaves `testCode` as it was.  The result is the actions
performed and the value of `testCode`. -/
def resolveTestCode (w : World) (assignment : Assignment) : List Action × String :=
  let scriptID := sprintV assignment.ScriptID
  if assignment.Code = "" ∧ scriptID ≠ "" ∧ scriptID ≠ "<nil>" then
    match w.fetchScriptCode with
    | .error _ => ([Action.getScript scriptID], assignment.Code)
    | .ok code => ([Action.getScript scriptID], code)
  else ([], assignment.Code)

/-- The function `ExecuteTest`.  The two early returns (no test code, `MkdirTemp`
failed) come before the `defer` statements; after them the deferred calls run in
reverse order of registration when the function returns. -/
def ExecuteTest (w : World) (a : Agent) (assignment : Assignment) : ExecResult :=
  let assignmentID := sprintV assignment.ID
  let fetch := (resolveTestCode w assignment).1
  let testCode := (resolveTestCode w assignment).2
  if testCode = "" then
    { agent := a,
      actions := fetch ++ reportResult w a assignmentID false "No test code provided" none }
  else
    let mkdir := [Action.mkdirTemp ("qamax-agent-" ++ assignmentID ++ "-")]
    match w.mkdirTemp with
    | .error err =>
      { agent := a,
        actions := fetch ++ mkdir ++
          reportResult w a assignmentID false ("Failed to create temp dir: " ++ err) none }
    | .ok testDir =>
      { agent := a.release assignmentID,
        actions := fetch ++ mkdir ++ runPipeline w a assignment assignmentID testCode testDir ++
          [Action.trackerRelease assignmentID, Action.removeAll testDir] }

/-! ## The agent as a transition system -/

/-- What can happen to the tracker: one iteration of the poll loop for an assignment
the service returned, or the deferred release of a pipeline. -/
inductive Event where
  | claim (assignment : Assignment)
  | release (assignmentID : String)
  deriving DecidableEq

/-- What an observer of the tracker sees: a pipeline started for an ID, or an ID
released. -/
inductive Obs where
  | dispatched (assignmentID : String)
  | released (assignmentID : String)
  deriving DecidableEq

/-- The observations a sequence of events produces, starting from agent `a`. -/
def observe (a : Agent) : List Event → List Obs
  | [] => []
  | Event.claim assignment :: events =>
    match (a.claim assignment).2 with
    | some p => Obs.dispatched (sprintV p.ID) :: observe (a.claim assignment).1 events
    | none => observe (a.claim assignment).1 events
  | Event.release assignmentID :: events =>
    Obs.released assignmentID :: observe (a.release assignmentID) events

/-- The agent together with the pipelines (`go a.ExecuteTest(...)`) that were
started and have not returned yet. -/
structure System where
  agent : Agent
  pipelines : List Assignment

/-- One step of the system: registration adopts an identity, the poller handles one
returned assignment, or one running pipeline returns, having met the world `w`. -/
inductive Step : System → System → Prop where
  | register (s : System) (agentID apiKey : String) :
    Step s { s with agent := { s.agent with AgentID := agentID, APIKey := apiKey } }
  | claim (s : System) (assignment : Assignment) :
    Step s { agent := (s.agent.claim assignment).1,
             pipelines := s.pipelines ++ (s.agent.claim assignment).2.toList }
  | finish (s : System) (w : World) (assignment : Assignment)
      (running : assignment ∈ s.pipelines) :
    Step s { agent := (ExecuteTest w s.agent assignment).agent,
             pipelines := s.pipelines.erase assignment }

/-- The states the system can be in: those reached from a new agent. -/
inductive Reachable : System → Prop where
  | init (cloudURL apiKey agentID : String) (heartbeatInterval : Int) :
    Reachable { agent := NewAgent cloudURL apiKey agentID heartbeatInterval, pipelines := [] }
  | step {s t : System} (hs : Reachable s) (hst : Step s t) : Reachable t

/-- The `for` loop of `waitForActiveTests`, run on the agent states found at its
successive reads of `activeCount`: the state at which it breaks, `none` when the
reads given end before that. -/
def waitLoop : List Agent → Option Agent
  | [] => none
  | a :: later => if a.activeCount = 0 then some a else waitLoop later

/-- The function `waitForActiveTests`, run on the agent states found at its
successive reads of `activeCount`: the state at which it returns. -/
def waitForActiveTests : List Agent → Option Agent
  | [] => none
  | a :: later => if a.activeCount > 0 then waitLoop later else some a

/-- The invariant of the transition system: the counter equals the number of
tracked IDs, no two running pipelines have the same ID, and every running pipeline
has its ID tracked. -/
def TrackerInv (s : System) : Prop :=
  s.agent.activeCount = (s.agent.activeTests.card : Int) ∧
  (s.pipelines.map (fun p => sprintV p.ID)).Nodup ∧
  ∀ p ∈ s.pipelines, sprintV p.ID ∈ s.agent.activeTests

/-! ## Classification of actions -/

/-- Whether an action is a call of `reportResult`. -/
def Action.isReportCall : Action → Bool
  | .callReportResult _ _ _ => true
  | _ => false

/-- Whether an action is a result POST. -/
def Action.isPostResult : Action → Bool
  | .postResult _ _ => true
  | _ => false

/-- Whether an action is a status POST. -/
def Action.isPostStatus : Action → Bool
  | .postStatus _ _ => true
  | _ => false

/-- Whether an action creates a workspace directory. -/
def Action.isMkdirTemp : Action → Bool
  | .mkdirTemp _ => true
  | _ => false

/-- Whether an action starts an external command. -/
def Action.isExec : Action → Bool
  | .exec _ _ _ _ => true
  | _ => false

/-! ## Specification-side definitions for artifact collection -/

/-- Specification: the screenshot entry a walk entry gives rise to. A file (no
walk error, not a directory) whose name ends in `.png` and whose content can be
read yields its name with the base64 text of its content; anything else yields
nothing. -/
def screenshotOf (e : WalkEntry) : Option FileArtifact :=
  if !e.walkErr && !e.isDir && HasSuffix e.name ".png" then
    e.content.map (fun data => { filename := e.name, data := EncodeToString data })
  else none

/-- Specification: the video entry a walk entry can supply. A file whose name
ends in `.webm` and whose content can be read yields its name with the base64 text
of its content; anything else yields nothing. -/
def videoOf (e : WalkEntry) : Option FileArtifact :=
  if !e.walkErr && !e.isDir && HasSuffix e.name ".webm" then
    e.content.map (fun data => { filename := e.name, data := EncodeToString data })
  else none

/-- A walk entry that is a file (no walk error, not a directory) whose name has the
given suffix. -/
def WalkEntry.isFileWithSuffix (e : WalkEntry) (suffix : String) : Bool :=
  !e.walkErr && !e.isDir && HasSuffix e.name suffix

/-! ## Concrete inputs -/

/-- An assignment without inline code and without a script reference. -/
def noCodeAssignment : Assignment :=
  { ID := GoValue.num 1, ScriptID := GoValue.nil, Code := "", Framework := "playwright",
    CustomURL := "", ExecutionID := GoValue.nil, Headless := true, Browser := "chromium",
    ViewportWidth := 1280, ViewportHeight := 720 }

/-- The assignment of the end-to-end scenario: inline code, firefox, headless,
800 by 600. -/
def firefoxAssignment : Assignment :=
  { ID := GoValue.num 1, ScriptID := GoValue.nil, Code := "t", Framework := "playwright",
    CustomURL := "", ExecutionID := GoValue.nil, Headless := true, Browser := "firefox",
    ViewportWidth := 800, ViewportHeight := 600 }

/-- A registered, running agent with an empty tracker and the default heartbeat
interval of 60 seconds. -/
def idleAgent : Agent :=
  { NewAgent "https://app.qamax.co" "key" "agent-1" (60 * Second) with running := true }

/-- A world in which every external call succeeds. -/
def fineWorld : World :=
  { fetchScriptCode := .ok "test()", mkdirTemp := .ok "/tmp/qamax-agent-1-42",
    writeFile := fun _ => none, npmInstall := { err := none, out := "" },
    playwrightInstall := { err := none, out := "" },
    testRun := { runErr := none, stdout := "ok", stderr := "" },
    testResults := none, postResult := .ok 200 }

/-- A world in which `os.MkdirTemp` fails and everything else succeeds. -/
def noTempDirWorld : World :=
  { fineWorld with mkdirTemp := .error "no space left on device" }

/-- The system right after `NewAgent`. -/
def newSystem : System :=
  { agent := NewAgent "https://app.qamax.co" "key" "agent-1" (60 * Second), pipelines := [] }

/-- The system after the poller claimed `firefoxAssignment`. -/
def busySystem : System :=
  { agent := (newSystem.agent.claim firefoxAssignment).1,
    pipelines := newSystem.pipelines ++ (newSystem.agent.claim firefoxAssignment).2.toList }

/-- The system after the pipeline of `firefoxAssignment` ran to its end. -/
def drainedSystem : System :=
  { agent := (ExecuteTest fineWorld busySystem.agent firefoxAssignment).agent,
    pipelines := busySystem.pipelines.erase firefoxAssignment }

/-- A `test-results` directory with three `.png` and two `.webm` files, all
readable. -/
def readableDir : List WalkEntry :=
  [{ name := "test-results", walkErr := false, isDir := true, content := none },
   { name := "a.png", walkErr := false, isDir := false, content := some [1, 2, 3] },
   { name := "b.png", walkErr := false, isDir := false, content := some [] },
   { name := "c.png", walkErr := false, isDir := false, content := some [4] },
   { name := "v.webm", walkErr := false, isDir := false, content := some [5, 6] },
   { name := "w.webm", walkErr := false, isDir := false, content := some [7] }]

/-- A `test-results` directory whose first `.webm` file cannot be read and whose
second can. -/
def unreadableFirstVideoDir : List WalkEntry :=
  [{ name := "test-results", walkErr := false, isDir := true, content := none },
   { name := "a.webm", walkErr := false, isDir := false, content := none },
   { name := "b.webm", walkErr := false, isDir := false, content := some [7] }]

/-- A `test-results` directory whose only file is a `.webm` that cannot be read. -/
def unreadableVideoDir : List WalkEntry :=
  [{ name := "test-results", walkErr := false, isDir := true, content := none },
   { name := "a.webm", walkErr := false, isDir := false, content := none }]

/-! ## Status updates and the runner among the actions -/

/-- The status a status POST carries; nothing for any other action. -/
def Action.status? : Action → Option String
  | .postStatus _ status => some status
  | _ => none

/-- The statuses posted, in order. -/
def statusUpdates (actions : List Action) : List String :=
  actions.filterMap Action.status?

/-- Whether an action is the invocation of the test runner,
`npx playwright test --project <browser>`. -/
def Action.isRunner : Action → Bool
  | .exec _ name args _ => name == "npx" && args.take 2 == ["playwright", "test"]
  | _ => false

/-- Whether an action leaves both the tracker and the workspace directories alone:
everything but `MkdirTemp`, the deferred release and the deferred `RemoveAll`. -/
def Action.isInert : Action → Bool
  | .mkdirTemp _ => false
  | .trackerRelease _ => false
  | .removeAll _ => false
  | _ => true

/-! ## The tracker and the workspaces while a pipeline runs -/

/-- The state a pipeline acts on: the agent and the workspace directories that
exist. -/
structure Host where
  agent : Agent
  dirs : Finset String
  deriving DecidableEq

/-- The effect of one action on the host. `MkdirTemp` creates the directory the
world names (none when it fails), the deferred release updates the tracker, and
`RemoveAll` deletes the directory it is given; `RemoveAll`, whose error the code
discards, is taken to succeed. -/
def perform (w : World) (h : Host) : Action → Host
  | .mkdirTemp _ =>
    match w.mkdirTemp with
    | .ok testDir => { h with dirs := insert testDir h.dirs }
    | .error _ => h
  | .trackerRelease assignmentID => { h with agent := h.agent.release assignmentID }
  | .removeAll path => { h with dirs := h.dirs.erase path }
  | _ => h

/-- The host after a sequence of actions. -/
def performAll (w : World) (h : Host) (actions : List Action) : Host :=
  actions.foldl (perform w) h

/-- One execution on a host: `ExecuteTest` runs from the host's agent and its
actions take effect. -/
def execute (h : Host) (w : World) (assignment : Assignment) : Host :=
  performAll w h (ExecuteTest w h.agent assignment).actions

/-- Executions one after the other, each in its own world. -/
def executeSequentially (h : Host) : List (World × Assignment) → Host
  | [] => h
  | (w, assignment) :: later => executeSequentially (execute h w assignment) later

/-! ## Heartbeat -/

/-- The struct `sysmetrics.Metrics`. -/
structure Metrics where
  CPUPercent : ℚ
  MemoryPercent : ℚ
  ActiveTests : Int
  deriving DecidableEq

/-- The function `sysmetrics.Collect`, given what `getCPUPercent` and
`getMemoryPercent` return (a negative number when the reading is unavailable). -/
def Collect (cpu mem : ℚ) (activeTests : Int) : Option Metrics :=
  if cpu < 0 ∧ mem < 0 then none
  else
    some { CPUPercent := if cpu < 0 then 0 else cpu,
           MemoryPercent := if mem < 0 then 0 else mem,
           ActiveTests := activeTests }

/-- The payload map of `SendHeartbeat`; `system_metrics` is `none` when the key is
not set. -/
structure HeartbeatPayload where
  status : String
  active_tests : List String
  system_metrics : Option Metrics
  deriving DecidableEq

/-- The keys `activeTests.Range` visits, in the order in which it visits them.
`sync.Map` does not specify the order, so it is taken from the world: the tracked
keys that `order` names come first, in the order of their first mention, and the
tracked keys it does not name follow in the order of the strings. Every tracked key
is visited once, and no other key is. -/
def Range (tracked : Finset String) (order : List String) : List String :=
  order.dedup.filter (fun key => key ∈ tracked) ++
    (tracked.filter (fun key => key ∉ order)).sort (fun x y => x ≤ y)

/-- What `SendHeartbeat` meets: the order in which `Range` visits the keys of
`activeTests`, the two readings of the metrics probe, and the answer of the service
(a transport error or the status code). -/
structure HeartbeatWorld where
  rangeOrder : List String
  cpu : ℚ
  mem : ℚ
  answer : Except String Nat

/-- The outcome of `SendHeartbeat`: the error returned, if any, and the payload
posted, if a request was made. -/
structure HeartbeatResult where
  err : Option String
  posted : Option HeartbeatPayload

/-- The function `SendHeartbeat`: the IDs are those `Range` finds in the agent's
`activeTests` at the time of the call. -/
def SendHeartbeat (a : Agent) (hw : HeartbeatWorld) : HeartbeatResult :=
  if a.AgentID = "" ∨ a.APIKey = "" then
    { err := some "agent not registered", posted := none }
  else
    let activeIDs := Range a.activeTests hw.rangeOrder
    let status := if activeIDs.length > 0 then "busy" else "online"
    let payload : HeartbeatPayload :=
      { status := status, active_tests := activeIDs,
        system_metrics := Collect hw.cpu hw.mem activeIDs.length }
    match hw.answer with
    | .error err => { err := some err, posted := some payload }
    | .ok code =>
      if code ≠ 200 then
        { err := some ("heartbeat failed: " ++ toString code), posted := some payload }
      else { err := none, posted := some payload }

/-- The value of `consecutiveFailures` after a sequence of heartbeat outcomes
(`true` for a failed heartbeat), starting from `start`. -/
def failuresAfter (start : Nat) (outcomes : List Bool) : Nat :=
  outcomes.foldl nextFailures start

/-- Specification: the number of failures since the most recent success, that is
the length of the run of failures at the end of the sequence. -/
def failuresSinceSuccess (outcomes : List Bool) : Nat :=
  (outcomes.reverse.takeWhile (fun failed => failed)).length

/-! ## Registration and start-up -/

/-- The two entries of the decoded registration response that `Register` reads,
`data["agent_id"]` and `data["api_key"]`; `GoValue.nil` for an absent key. -/
structure RegisterBody where
  agent_id : GoValue
  api_key : GoValue
  deriving DecidableEq

/-- The answer to the registration request: a transport error, or the status code
with the body text and what `json.Unmarshal` makes of it (an error text when the
body cannot be decoded). -/
inductive RegisterAnswer where
  | transportError (err : String)
  | response (statusCode : Nat) (body : String) (decoded : Except String RegisterBody)

/-- What `Register` does to the outside. -/
inductive RegisterAction where
  /-- The POST of `/api/agent/register`. -/
  | postRegister
  /-- The call `a.OnRegistered(agentID, apiKey)`. -/
  | onRegistered (agentID apiKey : String)
  deriving DecidableEq

/-- The outcome of `Register`: the error returned, the agent afterwards and the
actions performed. -/
structure RegisterResult where
  err : Option String
  agent : Agent
  actions : List RegisterAction

/-- The function `Register`. `onRegisteredSet` tells whether the field
`a.OnRegistered` is non-nil. -/
def Register (a : Agent) (onRegisteredSet : Bool) (answer : RegisterAnswer) : RegisterResult :=
  match answer with
  | .transportError err =>
    { err := some ("registration request failed: " ++ err), agent := a,
      actions := [RegisterAction.postRegister] }
  | .response statusCode body decoded =>
    if statusCode ≠ 200 then
      { err := some ("registration failed: " ++ toString statusCode ++ " - " ++ body),
        agent := a, actions := [RegisterAction.postRegister] }
    else
      match decoded with
      | .error err =>
        { err := some ("parse registration response: " ++ err), agent := a,
          actions := [RegisterAction.postRegister] }
      | .ok data =>
        let a1 : Agent :=
          match data.agent_id with
          | .str id => { a with AgentID := id }
          | _ => a
        let a2 : Agent :=
          match data.api_key with
          | .str key => { a1 with APIKey := key }
          | _ => a1
        { err := none, agent := a2,
          actions := RegisterAction.postRegister ::
            (if onRegisteredSet then [RegisterAction.onRegistered a2.AgentID a2.APIKey]
             else []) }

/-- What `Run` does, seen from outside. -/
inductive RunEvent where
  /-- An action of `Register`. -/
  | registration (action : RegisterAction)
  /-- The statement `go a.heartbeatLoop(ctx)`. -/
  | heartbeatLoopStarted
  /-- A call of `PollAssignments` on a tick. -/
  | poll
  /-- The statement `go a.ExecuteTest(ctx, assignment)`. -/
  | pipelineStarted (assignment : Assignment)
  deriving DecidableEq

/-- The ticks of the `for`/`select` loop of `Run`, each with the answer of the
service to its poll: the agent afterwards and the events, in order. A failed poll
is logged and the loop continues. -/
def runTicks (a : Agent) :
    List (Except String (Nat × Except String (List Assignment))) → Agent × List RunEvent
  | [] => (a, [])
  | answer :: later =>
    match PollAssignments a answer with
    | .error _ =>
      let r := runTicks a later
      (r.1, RunEvent.poll :: r.2)
    | .ok assignments =>
      let p := a.processAssignments assignments
      let r := runTicks p.1 later
      (r.1, RunEvent.poll :: (p.2.map RunEvent.pipelineStarted ++ r.2))

/-- The outcome of `Run` up to the shutdown signal: the error it returned, if
registration failed, the agent and the events. -/
structure RunOutcome where
  err : Option String
  agent : Agent
  events : List RunEvent

/-- The function `Run` up to the arrival of `ctx.Done()`: registration, then, if
it succeeded, `running = true`, the start of the heartbeat loop and the ticks
that fire before the shutdown signal. -/
def Run (a : Agent) (onRegisteredSet : Bool) (answer : RegisterAnswer)
    (ticks : List (Except String (Nat × Except String (List Assignment)))) : RunOutcome :=
  let r := Register a onRegisteredSet answer
  match r.err with
  | some err =>
    { err := some ("failed to register agent: " ++ err), agent := r.agent,
      events := r.actions.map RunEvent.registration }
  | none =>
    let t := runTicks { r.agent with running := true } ticks
    { err := none, agent := t.1,
      events := r.actions.map RunEvent.registration ++
        (RunEvent.heartbeatLoopStarted :: t.2) }

/-- Whether an action writes a file. -/
def Action.isWriteFile : Action → Bool
  | .writeFile _ _ => true
  | _ => false

/-- A world in which everything succeeds but the test run, which exits with
status 1. -/
def failingRunWorld : World :=
  { fineWorld with testRun := { runErr := some "exit status 1", stdout := "", stderr := "boom" } }

/-- A world in which `npm install` fails and everything else succeeds. -/
def failingInstallWorld : World :=
  { fineWorld with npmInstall := { err := some "exit status 1", out := "npm ERR! network" } }

/-- Whether a registration action is the call of `OnRegistered`. -/
def RegisterAction.isOnRegistered : RegisterAction → Bool
  | .onRegistered _ _ => true
  | .postRegister => false

/-- A registration response with status 200 whose `agent_id` is the number 7 and
whose `api_key` is the string `new-key`. -/
def numericIdAnswer : RegisterAnswer :=
  RegisterAnswer.response 200
    "\x7b\x22agent_id\x22: 7, \x22api_key\x22: \x22new-key\x22\x7d"
    (.ok { agent_id := GoValue.num 7, api_key := GoValue.str "new-key" })

/-- A registration response with status 200 and the body of an empty object. -/
def emptyObjectAnswer : RegisterAnswer :=
  RegisterAnswer.response 200 "\x7b\x7d" (.ok { agent_id := GoValue.nil, api_key := GoValue.nil })

/-- A registration response with status 200 that returns both values as
strings. -/
def fullAnswer : RegisterAnswer :=
  RegisterAnswer.response 200
    "\x7b\x22agent_id\x22: \x22agent-9\x22, \x22api_key\x22: \x22new-key\x22\x7d"
    (.ok { agent_id := GoValue.str "agent-9", api_key := GoValue.str "new-key" })

/-- The host right after the poller claimed `firefoxAssignment` on `idleAgent`: the
ID is tracked and no workspace exists. -/
def claimedHost : Host :=
  { agent := (idleAgent.claim firefoxAssignment).1, dirs := ∅ }

/-! ## Go strings that need not be valid UTF-8 -/

/-- One step of `utf8.DecodeRuneInString` over a Go string: a validly encoded rune,
or a byte that does not start a valid encoding. -/
inductive GoRune where
  | rune (c : Char)
  | invalid (byte : Fin 256)
  deriving DecidableEq

/-- A Go string as the sequence of steps in which `utf8.DecodeRuneInString` walks
it. The strings built with `GoRune.rune` only are the valid UTF-8 strings. Used
where a string can come from outside JSON (command-line flags, URL queries). -/
abbrev GoString := List GoRune

/-- The Go string with the characters of a text. -/
def GoString.ofString (s : String) : GoString :=
  s.data.map GoRune.rune

/-- Whether a Go string is valid UTF-8 (`utf8.ValidString`). -/
def GoString.isValid (s : GoString) : Bool :=
  s.all (fun r => match r with
    | .rune _ => true
    | .invalid _ => false)

/-- The number of bytes of one step. -/
def GoRune.size : GoRune → Nat
  | .rune c => c.utf8Size
  | .invalid _ => 1

/-- The built-in `len(s)`: the number of bytes. -/
def GoString.len (s : GoString) : Nat :=
  (s.map GoRune.size).sum

/-- The function `strings.TrimRight`: the trailing runes contained in `cutset` are
removed (an invalid byte counts as U+FFFD, as it decodes to `utf8.RuneError`). -/
def TrimRight (s : GoString) (cutset : String) : GoString :=
  s.rdropWhile (fun r => match r with
    | .rune c => decide (c ∈ cutset.data)
    | .invalid _ => decide (Char.ofNat 65533 ∈ cutset.data))

/-- The function `strings.TrimSuffix`. -/
def TrimSuffix (s suffix : GoString) : GoString :=
  if suffix.isSuffixOf s then s.take (s.length - suffix.length) else s

/-! ## Persistent configuration (`config.go`) -/

/-- The struct `Config`. -/
structure Config where
  Token : GoString
  APIURL : GoString
  AgentID : GoString
  APIKey : GoString
  RegistrationSecret : GoString
  deriving DecidableEq

/-- The method `GetAPIBaseURL`. -/
def Config.GetAPIBaseURL (c : Config) : GoString :=
  TrimSuffix (TrimRight c.APIURL "/") (GoString.ofString "/app")

/-- The config whose only non-empty field is the given API URL. -/
def configWithURL (url : GoString) : Config :=
  { Token := [], APIURL := url, AgentID := [], APIKey := [], RegistrationSecret := [] }


/-! ## The login callback (`cmd_login.go`) -/

/-- The parts of an HTTP request the `/callback` handler reads: the method and the
parsed query of the URL (`r.URL.Query()`), as key/value pairs in the order of the
query string. -/
structure Request where
  Method : String
  Query : List (GoString × GoString)

/-- The method `url.Values.Get`: the first value of the key, the empty string when
the key has none. -/
def Values.Get (v : List (GoString × GoString)) (key : String) : GoString :=
  match v.find? (fun p => decide (p.1 = GoString.ofString key)) with
  | some p => p.2
  | none => []

/-- What the handler writes to the `http.ResponseWriter`. -/
structure Response where
  status : Nat
  contentType : String
  body : String
  deriving DecidableEq

/-- The function `http.Error`: a plain-text answer with the given code, the text
followed by a line break. -/
def httpError (error : String) (code : Nat) : Response :=
  { status := code, contentType := "text/plain; charset=utf-8", body := error ++ "\n" }

/-- The page the handler prints after a successful login. -/
def loginPage : String :=
  "<!DOCTYPE html>\n<html>\n<head><title>QualityMax CLI Login</title></head>\n<body style=\x22font-family: system-ui, sans-serif; display: flex; justify-content: center; align-items: center; height: 100vh; margin: 0; background: #f8f9fa;\x22>\n<div style=\x22text-align: center; padding: 2rem; background: white; border-radius: 12px; box-shadow: 0 2px 8px rgba(0,0,0,0.1);\x22>\n<h1 style=\x22color: #22c55e;\x22>Login Successful</h1>\n<p>You can close this window and return to the terminal.</p>\n</div>\n</body>\n</html>"

/-- What one call of the handler does: the answer written, and the value sent on
`tokenCh`, if any. The channel has room for one value and the login flow receives
once, so it is the first value sent that the flow takes up. -/
structure Handled where
  response : Response
  sent : Option GoString
  deriving DecidableEq

/-- The handler registered for `/callback` in `cmdLogin`, applied to one request.
`len(token)` counts bytes. -/
def callbackHandler (r : Request) : Handled :=
  if r.Method ≠ "GET" then
    { response := httpError "Method not allowed" 405, sent := none }
  else
    let token := Values.Get r.Query "token"
    if token = [] then
      { response := httpError "Missing token parameter" 400, sent := none }
    else if token.len < 10 ∨ token.len > 8192 then
      { response := httpError "Invalid token" 400, sent := none }
    else
      { response := { status := 200, contentType := "text/html; charset=utf-8",
                      body := loginPage },
        sent := some token }

/-- A request with the given method and a query that has just the parameter
`token`. -/
def tokenRequest (method : String) (token : String) : Request :=
  { Method := method, Query := [(GoString.ofString "token", GoString.ofString token)] }

/-! ## The tracker, statement by statement -/

/-- Where the poll loop of `Run` stands in its iteration for one assignment:
before `activeTests.Load`, after a `Load` that did not find the ID, after
`activeTests.Store`, or after `activeCount++` and before `go a.ExecuteTest`. -/
inductive PollerPC where
  | idle
  | loaded (id : String)
  | stored (id : String)
  | counted (id : String)
  deriving DecidableEq

/-- The agent with the goroutines that touch the tracker: the position of the
poller, the IDs of the pipelines that run and have not begun their deferred
release, and the IDs of those that have done `activeTests.Delete` and not yet
`activeCount--`. -/
structure Interleaving where
  agent : Agent
  poller : PollerPC
  running : List String
  releasing : List String
  deriving DecidableEq

/-- The statements of the source that touch the tracker, each atomic by itself:
the poller's `Load`, `Store`, `activeCount++` (under `mu`) and `go`; a pipeline's
return before its deferred release is registered; a pipeline's `Delete` and its
`activeCount--` (under `mu`). -/
inductive Micro where
  | load (assignment : Assignment)
  | store
  | count
  | spawn
  | earlyReturn (id : String)
  | delete (id : String)
  | uncount (id : String)
  deriving DecidableEq

/-- The state after one statement, `none` when no goroutine is about to run that
statement. -/
def Interleaving.step (s : Interleaving) : Micro → Option Interleaving
  | .load assignment =>
    match s.poller with
    | .idle =>
      if sprintV assignment.ID ∈ s.agent.activeTests then some s
      else some { s with poller := .loaded (sprintV assignment.ID) }
    | _ => none
  | .store =>
    match s.poller with
    | .loaded id =>
      some { s with agent := { s.agent with activeTests := insert id s.agent.activeTests },
                    poller := .stored id }
    | _ => none
  | .count =>
    match s.poller with
    | .stored id =>
      some { s with agent := { s.agent with activeCount := s.agent.activeCount + 1 },
                    poller := .counted id }
    | _ => none
  | .spawn =>
    match s.poller with
    | .counted id => some { s with poller := .idle, running := s.running ++ [id] }
    | _ => none
  | .earlyReturn id =>
    if id ∈ s.running then some { s with running := s.running.erase id } else none
  | .delete id =>
    if id ∈ s.running then
      some { s with agent := { s.agent with activeTests := s.agent.activeTests.erase id },
                    running := s.running.erase id,
                    releasing := id :: s.releasing }
    else none
  | .uncount id =>
    if id ∈ s.releasing then
      some { s with agent := { s.agent with activeCount := s.agent.activeCount - 1 },
                    releasing := s.releasing.erase id }
    else none

/-- The state after a sequence of statements, in the order in which they take
effect. -/
def Interleaving.run (s : Interleaving) : List Micro → Option Interleaving
  | [] => some s
  | e :: later => (s.step e).bind (fun t => t.run later)

/-- The state `Run` starts polling in: a new agent, no pipeline. -/
def Interleaving.start (cloudURL apiKey agentID : String) (heartbeatInterval : Int) :
    Interleaving :=
  { agent := NewAgent cloudURL apiKey agentID heartbeatInterval, poller := .idle,
    running := [], releasing := [] }

/-- What the heartbeat loop reads of the tracker (`activeTests.Range`) and what
`waitForActiveTests` reads of it (`activeCount`, under `mu`). -/
def Interleaving.observed (s : Interleaving) : Finset String × Int :=
  (s.agent.activeTests, s.agent.activeCount)

/-- Whether the poller stands between `Store` and `activeCount++`. -/
def Interleaving.claimPending (s : Interleaving) : Bool :=
  match s.poller with
  | .stored _ => true
  | _ => false

/-- The invariant of the interleavings: the counter is the number of tracked IDs,
less the claim the poller has stored and not counted, plus the releases deleted and
not counted; running pipelines have distinct, tracked IDs; the poller holds an ID
that is untracked before `Store`, and tracked and not running after it. -/
def InterleavingInv (s : Interleaving) : Prop :=
  s.agent.activeCount =
    (s.agent.activeTests.card : Int) - (if s.claimPending then 1 else 0) +
      s.releasing.length ∧
  s.running.Nodup ∧
  (∀ id ∈ s.running, id ∈ s.agent.activeTests) ∧
  (∀ id, s.poller = .loaded id → id ∉ s.agent.activeTests) ∧
  (∀ id, s.poller = .stored id ∨ s.poller = .counted id →
    id ∈ s.agent.activeTests ∧ id ∉ s.running)

/-- The statements up to the poller's `Store` for `firefoxAssignment`. -/
def storeOnly : List Micro := [Micro.load firefoxAssignment, Micro.store]

/-- One claim and one full release of `firefoxAssignment`. -/
def claimAndRelease : List Micro :=
  [Micro.load firefoxAssignment, Micro.store, Micro.count, Micro.spawn,
   Micro.delete "1", Micro.uncount "1"]

/-! ## JSON texts (`encoding/json`) -/

/-- The opening brace. -/
def lbrace : Char := Char.ofNat 123

/-- The closing brace. -/
def rbrace : Char := Char.ofNat 125

/-- The replacement character U+FFFD. -/
def replacementChar : Char := Char.ofNat 65533

/-- What `appendString` of `encoding/json` emits for one rune of a Go string: the
escape of a valid rune, and the six characters of the escape of U+FFFD for a byte
that is not part of a valid UTF-8 encoding. -/
def appendRune : GoRune → List Char
  | .rune c => escapeRune c
  | .invalid _ => [backslash, 'u', 'f', 'f', 'f', 'd']

/-- The JSON string literal `json.Marshal` writes for a Go string. -/
def marshalGoString (s : GoString) : List Char :=
  dquote :: (s.flatMap appendRune ++ [dquote])

/-- A JSON value as the decoder sees it. Of a number only its presence matters
here. -/
inductive JSONValue where
  | null
  | bool (b : Bool)
  | number
  | string (s : List Char)
  | array (elements : List JSONValue)
  | object (members : List (List Char × JSONValue))

/-- Whether a rune is JSON white space: space, tab, carriage return or line feed. -/
def isJSONSpace : GoRune → Bool
  | .rune c => c = ' ' ∨ c = Char.ofNat 9 ∨ c = Char.ofNat 13 ∨ c = Char.ofNat 10
  | .invalid _ => false

/-- The input without its leading white space. -/
def skipSpace (s : GoString) : GoString :=
  s.dropWhile isJSONSpace

/-- Whether a rune is a decimal digit. -/
def isDigit : GoRune → Bool
  | .rune c => 48 ≤ c.toNat ∧ c.toNat ≤ 57
  | .invalid _ => false

/-- The value of a rune as a hexadecimal digit. -/
def GoRune.hexVal : GoRune → Option Nat
  | .rune c => QamaxAgent.hexVal c
  | .invalid _ => none

/-- One unit of a decoded string literal: a character, or the value of a `\u`
escape in the surrogate range. -/
inductive CodeUnit where
  | char (c : Char)
  | surrogate (v : Nat)
  deriving DecidableEq

/-- The unit a `\u` escape of the given value stands for. -/
def escapeUnit (v : Nat) : CodeUnit :=
  if 55296 ≤ v ∧ v ≤ 57343 then CodeUnit.surrogate v else CodeUnit.char (Char.ofNat v)

/-- The states of the scanner inside a string literal: in the string, after a
backslash, and after `\u` and the given number of hexadecimal digits, which have
the given value. -/
inductive StringState where
  | plain
  | escaped
  | hex (seen : Nat) (value : Nat)
  deriving DecidableEq

/-- A unit put in front of the units a reader returns. -/
def consUnit (u : CodeUnit) (r : Option (List CodeUnit × GoString)) :
    Option (List CodeUnit × GoString) :=
  r.map (fun p => (u :: p.1, p.2))

/-- The reader of the inside of a string literal, as the scanner and `unquote` of
`encoding/json` treat it: it consumes runes up to the first unescaped double quote
and returns the units read and the input after the quote. An unescaped control
character, an unknown escape, a `\u` without four hexadecimal digits and a missing
closing quote are errors. A byte that is not part of a valid UTF-8 encoding is read
as U+FFFD. -/
def readUnitsFrom : StringState → GoString → Option (List CodeUnit × GoString)
  | _, [] => none
  | .plain, .invalid _ :: rest =>
    consUnit (CodeUnit.char replacementChar) (readUnitsFrom .plain rest)
  | .plain, .rune c :: rest =>
    if c = dquote then some ([], rest)
    else if c = backslash then readUnitsFrom .escaped rest
    else if c.toNat < 32 then none
    else consUnit (CodeUnit.char c) (readUnitsFrom .plain rest)
  | .escaped, .invalid _ :: _ => none
  | .escaped, .rune e :: rest =>
    if e = 'u' then readUnitsFrom (.hex 0 0) rest
    else
      match simpleEscape e with
      | some ch => consUnit (CodeUnit.char ch) (readUnitsFrom .plain rest)
      | none => none
  | .hex seen value, h :: rest =>
    match h.hexVal with
    | none => none
    | some d =>
      if seen = 3 then consUnit (escapeUnit (value * 16 + d)) (readUnitsFrom .plain rest)
      else readUnitsFrom (.hex (seen + 1) (value * 16 + d)) rest

/-- The reader of the inside of a string literal, started after the opening
quote. -/
def readUnits (s : GoString) : Option (List CodeUnit × GoString) :=
  readUnitsFrom .plain s

/-- The characters a sequence of units stands for, as `unquote` computes them: a
high surrogate directly followed by a low surrogate is the character the pair
encodes, every other surrogate is U+FFFD. The first argument is the surrogate read
last, when it still waits for its partner. -/
def decodeUnitsFrom : Option Nat → List CodeUnit → List Char
  | none, [] => []
  | some _, [] => [replacementChar]
  | none, .char c :: rest => c :: decodeUnitsFrom none rest
  | some _, .char c :: rest => replacementChar :: c :: decodeUnitsFrom none rest
  | none, .surrogate v :: rest => decodeUnitsFrom (some v) rest
  | some hi, .surrogate lo :: rest =>
    if hi < 56320 ∧ 56320 ≤ lo then
      Char.ofNat (65536 + (hi - 55296) * 1024 + (lo - 56320)) :: decodeUnitsFrom none rest
    else replacementChar :: decodeUnitsFrom (some lo) rest

/-- The characters a sequence of units stands for. -/
def decodeUnits (units : List CodeUnit) : List Char :=
  decodeUnitsFrom none units

/-- The reader of a string literal after its opening quote: the string denoted and
the input after the closing quote. -/
def readString (s : GoString) : Option (List Char × GoString) :=
  (readUnits s).map (fun p => (decodeUnits p.1, p.2))

/-- The input after a non-empty run of digits, `none` when there is no digit. -/
def readDigits (s : GoString) : Option GoString :=
  match s with
  | d :: rest => if isDigit d then some (rest.dropWhile isDigit) else none
  | [] => none

/-- The input after the integer part of a number: a single `0`, or a digit from
`1` to `9` followed by digits. -/
def readInt (s : GoString) : Option GoString :=
  match s with
  | d :: rest =>
    if d = .rune '0' then some rest
    else if isDigit d then some (rest.dropWhile isDigit)
    else none
  | [] => none

/-- The input after an optional fraction: a point followed by digits. -/
def readFrac (s : GoString) : Option GoString :=
  match s with
  | d :: rest => if d = .rune '.' then readDigits rest else some s
  | [] => some s

/-- The input after an optional exponent: `e` or `E`, an optional sign, digits. -/
def readExp (s : GoString) : Option GoString :=
  match s with
  | d :: rest =>
    if d = .rune 'e' ∨ d = .rune 'E' then
      match rest with
      | sign :: rest1 =>
        if sign = .rune '+' ∨ sign = .rune '-' then readDigits rest1 else readDigits rest
      | [] => none
    else some s
  | [] => some s

/-- The input after a number: an optional minus sign, the integer part, an optional
fraction and an optional exponent. -/
def readNumber (s : GoString) : Option GoString :=
  let unsigned := match s with
    | d :: rest => if d = .rune '-' then rest else s
    | [] => s
  ((readInt unsigned).bind readFrac).bind readExp

/-- The input after the given word, `none` when the input does not start with it. -/
def readWord (word : String) (s : GoString) : Option GoString :=
  if (GoString.ofString word).isPrefixOf s then some (s.drop word.length) else none

/-- The constant `maxNestingDepth` of the scanner. -/
def maxNestingDepth : Nat := 10000

mutual

/-- The reader of one value. The input starts at the value; the result is the value
and the input after it. `depth` is the number of arrays and objects around the
value; the first argument bounds the number of values and members still to read. -/
def parseValue : Nat → Nat → GoString → Option (JSONValue × GoString)
  | 0, _, _ => none
  | fuel + 1, depth, s =>
    match s with
    | [] => none
    | r :: rest =>
      if r = .rune lbrace then
        if depth + 1 > maxNestingDepth then none
        else
          match skipSpace rest with
          | r1 :: rest1 =>
            if r1 = .rune rbrace then some (JSONValue.object [], rest1)
            else
              (parseMembers fuel (depth + 1) (r1 :: rest1)).map
                (fun p => (JSONValue.object p.1, p.2))
          | [] => none
      else if r = .rune '[' then
        if depth + 1 > maxNestingDepth then none
        else
          match skipSpace rest with
          | r1 :: rest1 =>
            if r1 = .rune ']' then some (JSONValue.array [], rest1)
            else
              (parseElements fuel (depth + 1) (r1 :: rest1)).map
                (fun p => (JSONValue.array p.1, p.2))
          | [] => none
      else if r = .rune dquote then
        (readString rest).map (fun p => (JSONValue.string p.1, p.2))
      else if r = .rune 't' then
        (readWord "true" s).map (fun t => (JSONValue.bool true, t))
      else if r = .rune 'f' then
        (readWord "false" s).map (fun t => (JSONValue.bool false, t))
      else if r = .rune 'n' then
        (readWord "null" s).map (fun t => (JSONValue.null, t))
      else
        (readNumber s).map (fun t => (JSONValue.number, t))

/-- The reader of the members of an object. The input starts at the first key; the
result is the members and the input after the closing brace. -/
def parseMembers : Nat → Nat → GoString → Option (List (List Char × JSONValue) × GoString)
  | 0, _, _ => none
  | fuel + 1, depth, s =>
    match s with
    | [] => none
    | r :: rest =>
      if r = .rune dquote then
        match readString rest with
        | none => none
        | some (key, afterKey) =>
          match skipSpace afterKey with
          | colon :: afterColon =>
            if colon = .rune ':' then
              match parseValue fuel depth (skipSpace afterColon) with
              | none => none
              | some (v, afterValue) =>
                match skipSpace afterValue with
                | sep :: afterSep =>
                  if sep = .rune ',' then
                    (parseMembers fuel depth (skipSpace afterSep)).map
                      (fun p => ((key, v) :: p.1, p.2))
                  else if sep = .rune rbrace then some ([(key, v)], afterSep)
                  else none
                | [] => none
            else none
          | [] => none
      else none

/-- The reader of the elements of an array. The input starts at the first element;
the result is the elements and the input after the closing bracket. -/
def parseElements : Nat → Nat → GoString → Option (List JSONValue × GoString)
  | 0, _, _ => none
  | fuel + 1, depth, s =>
    match parseValue fuel depth s with
    | none => none
    | some (v, afterValue) =>
      match skipSpace afterValue with
      | sep :: afterSep =>
        if sep = .rune ',' then
          (parseElements fuel depth (skipSpace afterSep)).map (fun p => (v :: p.1, p.2))
        else if sep = .rune ']' then some ([v], afterSep)
        else none
      | [] => none

end

/-- The reader of a whole JSON text: white space, one value, white space, and
nothing else. Of two nested calls of the readers at least one follows the
consumption of a rune, so a bound of twice the length of the text, and two, is
never used up. -/
def parseJSON (data : GoString) : Option JSONValue :=
  match parseValue (2 * data.length + 2) 0 (skipSpace data) with
  | some (v, rest) => if (skipSpace rest).isEmpty then some v else none
  | none => none

/-- The function `json.Valid`: whether the data is a JSON text the scanner of
`encoding/json` accepts. -/
def Valid (data : GoString) : Bool :=
  (parseJSON data).isSome

/-! ## Encoding and decoding a `Config` -/

/-- The JSON names of the fields of `Config`, in the order of the declaration. -/
def fieldNames : List String :=
  ["token", "api_url", "agent_id", "api_key", "registration_secret"]

/-- The fields of a `Config` with their JSON names, in the order of the
declaration. -/
def Config.fields (c : Config) : List (String × GoString) :=
  [("token", c.Token), ("api_url", c.APIURL), ("agent_id", c.AgentID),
   ("api_key", c.APIKey), ("registration_secret", c.RegistrationSecret)]

/-- One member as `json.MarshalIndent` writes it: the name, a colon, a space, the
value. -/
def renderMember (m : String × GoString) : List Char :=
  marshalGoString (GoString.ofString m.1) ++ ':' :: ' ' :: marshalGoString m.2

/-- The text of an object with string members as `json.MarshalIndent(v, "", "  ")`
writes it: every member on a line of its own, indented by two spaces; `{}` when
there is no member. -/
def renderObject (members : List (String × GoString)) : List Char :=
  if members.isEmpty then [lbrace, rbrace]
  else
    lbrace :: Char.ofNat 10 :: ' ' :: ' ' ::
      (List.intercalate [',', Char.ofNat 10, ' ', ' '] (members.map renderMember) ++
        [Char.ofNat 10, rbrace])

/-- The bytes `json.MarshalIndent(c, "", "  ")` returns for a `Config`: the fields
that are not empty (`omitempty`), in the order of the declaration. -/
def MarshalIndent (c : Config) : GoString :=
  (renderObject (c.fields.filter (fun f => !f.2.isEmpty))).map GoRune.rune

/-- The function `foldRune` of `encoding/json` on the runes that matter for a
comparison with the names of `Config`, which are ASCII: a small ASCII letter is
folded to its capital, the Kelvin sign U+212A to `K` and the long s U+017F to `S`;
no other rune is folded to an ASCII rune. -/
def foldRune (c : Char) : Char :=
  if 97 ≤ c.toNat ∧ c.toNat ≤ 122 then Char.ofNat (c.toNat - 32)
  else if c = Char.ofNat 8490 then 'K'
  else if c = Char.ofNat 383 then 'S'
  else c

/-- The function `foldName` of `encoding/json`. -/
def foldName (name : List Char) : List Char :=
  name.map foldRune

/-- The field a key of the JSON object is stored in: the field of exactly that
name, otherwise the first field whose folded name is the folded key. -/
def findField (key : List Char) : Option String :=
  match fieldNames.find? (fun name => decide (name.data = key)) with
  | some name => some name
  | none => fieldNames.find? (fun name => decide (foldName name.data = foldName key))

/-- The assignment to the field of the given JSON name. -/
def Config.set (c : Config) (name : String) (v : GoString) : Config :=
  if name = "token" then { c with Token := v }
  else if name = "api_url" then { c with APIURL := v }
  else if name = "agent_id" then { c with AgentID := v }
  else if name = "api_key" then { c with APIKey := v }
  else if name = "registration_secret" then { c with RegistrationSecret := v }
  else c

/-- The errors of `json.Unmarshal`: a `SyntaxError`, or an `UnmarshalTypeError`
for a JSON value of the given kind. -/
inductive UnmarshalError where
  | syntaxError
  | typeError (value : String)
  deriving DecidableEq

/-- The state of the decoder: the `Config` being filled and the first type error
met (`saveError`). -/
structure DecodeState where
  cfg : Config
  savedError : Option UnmarshalError

/-- The method `saveError`: the first error is kept. -/
def DecodeState.saveError (d : DecodeState) (e : UnmarshalError) : DecodeState :=
  match d.savedError with
  | some _ => d
  | none => { d with savedError := some e }

/-- The decoding of one member of the object into the `Config`: a key that names no
field is skipped; a string is stored, `null` leaves the field as it is, and any
other value is a type error. -/
def DecodeState.storeMember (d : DecodeState) (m : List Char × JSONValue) : DecodeState :=
  match findField m.1 with
  | none => d
  | some name =>
    match m.2 with
    | .string s => { d with cfg := d.cfg.set name (s.map GoRune.rune) }
    | .null => d
    | .bool _ => d.saveError (.typeError "bool")
    | .number => d.saveError (.typeError "number")
    | .array _ => d.saveError (.typeError "array")
    | .object _ => d.saveError (.typeError "object")

/-- The function `json.Unmarshal(data, &cfg)` for a `Config`: the error, or the
`Config` after the decoding. The data is checked first (`checkValid`); then an
object is decoded member by member, `null` changes nothing, and any other value is a
type error. -/
def Unmarshal (data : GoString) (cfg : Config) : Except UnmarshalError Config :=
  match parseJSON data with
  | none => .error .syntaxError
  | some v =>
    match v with
    | .object members =>
      match (members.foldl DecodeState.storeMember
          { cfg := cfg, savedError := none }).savedError with
      | some e => .error e
      | none =>
        .ok (members.foldl DecodeState.storeMember { cfg := cfg, savedError := none }).cfg
    | .null => .ok cfg
    | .bool _ => .error (.typeError "bool")
    | .number => .error (.typeError "number")
    | .string _ => .error (.typeError "string")
    | .array _ => .error (.typeError "array")

/-! ## The configuration file -/

/-- The part of the file system the configuration code meets: the outcome of
`os.UserHomeDir`, the error of `os.MkdirAll` for a directory, the error of
`os.WriteFile` for a path, the content of the files that exist, and the error,
other than the absence of the file, that `os.ReadFile` meets for a path. -/
structure Disk where
  home : Except String String
  mkdirAll : String → Option String
  writeFile : String → Option String
  files : String → Option GoString
  readError : String → Option String

/-- The outcome of `os.ReadFile`: the content, an error for which `os.IsNotExist`
holds, or another error. -/
inductive ReadOutcome where
  | data (content : GoString)
  | notExist
  | failed (err : String)
  deriving DecidableEq

/-- The function `os.ReadFile`. -/
def Disk.ReadFile (disk : Disk) (path : String) : ReadOutcome :=
  match disk.readError path with
  | some err => .failed err
  | none =>
    match disk.files path with
    | some content => .data content
    | none => .notExist

/-- The function `ConfigDir`. -/
def ConfigDir (disk : Disk) : Except String String :=
  match disk.home with
  | .error err => .error ("cannot determine home directory: " ++ err)
  | .ok home => .ok (joinPath home ".qamax")

/-- The function `ConfigPath`. -/
def ConfigPath (disk : Disk) : Except String String :=
  match disk.home with
  | .error err => .error ("cannot determine home directory: " ++ err)
  | .ok home => .ok (joinPath (joinPath home ".qamax") "config.json")

/-- The errors of `LoadConfig`: that of `ConfigPath`, `read config: ...` and
`parse config: ...`. -/
inductive LoadError where
  | path (err : String)
  | read (err : String)
  | parse (err : UnmarshalError)
  deriving DecidableEq

deriving instance DecidableEq for Except

/-- The `Config` with all fields empty. -/
def zeroConfig : Config :=
  { Token := [], APIURL := [], AgentID := [], APIKey := [], RegistrationSecret := [] }

/-- The function `LoadConfig`. -/
def LoadConfig (disk : Disk) : Except LoadError Config :=
  match ConfigPath disk with
  | .error err => .error (.path err)
  | .ok path =>
    match disk.ReadFile path with
    | .notExist => .ok zeroConfig
    | .failed err => .error (.read ("read config: " ++ err))
    | .data data =>
      match Unmarshal data zeroConfig with
      | .error err => .error (.parse err)
      | .ok cfg => .ok cfg

/-- The method `Save`: the error returned, and the disk afterwards. Marshalling a
`Config` cannot fail. A failed write leaves the disk as it was. -/
def Config.Save (c : Config) (disk : Disk) : Option String × Disk :=
  match ConfigDir disk with
  | .error err => (some err, disk)
  | .ok dir =>
    match disk.mkdirAll dir with
    | some err => (some ("create config directory: " ++ err), disk)
    | none =>
      match disk.writeFile (joinPath dir "config.json") with
      | some err => (some ("write config: " ++ err), disk)
      | none =>
        (none, { disk with
          files := Function.update disk.files (joinPath dir "config.json")
                     (some (MarshalIndent c)) })

/-- The rune `utf8.DecodeRune` returns at a rune of a Go string: the rune itself,
and U+FFFD at a byte that is not part of a valid UTF-8 encoding. -/
def GoRune.toValid : GoRune → Char
  | .rune c => c
  | .invalid _ => replacementChar

/-- A Go string with every byte that is not part of a valid UTF-8 encoding replaced
by U+FFFD. -/
def GoString.toValid (s : GoString) : GoString :=
  s.map (fun r => GoRune.rune r.toValid)

/-- A `Config` with every field made valid UTF-8. -/
def Config.toValid (c : Config) : Config :=
  { Token := c.Token.toValid, APIURL := c.APIURL.toValid, AgentID := c.AgentID.toValid,
    APIKey := c.APIKey.toValid, RegistrationSecret := c.RegistrationSecret.toValid }

/-- A disk with the home directory `/home/u`, on which every call succeeds and no
file exists. -/
def emptyDisk : Disk :=
  { home := .ok "/home/u", mkdirAll := fun _ => none, writeFile := fun _ => none,
    files := fun _ => none, readError := fun _ => none }

/-- The disk `emptyDisk` with a configuration file of the given content. -/
def diskWith (content : String) : Disk :=
  { emptyDisk with
    files := Function.update emptyDisk.files "/home/u/.qamax/config.json"
               (some (GoString.ofString content)) }

/-- The `Config` of `TestSaveAndLoadConfig`. -/
def testConfig : Config :=
  { Token := GoString.ofString "test-token-123",
    APIURL := GoString.ofString "https://app.qamax.co",
    AgentID := GoString.ofString "agent-uuid",
    APIKey := GoString.ofString "hex-api-key",
    RegistrationSecret := GoString.ofString "secret" }

/-- A `Config` whose token is ten bytes `0xff`, as the login callback stores it for
the query `token=%ff%ff%ff%ff%ff%ff%ff%ff%ff%ff`. -/
def invalidTokenConfig : Config :=
  { Token := List.replicate 10 (GoRune.invalid 255),
    APIURL := GoString.ofString "https://app.qamax.co",
    AgentID := [], APIKey := [], RegistrationSecret := [] }

/-- The `Config` after the given values were stored in the fields of the given
names, one after the other, invalid bytes replaced by U+FFFD. -/
def Config.storeAll (c : Config) (values : List (String × GoString)) : Config :=
  values.foldl (fun cfg f => cfg.set f.1 f.2.toValid) c

/-- Whether all fields of a `Config` are valid UTF-8. -/
def Config.isValid (c : Config) : Bool :=
  c.Token.isValid && c.APIURL.isValid && c.AgentID.isValid && c.APIKey.isValid &&
    c.RegistrationSecret.isValid

/-- The path of the configuration file below the given home directory. -/
def configFile (home : String) : String :=
  joinPath (joinPath home ".qamax") "config.json"

/-- A `Config` with a token and a URL only. -/
def tokenOnlyConfig : Config :=
  { Token := GoString.ofString "tok", APIURL := GoString.ofString "https://example.com",
    AgentID := [], APIKey := [], RegistrationSecret := [] }

/-! # Properties

## Tracker, poller and drain -/

/-- A tracked ID is skipped: no change, no pipeline. -/
theorem claim_of_tracked (a : Agent) (assignment : Assignment)
    (h : sprintV assignment.ID ∈ a.activeTests) : a.claim assignment = (a, none) := by
  simp [Agent.claim, h]

/-- An untracked ID is stored, counted and dispatched. -/
theorem claim_of_untracked (a : Agent) (assignment : Assignment)
    (h : sprintV assignment.ID ∉ a.activeTests) :
    a.claim assignment =
      ({ a with activeTests := insert (sprintV assignment.ID) a.activeTests,
                activeCount := a.activeCount + 1 }, some assignment) := by
  simp [Agent.claim, h]

/-- A tracked ID is not dispatched again before it is released. -/
theorem observe_release_precedes (events : List Event) :
    ∀ (a : Agent) (id : String) (l1 l3 : List Obs), id ∈ a.activeTests →
      observe a events = l1 ++ Obs.dispatched id :: l3 → Obs.released id ∈ l1 := by
  induction events with
  | nil =>
    intro a id l1 l3 _ h
    simp [observe] at h
  | cons e events ih =>
    intro a id l1 l3 hid h
    cases e with
    | claim assignment =>
      by_cases ht : sprintV assignment.ID ∈ a.activeTests
      · rw [observe, claim_of_tracked a assignment ht] at h
        exact ih a id l1 l3 hid h
      · rw [observe, claim_of_untracked a assignment ht] at h
        simp only at h
        cases l1 with
        | nil =>
          simp only [List.nil_append, List.cons.injEq, Obs.dispatched.injEq] at h
          exact absurd (h.1 ▸ hid) ht
        | cons o l1 =>
          simp only [List.cons_append, List.cons.injEq] at h
          have := ih _ id l1 l3 (by simp [hid]) h.2
          exact List.mem_cons_of_mem _ this
    | release rid =>
      rw [observe] at h
      cases l1 with
      | nil => simp at h
      | cons o l1 =>
        simp only [List.cons_append, List.cons.injEq] at h
        by_cases hr : rid = id
        · rw [← h.1, hr]; exact List.mem_cons_self _ _
        · have hmem : id ∈ (a.release rid).activeTests := by
            simp [Agent.release, hid, Ne.symm hr]
          exact List.mem_cons_of_mem _ (ih _ id l1 l3 hmem h.2)

/-- Between two dispatches of one ID lies a release of that ID. -/
theorem observe_release_between (events : List Event) :
    ∀ (a : Agent) (id : String) (l1 l2 l3 : List Obs),
      observe a events = l1 ++ Obs.dispatched id :: (l2 ++ Obs.dispatched id :: l3) →
      Obs.released id ∈ l2 := by
  induction events with
  | nil =>
    intro a id l1 l2 l3 h
    simp [observe] at h
  | cons e events ih =>
    intro a id l1 l2 l3 h
    cases e with
    | claim assignment =>
      by_cases ht : sprintV assignment.ID ∈ a.activeTests
      · rw [observe, claim_of_tracked a assignment ht] at h
        exact ih a id l1 l2 l3 h
      · rw [observe, claim_of_untracked a assignment ht] at h
        simp only at h
        cases l1 with
        | nil =>
          simp only [List.nil_append, List.cons.injEq, Obs.dispatched.injEq] at h
          refine observe_release_precedes events _ id l2 l3 ?_ h.2
          simp [h.1]
        | cons o l1 =>
          simp only [List.cons_append, List.cons.injEq] at h
          exact ih _ id l1 l2 l3 h.2
    | release rid =>
      rw [observe] at h
      cases l1 with
      | nil => simp at h
      | cons o l1 =>
        simp only [List.cons_append, List.cons.injEq] at h
        exact ih _ id l1 l2 l3 h.2

/-- What one poll tick leaves behind. -/
theorem processAssignments_spec (assignments : List Assignment) :
    ∀ a : Agent,
      observe a (assignments.map Event.claim) =
        (a.processAssignments assignments).2.map (fun p => Obs.dispatched (sprintV p.ID)) ∧
      ((a.processAssignments assignments).2.map (fun p => sprintV p.ID)).Nodup ∧
      (∀ p ∈ (a.processAssignments assignments).2, sprintV p.ID ∉ a.activeTests) ∧
      (a.processAssignments assignments).1.activeCount =
        a.activeCount + ((a.processAssignments assignments).2.length : Int) ∧
      (a.processAssignments assignments).1.activeTests =
        a.activeTests ∪ (assignments.map (fun p => sprintV p.ID)).toFinset := by
  induction assignments with
  | nil => intro a; simp [Agent.processAssignments, observe]
  | cons x rest ih =>
    intro a
    by_cases ht : sprintV x.ID ∈ a.activeTests
    · obtain ⟨h1, h2, h3, h4, h5⟩ := ih a
      simp only [List.map_cons, observe, Agent.processAssignments, claim_of_tracked a x ht,
        Option.toList, List.nil_append]
      refine ⟨h1, h2, h3, h4, ?_⟩
      rw [h5]
      ext y
      simp only [Finset.mem_union, List.mem_toFinset, List.mem_map, List.toFinset_cons,
        Finset.mem_insert]
      constructor
      · rintro (h | h)
        · exact Or.inl h
        · exact Or.inr (Or.inr h)
      · rintro (h | h | h)
        · exact Or.inl h
        · exact Or.inl (h ▸ ht)
        · exact Or.inr h
    · obtain ⟨h1, h2, h3, h4, h5⟩ := ih
        { a with activeTests := insert (sprintV x.ID) a.activeTests,
                 activeCount := a.activeCount + 1 }
      simp only [List.map_cons, observe, Agent.processAssignments, claim_of_untracked a x ht,
        Option.toList, List.singleton_append, List.length_cons, List.nodup_cons, List.mem_cons,
        forall_eq_or_imp]
      refine ⟨by rw [h1], ⟨?_, h2⟩, ⟨ht, ?_⟩, ?_, ?_⟩
      · intro hmem
        obtain ⟨p, hp, hpid⟩ := List.mem_map.1 hmem
        exact h3 p hp (by simp [hpid])
      · intro p hp hin
        exact h3 p hp (by simp [hin])
      · rw [h4]; push_cast; ring
      · rw [h5]
        ext y
        simp only [Finset.mem_union, List.mem_toFinset, List.mem_map, List.toFinset_cons,
          Finset.mem_insert]
        tauto

/-- Consecutive poll ticks act like one tick on the concatenated responses. -/
theorem pollTicks_eq_processAssignments (responses : List (List Assignment)) :
    ∀ a : Agent, a.pollTicks responses = a.processAssignments responses.flatten := by
  have happ : ∀ (xs ys : List Assignment) (a : Agent),
      a.processAssignments (xs ++ ys) =
        (((a.processAssignments xs).1.processAssignments ys).1,
          (a.processAssignments xs).2 ++ ((a.processAssignments xs).1.processAssignments ys).2) := by
    intro xs
    induction xs with
    | nil => intro ys a; simp [Agent.processAssignments]
    | cons x xs ih => intro ys a; simp [Agent.processAssignments, ih]
  induction responses with
  | nil => intro a; simp [Agent.pollTicks, Agent.processAssignments]
  | cons r rest ih => intro a; simp [Agent.pollTicks, ih, happ]

/-- The pipeline leaves the agent alone or performs exactly the deferred release. -/
theorem executeTest_agent (w : World) (a : Agent) (assignment : Assignment) :
    (ExecuteTest w a assignment).agent = a ∨
    (ExecuteTest w a assignment).agent = a.release (sprintV assignment.ID) := by
  unfold ExecuteTest
  by_cases h : (resolveTestCode w assignment).2 = ""
  · simp [h]
  · cases hm : w.mkdirTemp <;> simp [h]

/-- Once the workspace exists, the pipeline ends with the deferred release,
whatever happens in between. -/
theorem executeTest_releases_after_mkdir (w : World) (a : Agent) (assignment : Assignment)
    (testDir : String) (hcode : (resolveTestCode w assignment).2 ≠ "")
    (hdir : w.mkdirTemp = .ok testDir) :
    (ExecuteTest w a assignment).agent = a.release (sprintV assignment.ID) := by
  simp [ExecuteTest, hcode, hdir]

/-- Every step preserves the invariant. -/
theorem trackerInv_step {s t : System} (hst : Step s t) (h : TrackerInv s) : TrackerInv t := by
  obtain ⟨hc, hn, hm⟩ := h
  cases hst with
  | register agentID apiKey => exact ⟨hc, hn, hm⟩
  | claim assignment =>
    by_cases ht : sprintV assignment.ID ∈ s.agent.activeTests
    · simp only [claim_of_tracked _ _ ht, Option.toList, List.append_nil]
      exact ⟨hc, hn, hm⟩
    · simp only [claim_of_untracked _ _ ht, Option.toList]
      refine ⟨?_, ?_, ?_⟩
      · simp only [Finset.card_insert_of_not_mem ht, hc]; push_cast; rfl
      · rw [List.map_append, List.nodup_append]
        refine ⟨hn, by simp, ?_⟩
        intro x hx hy
        simp only [List.map_cons, List.map_nil, List.mem_singleton] at hy
        obtain ⟨p, hp, hpid⟩ := List.mem_map.1 hx
        exact ht (hy ▸ hpid ▸ hm p hp)
      · intro p hp
        rcases List.mem_append.1 hp with hp | hp
        · exact Finset.mem_insert_of_mem (hm p hp)
        · simp only [List.mem_singleton] at hp
          simp [hp]
  | finish w assignment running =>
    have hnd : s.pipelines.Nodup := List.Nodup.of_map _ hn
    have hsub : ((s.pipelines.erase assignment).map (fun p => sprintV p.ID)).Nodup :=
      List.Nodup.sublist ((List.erase_sublist _ _).map _) hn
    rcases executeTest_agent w s.agent assignment with he | he
    · rw [he]
      exact ⟨hc, hsub, fun p hp => hm p (List.mem_of_mem_erase hp)⟩
    · rw [he]
      have hin := hm assignment running
      refine ⟨?_, hsub, ?_⟩
      · simp only [Agent.release, Finset.card_erase_of_mem hin, hc]
        have := Finset.card_pos.2 ⟨_, hin⟩
        omega
      · intro p hp
        have hp2 := (List.Nodup.mem_erase_iff hnd).1 hp
        simp only [Agent.release]
        refine Finset.mem_erase.2 ⟨?_, hm p hp2.2⟩
        intro heq
        exact hp2.1 (List.inj_on_of_nodup_map hn hp2.2 running heq)

/-- The invariant holds in every reachable state. -/
theorem trackerInv_of_reachable {s : System} (h : Reachable s) : TrackerInv s := by
  induction h with
  | init cloudURL apiKey agentID heartbeatInterval =>
    simp [TrackerInv, NewAgent]
  | step _ hst ih => exact trackerInv_step hst ih

/-- The drain loop only breaks at a read that found the counter at zero. -/
theorem waitLoop_some (reads : List Agent) (a : Agent) (h : waitLoop reads = some a) :
    a ∈ reads ∧ a.activeCount = 0 := by
  induction reads with
  | nil => simp [waitLoop] at h
  | cons x rest ih =>
    rw [waitLoop] at h
    split at h
    · simp only [Option.some.injEq] at h
      subst h
      exact ⟨List.mem_cons_self _ _, by assumption⟩
    · exact ⟨List.mem_cons_of_mem _ (ih h).1, (ih h).2⟩

/-- The drain only returns at a read that found the counter not positive. -/
theorem waitForActiveTests_some (reads : List Agent) (a : Agent)
    (h : waitForActiveTests reads = some a) : a ∈ reads ∧ a.activeCount ≤ 0 := by
  cases reads with
  | nil => simp [waitForActiveTests] at h
  | cons x rest =>
    rw [waitForActiveTests] at h
    split at h
    · have := waitLoop_some rest a h
      exact ⟨List.mem_cons_of_mem _ this.1, by omega⟩
    · simp only [Option.some.injEq] at h
      subst h
      exact ⟨List.mem_cons_self _ _, by omega⟩


/-- Where `heartbeatInterval * 2^c` fits into an `int64`, the delay after `c ≥ 1`
failures is `min(interval * 2^c, 300 s)`. -/
theorem heartbeatWait_of_no_overflow (heartbeatInterval : Int) (c : Nat)
    (h0 : 0 ≤ heartbeatInterval) (hc : 0 < c) (hfit : heartbeatInterval * 2 ^ c < 2 ^ 63) :
    heartbeatWait heartbeatInterval c = min (heartbeatInterval * 2 ^ c) maxBackoff := by
  have hwrap : ∀ x : Int, -(2 ^ 63) ≤ x → x < 2 ^ 63 → wrapInt64 x = x := by
    intro x h1 h2
    unfold wrapInt64
    rw [Int.emod_eq_of_lt (by omega) (by omega)]
    omega
  have hpow : (0 : Int) < 2 ^ c := by positivity
  rcases h0.eq_or_lt with hz | hpos
  · subst hz
    simp only [heartbeatWait, hc, if_true, zero_mul]
    rw [hwrap 0 (by norm_num) (by norm_num)]
    simp [maxBackoff, Second]
  · have hle : (2 : Int) ^ c ≤ heartbeatInterval * 2 ^ c := by nlinarith
    have h2 : wrapInt64 (2 ^ c) = 2 ^ c := hwrap _ (by omega) (by omega)
    have h3 : wrapInt64 (heartbeatInterval * 2 ^ c) = heartbeatInterval * 2 ^ c :=
      hwrap _ (by omega) hfit
    simp only [heartbeatWait, hc, if_true, h2, h3]
    split
    · rw [min_eq_right (by omega)]
    · rw [min_eq_left (by omega)]

/-- C1 (code defect). The deferred release is registered only after the two early
returns of `ExecuteTest`. For the assignment with ID 1, no inline code and no
script reference, claimed by the poller (tracker `{"1"}`, counter 1), `ExecuteTest`
returns in every world with "1" still tracked and the counter still 1; the same
happens for an assignment with code when `os.MkdirTemp` fails. The counter then
never returns to zero, so the shutdown drain reads a positive counter for ever. -/
theorem executeTest_early_return_keeps_id_tracked (w : World) :
    (idleAgent.claim noCodeAssignment).2 = some noCodeAssignment ∧
    (idleAgent.claim noCodeAssignment).1.activeTests = {"1"} ∧
    (idleAgent.claim noCodeAssignment).1.activeCount = 1 ∧
    "1" ∈ (ExecuteTest w (idleAgent.claim noCodeAssignment).1 noCodeAssignment).agent.activeTests ∧
    (ExecuteTest w (idleAgent.claim noCodeAssignment).1 noCodeAssignment).agent.activeCount = 1 ∧
    "1" ∈ (ExecuteTest noTempDirWorld (idleAgent.claim firefoxAssignment).1
      firefoxAssignment).agent.activeTests ∧
    (ExecuteTest noTempDirWorld (idleAgent.claim firefoxAssignment).1
      firefoxAssignment).agent.activeCount = 1 ∧
    (∀ n : Nat, waitForActiveTests (List.replicate n
      (ExecuteTest w (idleAgent.claim noCodeAssignment).1 noCodeAssignment).agent) = none) := by
  have hclaim : idleAgent.claim noCodeAssignment =
      ({ idleAgent with activeTests := {"1"}, activeCount := 1 }, some noCodeAssignment) := by
    decide
  have hrun : (ExecuteTest w (idleAgent.claim noCodeAssignment).1 noCodeAssignment).agent =
      (idleAgent.claim noCodeAssignment).1 := by
    simp [ExecuteTest, resolveTestCode, noCodeAssignment, sprintV]
  rw [hrun, hclaim]
  refine ⟨rfl, rfl, rfl, by decide, rfl, by decide, by decide, ?_⟩
  intro n
  have hloop : ∀ m : Nat, waitLoop (List.replicate m
      ({ idleAgent with activeTests := {"1"}, activeCount := 1 } : Agent)) = none := by
    intro m
    induction m with
    | zero => rfl
    | succ k ih => simp [List.replicate, waitLoop, ih]
  cases n with
  | zero => rfl
  | succ k => simp [List.replicate, waitForActiveTests, hloop]

/-- C2. The poll loop skips a tracked ID (agent unchanged, nothing dispatched) and
stores, counts once and dispatches once an untracked one. In the observations of
any sequence of claims and releases, two dispatches of one ID have a release of
that ID between them, and an ID tracked at the start is released before it is
dispatched. Over any consecutive poll responses (no release in between) the
pipelines dispatched have pairwise different IDs, none of them tracked before, the
counter grows by their number and the tracker by the IDs returned. -/
theorem poller_dedup (a : Agent) :
    (∀ assignment : Assignment, sprintV assignment.ID ∈ a.activeTests →
      a.claim assignment = (a, none)) ∧
    (∀ assignment : Assignment, sprintV assignment.ID ∉ a.activeTests →
      a.claim assignment =
        ({ a with activeTests := insert (sprintV assignment.ID) a.activeTests,
                  activeCount := a.activeCount + 1 }, some assignment)) ∧
    (∀ (events : List Event) (id : String) (l1 l2 l3 : List Obs),
      observe a events = l1 ++ Obs.dispatched id :: (l2 ++ Obs.dispatched id :: l3) →
      Obs.released id ∈ l2) ∧
    (∀ (events : List Event) (id : String) (l1 l3 : List Obs), id ∈ a.activeTests →
      observe a events = l1 ++ Obs.dispatched id :: l3 → Obs.released id ∈ l1) ∧
    (∀ responses : List (List Assignment),
      observe a (responses.flatten.map Event.claim) =
        (a.pollTicks responses).2.map (fun p => Obs.dispatched (sprintV p.ID)) ∧
      ((a.pollTicks responses).2.map (fun p => sprintV p.ID)).Nodup ∧
      (∀ p ∈ (a.pollTicks responses).2, sprintV p.ID ∉ a.activeTests) ∧
      (a.pollTicks responses).1.activeCount =
        a.activeCount + ((a.pollTicks responses).2.length : Int) ∧
      (a.pollTicks responses).1.activeTests =
        a.activeTests ∪ (responses.flatten.map (fun p => sprintV p.ID)).toFinset) := by
  refine ⟨claim_of_tracked a, claim_of_untracked a, ?_, ?_, ?_⟩
  · intro events id l1 l2 l3 h
    exact observe_release_between events a id l1 l2 l3 h
  · intro events id l1 l3 hid h
    exact observe_release_precedes events a id l1 l3 hid h
  · intro responses
    rw [pollTicks_eq_processAssignments]
    exact processAssignments_spec responses.flatten a

/-- C2 at a concrete input: the same assignment twice in one response and once
more in the next response is dispatched once, and the second claim is a no-op. -/
theorem poller_dedup_witness :
    (idleAgent.claim firefoxAssignment).1.claim firefoxAssignment =
      ((idleAgent.claim firefoxAssignment).1, none) ∧
    (idleAgent.pollTicks [[firefoxAssignment, firefoxAssignment], [firefoxAssignment]]).2 =
      [firefoxAssignment] ∧
    (idleAgent.pollTicks
      [[firefoxAssignment, firefoxAssignment], [firefoxAssignment]]).1.activeCount = 1 :=
  ⟨(poller_dedup (idleAgent.claim firefoxAssignment).1).1 firefoxAssignment (by decide),
   by decide, by decide⟩

/-- C3 (code defect). With the default interval of 60 s and 28 consecutive
failures the product `HeartbeatInterval * (1 << 28)` exceeds the `int64` range and
wraps to a negative duration, which is not above `maxBackoff`; the loop therefore
waits a negative time (no wait at all) where `min(interval * 2^28, 300 s)` is
300 s. From 64 failures on the shift itself yields 0 and the delay is 0. -/
theorem heartbeatWait_wraps_after_28_failures :
    heartbeatWait (60 * Second) 28 = -2340616713709551616 ∧
    min (60 * Second * 2 ^ 28) (300 * Second) = 300 * Second ∧
    heartbeatWait (60 * Second) 28 ≠ min (60 * Second * 2 ^ 28) (300 * Second) ∧
    heartbeatWait (60 * Second) 64 = 0 ∧
    heartbeatWait (60 * Second) 27 = 300 * Second := by
  decide

/-- C4. In every state reachable from a new agent by registration, claims of the
poller and returns of running pipelines, `activeCount` equals the number of IDs in
`activeTests`. Both are zero for a new agent, and whenever `waitForActiveTests`,
reading reachable states, returns, the state it returns at has counter zero and
an empty tracker. -/
theorem activeCount_eq_tracked (s : System) (hs : Reachable s)
    (reads : List System) (hreads : ∀ r ∈ reads, Reachable r) :
    s.agent.activeCount = (s.agent.activeTests.card : Int) ∧
    (∀ (cloudURL apiKey agentID : String) (heartbeatInterval : Int),
      (NewAgent cloudURL apiKey agentID heartbeatInterval).activeCount = 0 ∧
      (NewAgent cloudURL apiKey agentID heartbeatInterval).activeTests.card = 0) ∧
    (∀ a : Agent, waitForActiveTests (reads.map System.agent) = some a →
      a.activeCount = 0 ∧ a.activeTests.card = 0 ∧ a.activeTests = ∅) := by
  refine ⟨(trackerInv_of_reachable hs).1, fun _ _ _ _ => ⟨rfl, rfl⟩, ?_⟩
  intro a ha
  obtain ⟨hmem, hle⟩ := waitForActiveTests_some _ a ha
  obtain ⟨r, hr, hra⟩ := List.mem_map.1 hmem
  have hinv := (trackerInv_of_reachable (hreads r hr)).1
  rw [hra] at hinv
  have hcard : a.activeTests.card = 0 := by omega
  exact ⟨by omega, hcard, Finset.card_eq_zero.1 hcard⟩

/-- C4 at a concrete run: after one claim the counter and the tracker size are
both 1; a drain that first reads this state and then the state after the pipeline
returned comes back at the second read, with counter 0 and nothing tracked. -/
theorem activeCount_eq_tracked_witness :
    busySystem.agent.activeCount = (busySystem.agent.activeTests.card : Int) ∧
    busySystem.agent.activeCount = 1 ∧
    waitForActiveTests ([busySystem, busySystem, drainedSystem].map System.agent) =
      some drainedSystem.agent ∧
    drainedSystem.agent.activeCount = 0 ∧ drainedSystem.agent.activeTests = ∅ := by
  have hbusy : Reachable busySystem :=
    Reachable.step (Reachable.init _ _ _ _) (Step.claim newSystem firefoxAssignment)
  have hdrained : Reachable drainedSystem :=
    Reachable.step hbusy (Step.finish busySystem fineWorld firefoxAssignment (by decide))
  have hret : waitForActiveTests ([busySystem, busySystem, drainedSystem].map System.agent) =
      some drainedSystem.agent := by decide
  have h := activeCount_eq_tracked busySystem hbusy [busySystem, busySystem, drainedSystem]
    (by
      intro r hr
      simp only [List.mem_cons, List.mem_singleton, List.not_mem_nil, or_false] at hr
      rcases hr with rfl | rfl | rfl <;> assumption)
  have h3 := h.2.2 drainedSystem.agent hret
  exact ⟨h.1, by decide, hret, h3.1, h3.2.2⟩

/-! ## Code resolution -/

/-- The fetch step performs no action or exactly one script GET. -/
theorem resolveTestCode_actions (w : World) (assignment : Assignment) :
    (resolveTestCode w assignment).1 = [] ∨
    (resolveTestCode w assignment).1 = [Action.getScript (sprintV assignment.ScriptID)] := by
  unfold resolveTestCode
  simp only
  split
  · cases w.fetchScriptCode <;> simp
  · exact Or.inl rfl

/-- An assignment reaches `ExecuteTest` only on a registered agent: for an agent
without ID or key `PollAssignments` returns no assignment. -/
theorem pollAssignments_registered (a : Agent)
    (answer : Except String (Nat × Except String (List Assignment)))
    (assignments : List Assignment) (assignment : Assignment)
    (h : PollAssignments a answer = .ok assignments) (hmem : assignment ∈ assignments) :
    a.AgentID ≠ "" ∧ a.APIKey ≠ "" := by
  by_cases hreg : a.AgentID = "" ∨ a.APIKey = ""
  · simp only [PollAssignments, hreg, if_true, Except.ok.injEq] at h
    subst h
    simp at hmem
  · exact not_or.1 hreg

/-- C5. When the assignment has no inline code and its ScriptID is null or the
empty string, or the script fetch fails or returns empty code, `ExecuteTest` calls
`reportResult` exactly once, with success false and the message "No test code
provided", never calls `os.MkdirTemp`, posts no "started" status and starts no
external command. On a registered agent that one call sends exactly one result
POST, carrying success false and that message. Besides, the pipeline performs at
most the script GET and the final "failed" status, and leaves the agent as it
was. -/
theorem no_code_fails_immediately (w : World) (a : Agent) (assignment : Assignment)
    (hcode : assignment.Code = "")
    (hnone : assignment.ScriptID = GoValue.nil ∨ assignment.ScriptID = GoValue.str "" ∨
      (∃ err, w.fetchScriptCode = .error err) ∨ w.fetchScriptCode = .ok "") :
    (ExecuteTest w a assignment).actions.filter Action.isReportCall =
      [Action.callReportResult (sprintV assignment.ID) false "No test code provided"] ∧
    (ExecuteTest w a assignment).actions.filter Action.isMkdirTemp = [] ∧
    (∀ id : String, Action.postStatus id "started" ∉ (ExecuteTest w a assignment).actions) ∧
    (ExecuteTest w a assignment).actions.filter Action.isExec = [] ∧
    (a.AgentID ≠ "" → a.APIKey ≠ "" →
      (ExecuteTest w a assignment).actions.filter Action.isPostResult =
        [Action.postResult (sprintV assignment.ID)
          { success := false, message := "No test code provided", output := "", errors := "",
            artifacts := none }]) ∧
    (∀ x ∈ (ExecuteTest w a assignment).actions,
      x.isReportCall = true ∨ x.isPostResult = true ∨
      x = Action.getScript (sprintV assignment.ScriptID) ∨
      x = Action.postStatus (sprintV assignment.ID) "failed") ∧
    (ExecuteTest w a assignment).agent = a := by
  have hempty : (resolveTestCode w assignment).2 = "" := by
    unfold resolveTestCode
    simp only
    split
    · rename_i hc
      rcases hnone with h | h | ⟨err, h⟩ | h
      · exact absurd (by rw [h]; rfl) hc.2.2
      · exact absurd (by rw [h]; rfl) hc.2.1
      · rw [h]; exact hcode
      · rw [h]
    · exact hcode
  have hact : (ExecuteTest w a assignment).actions = (resolveTestCode w assignment).1 ++
      reportResult w a (sprintV assignment.ID) false "No test code provided" none := by
    simp [ExecuteTest, hempty]
  have hag : (ExecuteTest w a assignment).agent = a := by
    simp [ExecuteTest, hempty]
  rw [hact, hag]
  by_cases hreg : a.AgentID = "" ∨ a.APIKey = ""
  · have hno : ¬ (a.AgentID ≠ "" ∧ a.APIKey ≠ "") := by
      intro h; rcases hreg with h1 | h1
      · exact h.1 h1
      · exact h.2 h1
    rcases resolveTestCode_actions w assignment with hf | hf <;> rw [hf] <;>
      simp [reportResult, hreg, Action.isPostResult, Action.isReportCall,
        Action.isMkdirTemp, Action.isExec] <;>
      intro h1 <;> by_contra h2 <;> exact hno ⟨h1, h2⟩
  · rcases resolveTestCode_actions w assignment with hf | hf <;> rw [hf] <;>
      cases hp : w.postResult with
      | error e =>
        simp [reportResult, updateAssignmentStatus, hreg, hp, Action.isPostResult,
          Action.isReportCall, Action.isMkdirTemp, Action.isExec]
      | ok code =>
        by_cases h200 : code = 200 <;>
        simp [reportResult, updateAssignmentStatus, hreg, hp, h200, Action.isPostResult,
          Action.isReportCall, Action.isMkdirTemp, Action.isExec]

/-- C5 at a concrete input: the assignment with ID 1, no code and a null ScriptID,
on the registered agent `idleAgent`, in a world answering 200. -/
theorem no_code_fails_immediately_witness :
    (ExecuteTest fineWorld idleAgent noCodeAssignment).actions =
      [Action.callReportResult "1" false "No test code provided",
       Action.postResult "1"
        { success := false, message := "No test code provided", output := "", errors := "",
          artifacts := none },
       Action.postStatus "1" "failed"] ∧
    (ExecuteTest fineWorld idleAgent noCodeAssignment).actions.filter Action.isReportCall =
      [Action.callReportResult (sprintV noCodeAssignment.ID) false "No test code provided"] ∧
    (ExecuteTest fineWorld idleAgent noCodeAssignment).actions.filter Action.isMkdirTemp = [] :=
  have h := no_code_fails_immediately fineWorld idleAgent noCodeAssignment
    (by decide) (Or.inl rfl)
  ⟨by decide, h.1, h.2.1⟩

/-! ## Runner configuration -/

/-- Whenever the test file and the manifest were written, the pipeline writes the
generated configuration to `playwright.config.js` in the workspace. -/
theorem runPipeline_writes_generatedConfig (w : World) (a : Agent) (assignment : Assignment)
    (assignmentID testCode testDir : String)
    (h1 : w.writeFile (joinPath testDir "test.spec.js") = none)
    (h2 : w.writeFile (joinPath testDir "package.json") = none) :
    Action.writeFile (joinPath testDir "playwright.config.js") (generatedConfig assignment) ∈
      runPipeline w a assignment assignmentID testCode testDir := by
  unfold runPipeline
  simp only [h1, h2]
  split
  · simp [generatedConfig]
  · split <;> simp [generatedConfig]

/-- C6 (as stated, refuted). With width 0 and height 600 the configuration gets
width 1280 and height 600, not 1280 by 720; with width 800 and height 0 it gets
800 by 720. -/
theorem viewport_zero_width_keeps_height :
    ({ firefoxAssignment with ViewportWidth := 0 } : Assignment).ViewportWidth = 0 ∧
    (configArgs { firefoxAssignment with ViewportWidth := 0 }).vpWidth = 1280 ∧
    (configArgs { firefoxAssignment with ViewportWidth := 0 }).vpHeight = 600 ∧
    (configArgs { firefoxAssignment with ViewportHeight := 0 }).vpWidth = 800 ∧
    (configArgs { firefoxAssignment with ViewportHeight := 0 }).vpHeight = 720 ∧
    ¬ (∀ assignment : Assignment,
        assignment.ViewportWidth = 0 ∨ assignment.ViewportHeight = 0 →
        (configArgs assignment).vpWidth = 1280 ∧ (configArgs assignment).vpHeight = 720) := by
  refine ⟨rfl, by decide, by decide, by decide, by decide, ?_⟩
  intro h
  have := (h { firefoxAssignment with ViewportWidth := 0 } (Or.inl rfl)).2
  revert this
  decide

/-- C6 (amended). Each viewport dimension is defaulted on its own: a zero width is
written as 1280, a zero height as 720, a non-zero dimension unchanged; so the
viewport is 1280 by 720 when both are zero. The values appear in the `viewport`
line of the generated configuration. -/
theorem viewport_defaults_per_dimension (assignment : Assignment) :
    (assignment.ViewportWidth = 0 → (configArgs assignment).vpWidth = 1280) ∧
    (assignment.ViewportHeight = 0 → (configArgs assignment).vpHeight = 720) ∧
    (assignment.ViewportWidth ≠ 0 →
      (configArgs assignment).vpWidth = assignment.ViewportWidth) ∧
    (assignment.ViewportHeight ≠ 0 →
      (configArgs assignment).vpHeight = assignment.ViewportHeight) ∧
    (assignment.ViewportWidth = 0 → assignment.ViewportHeight = 0 →
      (configArgs assignment).vpWidth = 1280 ∧ (configArgs assignment).vpHeight = 720) ∧
    (∃ before after : String, generatedConfig assignment =
      before ++ ("        viewport: \x7b width: " ++ toString (configArgs assignment).vpWidth ++
        ", height: " ++ toString (configArgs assignment).vpHeight ++ " \x7d,\n") ++ after) := by
  refine ⟨?_, ?_, ?_, ?_, ?_, ?_⟩
  · intro h; simp [configArgs, h]
  · intro h; simp [configArgs, h]
  · intro h; simp [configArgs, h]
  · intro h; simp [configArgs, h]
  · intro h1 h2; simp [configArgs, h1, h2]
  · refine ⟨"// @ts-check\n" ++
      "const \x7b defineConfig, devices \x7d = require(\x27@playwright/test\x27);\n" ++
      "\n" ++
      "module.exports = defineConfig(\x7b\n" ++
      "  testDir: \x27./\x27,\n" ++
      "  fullyParallel: false,\n" ++
      "  workers: 1,\n" ++
      "  retries: 0,\n" ++
      "  reporter: \x27json\x27,\n" ++
      "  projects: [\n" ++
      "    \x7b\n" ++
      "      name: \x27" ++ (configArgs assignment).playwrightBrowser ++ "\x27,\n" ++
      "      use: \x7b\n" ++
      "        ...devices[\x27" ++ (configArgs assignment).deviceName ++ "\x27],\n" ++
      "        baseURL: " ++ (configArgs assignment).baseURLJS ++ ",\n" ++
      "        headless: " ++ (if (configArgs assignment).headless then "true" else "false") ++
      ",\n",
      "        screenshot: \x27on\x27,\n" ++
      "        video: \x27on\x27,\n" ++
      "      \x7d,\n" ++
      "    \x7d,\n" ++
      "  ],\n" ++
      "\x7d);\n", ?_⟩
    simp only [generatedConfig, playwrightConfig, String.append_assoc]

/-- C6 (amended) at concrete inputs: 0 by 600 gives 1280 by 600, 0 by 0 gives 1280
by 720. -/
theorem viewport_defaults_per_dimension_witness :
    (configArgs { firefoxAssignment with ViewportWidth := 0 }).vpWidth = 1280 ∧
    (configArgs { firefoxAssignment with ViewportWidth := 0 }).vpHeight = 600 ∧
    (configArgs { firefoxAssignment with ViewportWidth := 0, ViewportHeight := 0 }).vpWidth = 1280 ∧
    (configArgs { firefoxAssignment with ViewportWidth := 0, ViewportHeight := 0 }).vpHeight = 720 :=
  ⟨(viewport_defaults_per_dimension { firefoxAssignment with ViewportWidth := 0 }).1 rfl,
   (viewport_defaults_per_dimension { firefoxAssignment with ViewportWidth := 0 }).2.2.2.1
     (by decide),
   ((viewport_defaults_per_dimension
     { firefoxAssignment with ViewportWidth := 0, ViewportHeight := 0 }).2.2.2.2.1 rfl rfl).1,
   ((viewport_defaults_per_dimension
     { firefoxAssignment with ViewportWidth := 0, ViewportHeight := 0 }).2.2.2.2.1 rfl rfl).2⟩

/-! ## JSON string literals -/

/-- Reading a digit of the hex table gives back the nibble. -/
theorem hexVal_hexDigit (k : Nat) (h : k < 16) : hexVal (hexDigit k) = some k := by
  interval_cases k <;> decide

/-- One step of the reader on a non-empty input. -/
theorem jsonStringBody_cons (c : Char) (rest : List Char) :
    jsonStringBody (c :: rest) =
      if c = dquote then (if rest.isEmpty then some [] else none)
      else if c = backslash then
        match rest with
        | [] => none
        | e :: rest1 =>
          if e = 'u' then
            match rest1 with
            | h1 :: h2 :: h3 :: h4 :: rest2 =>
              match hexVal h1, hexVal h2, hexVal h3, hexVal h4 with
              | some v1, some v2, some v3, some v4 =>
                if 55296 ≤ ((v1 * 16 + v2) * 16 + v3) * 16 + v4 ∧
                    ((v1 * 16 + v2) * 16 + v3) * 16 + v4 ≤ 57343 then none
                else (jsonStringBody rest2).map
                  (fun t => Char.ofNat (((v1 * 16 + v2) * 16 + v3) * 16 + v4) :: t)
              | _, _, _, _ => none
            | _ => none
          else
            match simpleEscape e with
            | some ch => (jsonStringBody rest1).map (fun t => ch :: t)
            | none => none
      else if c.toNat < 32 then none
      else (jsonStringBody rest).map (fun t => c :: t) := by
  rw [jsonStringBody.eq_def]

/-- The reader undoes the escape of one rune. -/
theorem jsonStringBody_escapeRune (c : Char) (rest : List Char) :
    jsonStringBody (escapeRune c ++ rest) = (jsonStringBody rest).map (fun t => c :: t) := by
  have hbq : backslash ≠ dquote := by decide
  have hbu : backslash ≠ 'u' := by decide
  unfold escapeRune
  split
  · rename_i h
    rcases h with rfl | rfl
    · simp [jsonStringBody_cons, simpleEscape, hbq, hbu]
    · simp [jsonStringBody_cons, simpleEscape, hbq, show dquote ≠ 'u' by decide]
  · rename_i hne
    have hcb : c ≠ backslash := fun h => hne (Or.inl h)
    have hcq : c ≠ dquote := fun h => hne (Or.inr h)
    split
    · rename_i h; subst h
      simp [jsonStringBody_cons, simpleEscape, hbq, show ('b' : Char) ≠ 'u' by decide,
        show ('b' : Char) ≠ dquote by decide, show ('b' : Char) ≠ backslash by decide,
        show ('b' : Char) ≠ '/' by decide]
    split
    · rename_i h; subst h
      simp [jsonStringBody_cons, simpleEscape, hbq, show ('f' : Char) ≠ 'u' by decide,
        show ('f' : Char) ≠ dquote by decide, show ('f' : Char) ≠ backslash by decide,
        show ('f' : Char) ≠ '/' by decide, show ('f' : Char) ≠ 'b' by decide]
    split
    · rename_i h; subst h
      simp [jsonStringBody_cons, simpleEscape, hbq, show ('n' : Char) ≠ 'u' by decide,
        show ('n' : Char) ≠ dquote by decide, show ('n' : Char) ≠ backslash by decide,
        show ('n' : Char) ≠ '/' by decide, show ('n' : Char) ≠ 'b' by decide,
        show ('n' : Char) ≠ 'f' by decide]
    split
    · rename_i h; subst h
      simp [jsonStringBody_cons, simpleEscape, hbq, show ('r' : Char) ≠ 'u' by decide,
        show ('r' : Char) ≠ dquote by decide, show ('r' : Char) ≠ backslash by decide,
        show ('r' : Char) ≠ '/' by decide, show ('r' : Char) ≠ 'b' by decide,
        show ('r' : Char) ≠ 'f' by decide, show ('r' : Char) ≠ 'n' by decide]
    split
    · rename_i h; subst h
      simp [jsonStringBody_cons, simpleEscape, hbq, show ('t' : Char) ≠ 'u' by decide,
        show ('t' : Char) ≠ dquote by decide, show ('t' : Char) ≠ backslash by decide,
        show ('t' : Char) ≠ '/' by decide, show ('t' : Char) ≠ 'b' by decide,
        show ('t' : Char) ≠ 'f' by decide, show ('t' : Char) ≠ 'n' by decide,
        show ('t' : Char) ≠ 'r' by decide]
    split
    · rename_i h
      have hlt : c.toNat < 128 := by
        rcases h with h | rfl | rfl | rfl
        · omega
        · decide
        · decide
        · decide
      have h0 : hexVal '0' = some 0 := by decide
      have h1 := hexVal_hexDigit (c.toNat / 16) (by omega)
      have h2 := hexVal_hexDigit (c.toNat % 16) (by omega)
      have hv : ((0 * 16 + 0) * 16 + c.toNat / 16) * 16 + c.toNat % 16 = c.toNat := by omega
      simp only [List.cons_append, List.nil_append, jsonStringBody_cons, hbq, if_false, if_true,
        h0, h1, h2, hv, Char.ofNat_toNat]
      rw [if_neg (by omega)]
    split
    · rename_i h
      rcases h with rfl | rfl
      · simp only [List.cons_append, List.nil_append, jsonStringBody_cons, hbq, if_false, if_true]
        rfl
      · simp only [List.cons_append, List.nil_append, jsonStringBody_cons, hbq, if_false, if_true]
        rfl
    · rename_i h1 h2 h3 h4 h5 h6 h7
      have hge : ¬ c.toNat < 32 := fun h => h6 (Or.inl h)
      simp [jsonStringBody_cons, hcb, hcq, hge]

/-- The reader undoes the escapes of a whole string, up to the closing quote. -/
theorem jsonStringBody_flatMap_escapeRune (s : List Char) :
    jsonStringBody (s.flatMap escapeRune ++ [dquote]) = some s := by
  induction s with
  | nil => simp [jsonStringBody_cons]
  | cons c rest ih =>
    rw [List.flatMap_cons, List.append_assoc, jsonStringBody_escapeRune, ih]
    rfl

/-- Reading what `json.Marshal` wrote for a string gives the string back. -/
theorem jsonUnquote_jsonMarshalString (s : String) :
    jsonUnquote (jsonMarshalString s) = some s := by
  simp [jsonUnquote, jsonMarshalString, jsonMarshalChars, jsonStringBody_flatMap_escapeRune]

/-- The generated configuration is the template with the six arguments of
`configArgs` in its six places. -/
theorem generatedConfig_text (assignment : Assignment) :
    generatedConfig assignment =
      configHead ++
      ("      name: \x27" ++ (configArgs assignment).playwrightBrowser ++ "\x27,\n" ++
        "      use: \x7b\n" ++
        "        ...devices[\x27" ++ (configArgs assignment).deviceName ++ "\x27],\n") ++
      ("        baseURL: " ++ (configArgs assignment).baseURLJS ++ ",\n") ++
      ("        headless: " ++ (if (configArgs assignment).headless then "true" else "false") ++
        ",\n" ++
        "        viewport: \x7b width: " ++ toString (configArgs assignment).vpWidth ++
        ", height: " ++ toString (configArgs assignment).vpHeight ++ " \x7d,\n") ++
      configTail := by
  simp only [generatedConfig, playwrightConfig, configHead, configTail, String.append_assoc]

/-- The `baseURL` line stands in the generated configuration. -/
theorem generatedConfig_baseURL_line (assignment : Assignment) :
    ∃ before after : String, generatedConfig assignment =
      before ++ ("        baseURL: " ++ (configArgs assignment).baseURLJS ++ ",\n") ++ after :=
  ⟨configHead ++
      ("      name: \x27" ++ (configArgs assignment).playwrightBrowser ++ "\x27,\n" ++
        "      use: \x7b\n" ++
        "        ...devices[\x27" ++ (configArgs assignment).deviceName ++ "\x27],\n"),
    ("        headless: " ++ (if (configArgs assignment).headless then "true" else "false") ++
        ",\n" ++
        "        viewport: \x7b width: " ++ toString (configArgs assignment).vpWidth ++
        ", height: " ++ toString (configArgs assignment).vpHeight ++ " \x7d,\n") ++
      configTail,
    by rw [generatedConfig_text assignment]; simp only [String.append_assoc]⟩

/-- C7. In the generated runner configuration the `baseURL` literal is the bare
token `undefined` when CustomURL is empty. For a non-empty CustomURL it is what
`json.Marshal` writes: a double quote, the escaped runes of the URL, a double quote,
where every double quote and backslash is preceded by a backslash; read back as a
JSON string literal it denotes exactly CustomURL. For `https://x.test` it is the URL
between two double quotes. The text of the generated configuration is the template
with this literal in the `baseURL` line, between the `devices` line and the
`headless` line. -/
theorem baseURL_literal (assignment : Assignment) :
    (assignment.CustomURL = "" → (configArgs assignment).baseURLJS = "undefined") ∧
    (assignment.CustomURL ≠ "" →
      (configArgs assignment).baseURLJS = jsonMarshalString assignment.CustomURL ∧
      (configArgs assignment).baseURLJS.data =
        dquote :: (assignment.CustomURL.data.flatMap escapeRune ++ [dquote]) ∧
      jsonUnquote (configArgs assignment).baseURLJS = some assignment.CustomURL) ∧
    (∀ c : Char, c = dquote ∨ c = backslash → escapeRune c = [backslash, c]) ∧
    (assignment.CustomURL = "https://x.test" →
      (configArgs assignment).baseURLJS = "\x22https://x.test\x22") ∧
    generatedConfig assignment =
      configHead ++
      ("      name: \x27" ++ (configArgs assignment).playwrightBrowser ++ "\x27,\n" ++
        "      use: \x7b\n" ++
        "        ...devices[\x27" ++ (configArgs assignment).deviceName ++ "\x27],\n") ++
      ("        baseURL: " ++ (configArgs assignment).baseURLJS ++ ",\n") ++
      ("        headless: " ++ (if (configArgs assignment).headless then "true" else "false") ++
        ",\n" ++
        "        viewport: \x7b width: " ++ toString (configArgs assignment).vpWidth ++
        ", height: " ++ toString (configArgs assignment).vpHeight ++ " \x7d,\n") ++
      configTail ∧
    (assignment.CustomURL = "" → ∃ before after : String,
      generatedConfig assignment = before ++ "        baseURL: undefined,\n" ++ after) ∧
    (assignment.CustomURL ≠ "" → ∃ before after : String,
      generatedConfig assignment =
        before ++ ("        baseURL: " ++ jsonMarshalString assignment.CustomURL ++ ",\n") ++
          after) ∧
    (assignment.CustomURL = "https://x.test" → ∃ before after : String,
      generatedConfig assignment =
        before ++ "        baseURL: \x22https://x.test\x22,\n" ++ after) := by
  have hempty : assignment.CustomURL = "" → (configArgs assignment).baseURLJS = "undefined" := by
    intro h
    simp [configArgs, h]
  have hmarshal : assignment.CustomURL ≠ "" →
      (configArgs assignment).baseURLJS = jsonMarshalString assignment.CustomURL := by
    intro h
    simp [configArgs, h]
  have hxtest : assignment.CustomURL = "https://x.test" →
      (configArgs assignment).baseURLJS = "\x22https://x.test\x22" := by
    intro h
    have hne : assignment.CustomURL ≠ "" := by rw [h]; decide
    rw [hmarshal hne, h]
    decide
  have hline := generatedConfig_baseURL_line assignment
  refine ⟨hempty, ?_, ?_, hxtest, generatedConfig_text assignment, ?_, ?_, ?_⟩
  · intro h
    rw [hmarshal h]
    exact ⟨rfl, rfl, jsonUnquote_jsonMarshalString _⟩
  · intro c hc
    rcases hc with rfl | rfl
    · decide
    · decide
  · intro h
    rw [hempty h] at hline
    exact hline
  · intro h
    rw [hmarshal h] at hline
    exact hline
  · intro h
    rw [hxtest h] at hline
    exact hline

/-- C7 at concrete inputs: no URL gives `undefined`; `https://x.test` gives the
quoted URL, which reads back as the URL; both stand in the `baseURL` line of the
generated configuration. -/
theorem baseURL_literal_witness :
    (configArgs firefoxAssignment).baseURLJS = "undefined" ∧
    (configArgs { firefoxAssignment with CustomURL := "https://x.test" }).baseURLJS =
      "\x22https://x.test\x22" ∧
    jsonUnquote (configArgs { firefoxAssignment with CustomURL := "https://x.test" }).baseURLJS =
      some "https://x.test" ∧
    (∃ before after : String,
      generatedConfig { firefoxAssignment with CustomURL := "https://x.test" } =
        before ++ "        baseURL: \x22https://x.test\x22,\n" ++ after) ∧
    (∃ before after : String,
      generatedConfig firefoxAssignment = before ++ "        baseURL: undefined,\n" ++ after) :=
  ⟨(baseURL_literal firefoxAssignment).1 rfl,
   (baseURL_literal { firefoxAssignment with CustomURL := "https://x.test" }).2.2.2.1 rfl,
   ((baseURL_literal { firefoxAssignment with CustomURL := "https://x.test" }).2.1
     (by decide)).2.2,
   (baseURL_literal { firefoxAssignment with CustomURL := "https://x.test" }).2.2.2.2.2.2.2 rfl,
   (baseURL_literal firefoxAssignment).2.2.2.2.2.1 rfl⟩

/-- C8. The project and device names are (chromium, Desktop Chrome) for Browser
chromium, (firefox, Desktop Firefox) for firefox, (webkit, Desktop Safari) for
webkit and (chromium, Desktop Chrome) for every other value, the empty string and
"unknown" included; a non-zero viewport dimension and the headless flag are passed
on unchanged. The text of the generated configuration is the template with the
project name in the `name` line, the device name in the `devices` line, the
headless flag in the `headless` line and the two dimensions in the `viewport` line.
For firefox, headless, 800 by 600 the text names firefox, Desktop Firefox, true,
800 and 600; with any Browser outside the three names in their place it names
chromium and Desktop Chrome. -/
theorem browser_mapping (assignment : Assignment) :
    (assignment.Browser = "chromium" →
      (configArgs assignment).playwrightBrowser = "chromium" ∧
      (configArgs assignment).deviceName = "Desktop Chrome") ∧
    (assignment.Browser = "firefox" →
      (configArgs assignment).playwrightBrowser = "firefox" ∧
      (configArgs assignment).deviceName = "Desktop Firefox") ∧
    (assignment.Browser = "webkit" →
      (configArgs assignment).playwrightBrowser = "webkit" ∧
      (configArgs assignment).deviceName = "Desktop Safari") ∧
    (assignment.Browser ≠ "chromium" → assignment.Browser ≠ "firefox" →
      assignment.Browser ≠ "webkit" →
      (configArgs assignment).playwrightBrowser = "chromium" ∧
      (configArgs assignment).deviceName = "Desktop Chrome") ∧
    (configArgs { assignment with Browser := "unknown" }).playwrightBrowser = "chromium" ∧
    (configArgs { assignment with Browser := "unknown" }).deviceName = "Desktop Chrome" ∧
    (configArgs { assignment with Browser := "" }).playwrightBrowser = "chromium" ∧
    (configArgs { assignment with Browser := "" }).deviceName = "Desktop Chrome" ∧
    (assignment.ViewportWidth ≠ 0 →
      (configArgs assignment).vpWidth = assignment.ViewportWidth) ∧
    (assignment.ViewportHeight ≠ 0 →
      (configArgs assignment).vpHeight = assignment.ViewportHeight) ∧
    (configArgs assignment).headless = assignment.Headless ∧
    generatedConfig assignment = playwrightConfig (configArgs assignment) ∧
    configArgs firefoxAssignment =
      { playwrightBrowser := "firefox", deviceName := "Desktop Firefox",
        baseURLJS := "undefined", headless := true, vpWidth := 800, vpHeight := 600 } ∧
    generatedConfig assignment =
      configHead ++
      ("      name: \x27" ++ (configArgs assignment).playwrightBrowser ++ "\x27,\n" ++
        "      use: \x7b\n" ++
        "        ...devices[\x27" ++ (configArgs assignment).deviceName ++ "\x27],\n") ++
      ("        baseURL: " ++ (configArgs assignment).baseURLJS ++ ",\n") ++
      ("        headless: " ++ (if (configArgs assignment).headless then "true" else "false") ++
        ",\n" ++
        "        viewport: \x7b width: " ++ toString (configArgs assignment).vpWidth ++
        ", height: " ++ toString (configArgs assignment).vpHeight ++ " \x7d,\n") ++
      configTail ∧
    generatedConfig firefoxAssignment =
      configHead ++
      ("      name: \x27firefox\x27,\n" ++
        "      use: \x7b\n" ++
        "        ...devices[\x27Desktop Firefox\x27],\n") ++
      "        baseURL: undefined,\n" ++
      ("        headless: true,\n" ++
        "        viewport: \x7b width: 800, height: 600 \x7d,\n") ++
      configTail ∧
    (∀ other : String, other ≠ "chromium" → other ≠ "firefox" → other ≠ "webkit" →
      generatedConfig { firefoxAssignment with Browser := other } =
        configHead ++
        ("      name: \x27chromium\x27,\n" ++
          "      use: \x7b\n" ++
          "        ...devices[\x27Desktop Chrome\x27],\n") ++
        "        baseURL: undefined,\n" ++
        ("        headless: true,\n" ++
          "        viewport: \x7b width: 800, height: 600 \x7d,\n") ++
        configTail) := by
  have hother : ∀ b : String, b ≠ "chromium" → b ≠ "firefox" → b ≠ "webkit" →
      browserMapping (if b = "" then "chromium" else b) = ("chromium", "Desktop Chrome") := by
    intro b h1 h2 h3
    by_cases hb : b = ""
    · rw [if_pos hb]; decide
    · rw [if_neg hb]
      have e1 : (b == "chromium") = false := by simpa using h1
      have e2 : (b == "firefox") = false := by simpa using h2
      have e3 : (b == "webkit") = false := by simpa using h3
      simp [browserMapping, browserMap, List.lookup, e1, e2, e3]
  have hpair : ∀ x : Assignment, ((configArgs x).playwrightBrowser, (configArgs x).deviceName) =
      browserMapping (if x.Browser = "" then "chromium" else x.Browser) := fun _ => rfl
  have hsplit : ∀ (x : Assignment) (p : String × String),
      browserMapping (if x.Browser = "" then "chromium" else x.Browser) = p →
      (configArgs x).playwrightBrowser = p.1 ∧ (configArgs x).deviceName = p.2 := by
    intro x p hp
    have := hpair x
    rw [hp] at this
    exact ⟨congrArg Prod.fst this, congrArg Prod.snd this⟩
  refine ⟨?_, ?_, ?_, ?_, ?_, ?_, ?_, ?_, ?_, ?_, rfl, rfl, by decide,
    generatedConfig_text assignment, ?_, ?_⟩
  · intro h; exact hsplit assignment ("chromium", "Desktop Chrome") (by rw [h]; decide)
  · intro h; exact hsplit assignment ("firefox", "Desktop Firefox") (by rw [h]; decide)
  · intro h; exact hsplit assignment ("webkit", "Desktop Safari") (by rw [h]; decide)
  · intro h1 h2 h3
    exact hsplit assignment ("chromium", "Desktop Chrome") (hother _ h1 h2 h3)
  · exact (hsplit { assignment with Browser := "unknown" } ("chromium", "Desktop Chrome")
      (hother "unknown" (by decide) (by decide) (by decide))).1
  · exact (hsplit { assignment with Browser := "unknown" } ("chromium", "Desktop Chrome")
      (hother "unknown" (by decide) (by decide) (by decide))).2
  · exact (hsplit { assignment with Browser := "" } ("chromium", "Desktop Chrome")
      (hother "" (by decide) (by decide) (by decide))).1
  · exact (hsplit { assignment with Browser := "" } ("chromium", "Desktop Chrome")
      (hother "" (by decide) (by decide) (by decide))).2
  · intro h; simp [configArgs, h]
  · intro h; simp [configArgs, h]
  · rw [generatedConfig_text]
    rfl
  · intro other h1 h2 h3
    have hp := hsplit { firefoxAssignment with Browser := other }
      ("chromium", "Desktop Chrome") (hother other h1 h2 h3)
    have hargs : configArgs { firefoxAssignment with Browser := other } =
        { playwrightBrowser :=
            (configArgs { firefoxAssignment with Browser := other }).playwrightBrowser,
          deviceName := (configArgs { firefoxAssignment with Browser := other }).deviceName,
          baseURLJS := "undefined", headless := true, vpWidth := 800, vpHeight := 600 } := rfl
    rw [hp.1, hp.2] at hargs
    rw [generatedConfig_text, hargs]
    rfl

/-- C8 at the end-to-end assignment: firefox, headless, 800 by 600; and the text
generated for the Browser "edge". -/
theorem browser_mapping_witness :
    (configArgs firefoxAssignment).playwrightBrowser = "firefox" ∧
    (configArgs firefoxAssignment).deviceName = "Desktop Firefox" ∧
    (configArgs firefoxAssignment).headless = true ∧
    (configArgs firefoxAssignment).vpWidth = 800 ∧
    (configArgs firefoxAssignment).vpHeight = 600 ∧
    (configArgs { firefoxAssignment with Browser := "edge" }).playwrightBrowser = "chromium" ∧
    generatedConfig { firefoxAssignment with Browser := "edge" } =
      configHead ++
      ("      name: \x27chromium\x27,\n" ++
        "      use: \x7b\n" ++
        "        ...devices[\x27Desktop Chrome\x27],\n") ++
      "        baseURL: undefined,\n" ++
      ("        headless: true,\n" ++
        "        viewport: \x7b width: 800, height: 600 \x7d,\n") ++
      configTail :=
  ⟨((browser_mapping firefoxAssignment).2.1 rfl).1,
   ((browser_mapping firefoxAssignment).2.1 rfl).2,
   (browser_mapping firefoxAssignment).2.2.2.2.2.2.2.2.2.2.1,
   (browser_mapping firefoxAssignment).2.2.2.2.2.2.2.2.1 (by decide),
   (browser_mapping firefoxAssignment).2.2.2.2.2.2.2.2.2.1 (by decide),
   ((browser_mapping { firefoxAssignment with Browser := "edge" }).2.2.2.1
     (by decide) (by decide) (by decide)).1,
   (browser_mapping firefoxAssignment).2.2.2.2.2.2.2.2.2.2.2.2.2.2.2 "edge"
     (by decide) (by decide) (by decide)⟩

/-! ## Artifact collection -/

/-- One callback invocation appends the screenshot the entry gives rise to and
sets the video, if none is set yet, to the one the entry can supply. -/
theorem visit_eq (st : Artifacts) (e : WalkEntry) :
    visit st e =
      { screenshots := st.screenshots ++ (screenshotOf e).toList,
        video := match st.video with
          | some v => some v
          | none => videoOf e } := by
  obtain ⟨shots, video⟩ := st
  obtain ⟨name, walkErr, isDir, content⟩ := e
  cases walkErr <;> cases isDir <;> cases hpng : HasSuffix name ".png" <;>
    cases hwebm : HasSuffix name ".webm" <;> cases content <;> cases video <;>
    simp [visit, screenshotOf, videoOf, hpng, hwebm]

/-- The walk as a whole: screenshots are appended in walk order, the video is the
first one an entry can supply. -/
theorem foldl_visit_eq (entries : List WalkEntry) :
    ∀ st : Artifacts, entries.foldl visit st =
      { screenshots := st.screenshots ++ entries.filterMap screenshotOf,
        video := match st.video with
          | some v => some v
          | none => entries.findSome? videoOf } := by
  induction entries with
  | nil => intro st; cases st with | mk shots video => cases video <;> simp
  | cons e rest ih =>
    intro st
    rw [List.foldl_cons, ih, visit_eq]
    obtain ⟨shots, video⟩ := st
    cases video with
    | some v => cases hs : screenshotOf e <;> simp [List.filterMap_cons, hs]
    | none =>
      cases hv : videoOf e <;> cases hs : screenshotOf e <;>
        simp [List.filterMap_cons, List.findSome?_cons, hs, hv]

/-- What `collectArtifacts` returns for an existing directory. -/
theorem collectArtifacts_some (entries : List WalkEntry) :
    collectArtifacts (some entries) =
      { screenshots := entries.filterMap screenshotOf,
        video := entries.findSome? videoOf } := by
  simp [collectArtifacts, foldl_visit_eq]

/-- What it takes for an entry to supply the video. -/
theorem videoOf_eq_some (e : WalkEntry) (v : FileArtifact) :
    videoOf e = some v ↔
      (e.walkErr = false ∧ e.isDir = false ∧ HasSuffix e.name ".webm" = true ∧
        ∃ data, e.content = some data ∧
          v = { filename := e.name, data := EncodeToString data }) := by
  obtain ⟨name, walkErr, isDir, content⟩ := e
  cases walkErr <;> cases isDir <;> cases hwebm : HasSuffix name ".webm" <;> cases content <;>
    simp [videoOf, hwebm, eq_comm]

/-- A value found by `findSome?` comes from a first entry that supplies one. -/
theorem findSome_videoOf_first (entries : List WalkEntry) (v : FileArtifact)
    (h : entries.findSome? videoOf = some v) :
    ∃ l1 e l2, entries = l1 ++ e :: l2 ∧ (∀ x ∈ l1, videoOf x = none) ∧ videoOf e = some v := by
  induction entries with
  | nil => simp at h
  | cons e rest ih =>
    cases hv : videoOf e with
    | some u =>
      rw [List.findSome?_cons, hv] at h
      simp only [Option.some.injEq] at h
      exact ⟨[], e, rest, rfl, by simp, by rw [hv, h]⟩
    | none =>
      rw [List.findSome?_cons, hv] at h
      obtain ⟨l1, x, l2, h1, h2, h3⟩ := ih h
      refine ⟨e :: l1, x, l2, by rw [h1]; rfl, ?_, h3⟩
      intro y hy
      rcases List.mem_cons.1 hy with rfl | hy
      · exact hv
      · exact h2 y hy

/-- C10 (as stated, refuted). When the first `.webm` file met cannot be read, the
video is the second `.webm` file, so a later `.webm` is not ignored; and when the
only `.webm` file cannot be read there is no video although a file name ends in
`.webm`. -/
theorem unreadable_first_webm_is_skipped :
    unreadableFirstVideoDir.find? (fun e => e.isFileWithSuffix ".webm") =
      some { name := "a.webm", walkErr := false, isDir := false, content := none } ∧
    (collectArtifacts (some unreadableFirstVideoDir)).video =
      some { filename := "b.webm", data := "Bw==" } ∧
    (collectArtifacts (some unreadableVideoDir)).video = none ∧
    (∃ e ∈ unreadableVideoDir, e.isFileWithSuffix ".webm" = true) := by
  decide

/-- C10 (amended). For every walk order the video is the first file met whose name
ends in `.webm` and whose content can be read, with its name and the base64 text
of its content; what follows that file in the walk has no influence, and there is
no video exactly when no file whose name ends in `.webm` can be read. -/
theorem collectArtifacts_video (entries : List WalkEntry) :
    (collectArtifacts (some entries)).video = entries.findSome? videoOf ∧
    (∀ (e : WalkEntry) (v : FileArtifact), videoOf e = some v ↔
      (e.walkErr = false ∧ e.isDir = false ∧ HasSuffix e.name ".webm" = true ∧
        ∃ data, e.content = some data ∧
          v = { filename := e.name, data := EncodeToString data })) ∧
    (∀ (l1 l2 : List WalkEntry) (e : WalkEntry) (v : FileArtifact),
      (∀ x ∈ l1, videoOf x = none) → videoOf e = some v →
      (collectArtifacts (some (l1 ++ e :: l2))).video = some v) ∧
    (∀ v : FileArtifact, (collectArtifacts (some entries)).video = some v →
      ∃ l1 e l2, entries = l1 ++ e :: l2 ∧ (∀ x ∈ l1, videoOf x = none) ∧
        videoOf e = some v) ∧
    ((collectArtifacts (some entries)).video = none ↔ ∀ e ∈ entries, videoOf e = none) := by
  refine ⟨by rw [collectArtifacts_some], videoOf_eq_some, ?_, ?_, ?_⟩
  · intro l1 l2 e v h1 h2
    rw [collectArtifacts_some]
    simp only
    rw [List.findSome?_append, List.findSome?_eq_none_iff.2 h1, List.findSome?_cons, h2]
    rfl
  · intro v hv
    rw [collectArtifacts_some] at hv
    exact findSome_videoOf_first entries v hv
  · rw [collectArtifacts_some]
    exact List.findSome?_eq_none_iff

/-- C10 (amended) at concrete directories: with two readable `.webm` files the
first one is the video; with an unreadable first one the second is. -/
theorem collectArtifacts_video_witness :
    (collectArtifacts (some readableDir)).video =
      some { filename := "v.webm", data := "BQY=" } ∧
    (collectArtifacts (some unreadableFirstVideoDir)).video =
      some { filename := "b.webm", data := "Bw==" } :=
  ⟨(collectArtifacts_video readableDir).2.2.1
      [{ name := "test-results", walkErr := false, isDir := true, content := none },
       { name := "a.png", walkErr := false, isDir := false, content := some [1, 2, 3] },
       { name := "b.png", walkErr := false, isDir := false, content := some [] },
       { name := "c.png", walkErr := false, isDir := false, content := some [4] }]
      [{ name := "w.webm", walkErr := false, isDir := false, content := some [7] }]
      { name := "v.webm", walkErr := false, isDir := false, content := some [5, 6] }
      { filename := "v.webm", data := "BQY=" } (by decide) (by decide),
   (collectArtifacts_video unreadableFirstVideoDir).2.2.1
      [{ name := "test-results", walkErr := false, isDir := true, content := none },
       { name := "a.webm", walkErr := false, isDir := false, content := none }]
      []
      { name := "b.webm", walkErr := false, isDir := false, content := some [7] }
      { filename := "b.webm", data := "Bw==" } (by decide) (by decide)⟩

/-! ## Reporting -/

/-- The statuses of two action lists in a row. -/
theorem statusUpdates_append (xs ys : List Action) :
    statusUpdates (xs ++ ys) = statusUpdates xs ++ statusUpdates ys := by
  simp [statusUpdates]

/-- What `reportResult` does on a registered agent, by the answer to the result
POST. -/
theorem reportResult_registered (w : World) (a : Agent) (assignmentID : String)
    (success : Bool) (message : String) (resultData : Option ResultData)
    (hreg : ¬ (a.AgentID = "" ∨ a.APIKey = "")) :
    reportResult w a assignmentID success message resultData =
      Action.callReportResult assignmentID success message ::
      Action.postResult assignmentID
        { success := success, message := message,
          output := (resultData.map (fun d => d.output)).getD "",
          errors := (resultData.map (fun d => d.errors)).getD "",
          artifacts := resultData.map (fun d => d.artifacts) } ::
      (match w.postResult with
        | .ok 200 => [Action.postStatus assignmentID (if success then "completed" else "failed")]
        | _ => []) := by
  unfold reportResult updateAssignmentStatus
  rw [if_neg hreg]
  cases hp : w.postResult with
  | error e => rfl
  | ok code =>
    by_cases h200 : code = 200
    · subst h200; simp [hreg]
    · simp only [h200, if_false]
      split
      · rename_i heq
        exact absurd (by simpa using heq) h200
      · rfl

/-- C13. On a registered agent `reportResult` makes exactly one result POST; it
posts a status after it if and only if that POST was answered 200, and the status
is "completed" for success true and "failed" for success false; on a transport
error or any other code it posts no status and makes no second result POST. On an
agent whose AgentID or APIKey is empty it posts nothing at all. -/
theorem reportResult_final_status (w : World) (a : Agent) (assignmentID : String)
    (success : Bool) (message : String) (resultData : Option ResultData) :
    (a.AgentID ≠ "" → a.APIKey ≠ "" →
      ((reportResult w a assignmentID success message resultData).filter
        Action.isPostResult).length = 1 ∧
      (w.postResult = .ok 200 →
        (reportResult w a assignmentID success message resultData).filter Action.isPostStatus =
          [Action.postStatus assignmentID (if success then "completed" else "failed")]) ∧
      (w.postResult ≠ .ok 200 →
        (reportResult w a assignmentID success message resultData).filter Action.isPostStatus =
          []) ∧
      ((∃ x ∈ reportResult w a assignmentID success message resultData,
          x.isPostStatus = true) ↔ w.postResult = .ok 200)) ∧
    (a.AgentID = "" ∨ a.APIKey = "" →
      reportResult w a assignmentID success message resultData =
        [Action.callReportResult assignmentID success message] ∧
      (reportResult w a assignmentID success message resultData).filter
        Action.isPostResult = [] ∧
      (reportResult w a assignmentID success message resultData).filter
        Action.isPostStatus = []) := by
  constructor
  · intro h1 h2
    have hreg : ¬ (a.AgentID = "" ∨ a.APIKey = "") := not_or.2 ⟨h1, h2⟩
    rw [reportResult_registered w a assignmentID success message resultData hreg]
    cases hp : w.postResult with
    | error e => simp [Action.isPostResult, Action.isPostStatus]
    | ok code =>
      by_cases h200 : code = 200
      · subst h200
        simp [Action.isPostResult, Action.isPostStatus]
      · have hne : ∀ c : Nat, c ≠ 200 →
            (match (Except.ok c : Except String Nat) with
              | .ok 200 => [Action.postStatus assignmentID
                  (if success then "completed" else "failed")]
              | _ => []) = [] := by
          intro c hc
          split
          · rename_i heq
            exact absurd (by simpa using heq) hc
          · rfl
        rw [hne code h200]
        simp [Action.isPostResult, Action.isPostStatus, h200]
  · intro hreg
    simp [reportResult, hreg, Action.isPostResult, Action.isPostStatus]

/-- C13 at concrete inputs: answered 200 with success true the status is
"completed"; answered 500 there is none. -/
theorem reportResult_final_status_witness :
    (reportResult fineWorld idleAgent "1" true "ok" none).filter Action.isPostStatus =
      [Action.postStatus "1" "completed"] ∧
    (reportResult { fineWorld with postResult := .ok 500 } idleAgent "1" true "ok" none).filter
      Action.isPostStatus = [] ∧
    (reportResult fineWorld { idleAgent with APIKey := "" } "1" true "ok" none).filter
      Action.isPostResult = [] :=
  ⟨((reportResult_final_status fineWorld idleAgent "1" true "ok" none).1
      (by decide) (by decide)).2.1 rfl,
   ((reportResult_final_status { fineWorld with postResult := .ok 500 } idleAgent "1" true "ok"
      none).1 (by decide) (by decide)).2.2.1 (by intro h; cases h),
   ((reportResult_final_status fineWorld { idleAgent with APIKey := "" } "1" true "ok" none).2
      (Or.inr rfl)).2.1⟩
/-! ## The pipeline after the workspace was created -/

/-- The shape of the pipeline body on every path: the "started" status, then file
writes and external commands only, then one call of `reportResult`. -/
theorem runPipeline_shape (w : World) (a : Agent) (assignment : Assignment)
    (assignmentID testCode testDir : String) :
    ∃ (mid : List Action) (success : Bool) (message : String) (resultData : Option ResultData),
      runPipeline w a assignment assignmentID testCode testDir =
        updateAssignmentStatus a assignmentID "started" ++ mid ++
          reportResult w a assignmentID success message resultData ∧
      (∀ x ∈ mid, x.isWriteFile = true ∨ x.isExec = true) := by
  cases h1 : w.writeFile (joinPath testDir "test.spec.js") with
  | some err =>
    refine ⟨[Action.writeFile (joinPath testDir "test.spec.js") testCode], false,
      "Failed to write test file: " ++ err, none, ?_, ?_⟩
    · simp only [runPipeline, h1]
    · simp [Action.isWriteFile]
  | none =>
    cases h2 : w.writeFile (joinPath testDir "package.json") with
    | some err =>
      refine ⟨[Action.writeFile (joinPath testDir "test.spec.js") testCode,
        Action.writeFile (joinPath testDir "package.json") (packageJSON assignmentID)],
        false, "Failed to write package.json: " ++ err, none, ?_, ?_⟩
      · simp [runPipeline, h1, h2]
      · simp [Action.isWriteFile]
    | none =>
      cases h3 : w.writeFile (joinPath testDir "playwright.config.js") with
      | some err =>
        refine ⟨[Action.writeFile (joinPath testDir "test.spec.js") testCode,
          Action.writeFile (joinPath testDir "package.json") (packageJSON assignmentID),
          Action.writeFile (joinPath testDir "playwright.config.js")
            (playwrightConfig (configArgs assignment))],
          false, "Failed to write config: " ++ err, none, ?_, ?_⟩
        · simp [runPipeline, h1, h2, h3]
        · simp [Action.isWriteFile]
      | none =>
        cases hn : w.npmInstall.err with
        | some e =>
          refine ⟨[Action.writeFile (joinPath testDir "test.spec.js") testCode,
            Action.writeFile (joinPath testDir "package.json") (packageJSON assignmentID),
            Action.writeFile (joinPath testDir "playwright.config.js")
              (playwrightConfig (configArgs assignment)),
            Action.exec testDir "npm" (Fields "install") 300],
            false, "Dependency installation failed: " ++ (e ++ ": " ++ w.npmInstall.out),
            none, ?_, ?_⟩
          · simp [runPipeline, h1, h2, h3, runCommandError, hn]
          · simp [Action.isWriteFile, Action.isExec]
        | none =>
          refine ⟨[Action.writeFile (joinPath testDir "test.spec.js") testCode,
            Action.writeFile (joinPath testDir "package.json") (packageJSON assignmentID),
            Action.writeFile (joinPath testDir "playwright.config.js")
              (playwrightConfig (configArgs assignment)),
            Action.exec testDir "npm" (Fields "install") 300,
            Action.exec testDir "npx"
              (Fields ("playwright install " ++ (configArgs assignment).playwrightBrowser)) 300,
            Action.exec testDir "npx"
              ["playwright", "test", "--project", (configArgs assignment).playwrightBrowser] 600],
            w.testRun.runErr.isNone, w.testRun.stdout,
            some { success := w.testRun.runErr.isNone, output := w.testRun.stdout,
                   errors := w.testRun.stderr, artifacts := collectArtifacts w.testResults },
            ?_, ?_⟩
          · simp [runPipeline, h1, h2, h3, runCommandError, hn]
          · simp [Action.isWriteFile, Action.isExec]

/-- The pipeline body when the three files are written and `npm install`
succeeds. -/
theorem runPipeline_of_install_ok (w : World) (a : Agent) (assignment : Assignment)
    (assignmentID testCode testDir : String)
    (h1 : w.writeFile (joinPath testDir "test.spec.js") = none)
    (h2 : w.writeFile (joinPath testDir "package.json") = none)
    (h3 : w.writeFile (joinPath testDir "playwright.config.js") = none)
    (hn : w.npmInstall.err = none) :
    runPipeline w a assignment assignmentID testCode testDir =
      updateAssignmentStatus a assignmentID "started" ++
      [Action.writeFile (joinPath testDir "test.spec.js") testCode,
       Action.writeFile (joinPath testDir "package.json") (packageJSON assignmentID),
       Action.writeFile (joinPath testDir "playwright.config.js")
         (playwrightConfig (configArgs assignment)),
       Action.exec testDir "npm" (Fields "install") 300,
       Action.exec testDir "npx"
         (Fields ("playwright install " ++ (configArgs assignment).playwrightBrowser)) 300,
       Action.exec testDir "npx"
         ["playwright", "test", "--project", (configArgs assignment).playwrightBrowser] 600] ++
      reportResult w a assignmentID w.testRun.runErr.isNone w.testRun.stdout
        (some { success := w.testRun.runErr.isNone, output := w.testRun.stdout,
                errors := w.testRun.stderr, artifacts := collectArtifacts w.testResults }) := by
  simp only [runPipeline, h1, h2, h3, runCommandError, hn, Option.map,
    List.append_assoc, List.singleton_append]
  rfl

/-- The pipeline body when the three files are written and `npm install` fails. -/
theorem runPipeline_of_install_failed (w : World) (a : Agent) (assignment : Assignment)
    (assignmentID testCode testDir e : String)
    (h1 : w.writeFile (joinPath testDir "test.spec.js") = none)
    (h2 : w.writeFile (joinPath testDir "package.json") = none)
    (h3 : w.writeFile (joinPath testDir "playwright.config.js") = none)
    (hn : w.npmInstall.err = some e) :
    runPipeline w a assignment assignmentID testCode testDir =
      updateAssignmentStatus a assignmentID "started" ++
      [Action.writeFile (joinPath testDir "test.spec.js") testCode,
       Action.writeFile (joinPath testDir "package.json") (packageJSON assignmentID),
       Action.writeFile (joinPath testDir "playwright.config.js")
         (playwrightConfig (configArgs assignment)),
       Action.exec testDir "npm" (Fields "install") 300] ++
      reportResult w a assignmentID false
        ("Dependency installation failed: " ++ (e ++ ": " ++ w.npmInstall.out)) none := by
  simp only [runPipeline, h1, h2, h3, runCommandError, hn, Option.map,
    List.append_assoc, List.singleton_append]
  rfl
/-- File writes and external commands post no status. -/
theorem statusUpdates_of_writes_and_execs (mid : List Action)
    (h : ∀ x ∈ mid, x.isWriteFile = true ∨ x.isExec = true) : statusUpdates mid = [] := by
  unfold statusUpdates
  rw [List.filterMap_eq_nil_iff]
  intro x hx
  have hx2 := h x hx
  cases x <;> simp_all [Action.status?, Action.isWriteFile, Action.isExec]

/-- The statuses `reportResult` posts: none, or the one final status. -/
theorem statusUpdates_reportResult (w : World) (a : Agent) (assignmentID : String)
    (success : Bool) (message : String) (resultData : Option ResultData) :
    statusUpdates (reportResult w a assignmentID success message resultData) = [] ∨
    (¬ (a.AgentID = "" ∨ a.APIKey = "") ∧ w.postResult = .ok 200 ∧
      statusUpdates (reportResult w a assignmentID success message resultData) =
        [if success then "completed" else "failed"]) := by
  by_cases hreg : a.AgentID = "" ∨ a.APIKey = ""
  · left
    simp [reportResult, hreg, statusUpdates, Action.status?]
  · rw [reportResult_registered w a assignmentID success message resultData hreg]
    cases hp : w.postResult with
    | error e => left; simp [statusUpdates, Action.status?]
    | ok code =>
      by_cases h200 : code = 200
      · subst h200
        right
        exact ⟨hreg, rfl, by simp [statusUpdates, Action.status?]⟩
      · left
        have : (match (Except.ok code : Except String Nat) with
              | .ok 200 => [Action.postStatus assignmentID
                  (if success then "completed" else "failed")]
              | _ => []) = [] := by
          split
          · rename_i heq
            exact absurd (by simpa using heq) h200
          · rfl
        rw [this]
        simp [statusUpdates, Action.status?]

/-- The statuses one pipeline posts, on every path, for every agent and world:
nothing, "started" alone, "failed" alone, or "started" followed by the final
status. -/
theorem statusUpdates_executeTest (w : World) (a : Agent) (assignment : Assignment) :
    statusUpdates (ExecuteTest w a assignment).actions ∈
      [[], ["started"], ["failed"], ["started", "failed"], ["started", "completed"]] := by
  have hfetch : statusUpdates (resolveTestCode w assignment).1 = [] := by
    rcases resolveTestCode_actions w assignment with h | h <;>
      simp [h, statusUpdates, Action.status?]
  have hfalse : ∀ (id message : String),
      statusUpdates (reportResult w a id false message none) = [] ∨
      statusUpdates (reportResult w a id false message none) = ["failed"] := by
    intro id message
    rcases statusUpdates_reportResult w a id false message none with h | ⟨_, _, h⟩
    · exact Or.inl h
    · exact Or.inr (by simpa using h)
  have hmk : ∀ p : String, statusUpdates [Action.mkdirTemp p] = [] := fun _ => rfl
  have hdefer : ∀ id dir : String,
      statusUpdates [Action.trackerRelease id, Action.removeAll dir] = [] := fun _ _ => rfl
  unfold ExecuteTest
  simp only
  split
  · rw [statusUpdates_append, hfetch]
    rcases hfalse (sprintV assignment.ID) "No test code provided" with h | h <;>
      rw [h] <;> simp
  · split
    · rename_i err _
      rw [statusUpdates_append, statusUpdates_append, hfetch, hmk]
      rcases hfalse (sprintV assignment.ID) ("Failed to create temp dir: " ++ err) with h | h <;>
        rw [h] <;> simp
    · rename_i testDir _
      obtain ⟨mid, success, message, resultData, hshape, hmid⟩ :=
        runPipeline_shape w a assignment (sprintV assignment.ID)
          (resolveTestCode w assignment).2 testDir
      rw [hshape]
      simp only [statusUpdates_append, hfetch, hmk, hdefer,
        statusUpdates_of_writes_and_execs mid hmid]
      by_cases hreg : a.AgentID = "" ∨ a.APIKey = ""
      · have hs : updateAssignmentStatus a (sprintV assignment.ID) "started" = [] := by
          simp [updateAssignmentStatus, hreg]
        have hr : statusUpdates (reportResult w a (sprintV assignment.ID) success message
            resultData) = [] := by
          rcases statusUpdates_reportResult w a (sprintV assignment.ID) success message
            resultData with h | ⟨h, _⟩
          · exact h
          · exact absurd hreg h
        rw [hs, hr]
        simp [statusUpdates]
      · have hs : statusUpdates (updateAssignmentStatus a (sprintV assignment.ID) "started") =
            ["started"] := by
          simp [updateAssignmentStatus, hreg, statusUpdates, Action.status?]
        rcases statusUpdates_reportResult w a (sprintV assignment.ID) success message
          resultData with h | ⟨_, _, h⟩
        · rw [hs, h]; simp
        · rw [hs, h]
          cases success <;> simp

/-- C11. On a registered agent, for an assignment with inline code whose workspace
is created, whose three files are written and whose `npm install` succeeds, with
the result POST answered 200, the statuses posted are exactly "started" then
"completed" when the runner returns without error, and exactly "started" then
"failed" when it returns an error; they are posted for the assignment's ID. On
every path, for every agent and world, no "started" follows a "completed" or a
"failed". -/
theorem status_sequence (w : World) (a : Agent) (assignment : Assignment) (testDir : String)
    (hid : a.AgentID ≠ "") (hkey : a.APIKey ≠ "")
    (hcode : assignment.Code ≠ "")
    (hdir : w.mkdirTemp = .ok testDir)
    (h1 : w.writeFile (joinPath testDir "test.spec.js") = none)
    (h2 : w.writeFile (joinPath testDir "package.json") = none)
    (h3 : w.writeFile (joinPath testDir "playwright.config.js") = none)
    (hn : w.npmInstall.err = none)
    (hpost : w.postResult = .ok 200) :
    (w.testRun.runErr = none →
      statusUpdates (ExecuteTest w a assignment).actions = ["started", "completed"]) ∧
    (w.testRun.runErr ≠ none →
      statusUpdates (ExecuteTest w a assignment).actions = ["started", "failed"]) ∧
    (∀ x ∈ (ExecuteTest w a assignment).actions, x.isPostStatus = true →
      ∃ status, x = Action.postStatus (sprintV assignment.ID) status) ∧
    (∀ (w2 : World) (a2 : Agent) (assignment2 : Assignment) (l1 l2 : List String)
      (terminal : String),
      statusUpdates (ExecuteTest w2 a2 assignment2).actions = l1 ++ terminal :: l2 →
      terminal = "completed" ∨ terminal = "failed" → "started" ∉ l2) := by
  have hreg : ¬ (a.AgentID = "" ∨ a.APIKey = "") := not_or.2 ⟨hid, hkey⟩
  have hres : resolveTestCode w assignment = ([], assignment.Code) := by
    simp [resolveTestCode, hcode]
  have hact : (ExecuteTest w a assignment).actions =
      [Action.mkdirTemp ("qamax-agent-" ++ sprintV assignment.ID ++ "-")] ++
      (updateAssignmentStatus a (sprintV assignment.ID) "started" ++
      [Action.writeFile (joinPath testDir "test.spec.js") assignment.Code,
       Action.writeFile (joinPath testDir "package.json") (packageJSON (sprintV assignment.ID)),
       Action.writeFile (joinPath testDir "playwright.config.js")
         (playwrightConfig (configArgs assignment)),
       Action.exec testDir "npm" (Fields "install") 300,
       Action.exec testDir "npx"
         (Fields ("playwright install " ++ (configArgs assignment).playwrightBrowser)) 300,
       Action.exec testDir "npx"
         ["playwright", "test", "--project", (configArgs assignment).playwrightBrowser] 600] ++
      reportResult w a (sprintV assignment.ID) w.testRun.runErr.isNone w.testRun.stdout
        (some { success := w.testRun.runErr.isNone, output := w.testRun.stdout,
                errors := w.testRun.stderr, artifacts := collectArtifacts w.testResults })) ++
      [Action.trackerRelease (sprintV assignment.ID), Action.removeAll testDir] := by
    rw [← runPipeline_of_install_ok w a assignment (sprintV assignment.ID) assignment.Code
      testDir h1 h2 h3 hn]
    simp [ExecuteTest, hres, hcode, hdir]
  refine ⟨?_, ?_, ?_, ?_⟩
  · intro hrun
    rw [hact, reportResult_registered _ _ _ _ _ _ hreg, hpost, hrun]
    simp [updateAssignmentStatus, hreg, statusUpdates, Action.status?]
  · intro hrun
    obtain ⟨e, he⟩ := Option.ne_none_iff_exists'.1 hrun
    rw [hact, reportResult_registered _ _ _ _ _ _ hreg, hpost, he]
    simp [updateAssignmentStatus, hreg, statusUpdates, Action.status?]
  · intro x hx hstatus
    rw [hact, reportResult_registered _ _ _ _ _ _ hreg, hpost] at hx
    simp only [updateAssignmentStatus, hreg, if_false, List.mem_append, List.mem_cons,
      List.mem_singleton, List.not_mem_nil, or_false] at hx
    rcases hx with (rfl | (rfl | rfl | rfl | rfl | rfl | rfl | rfl) | rfl | rfl | rfl) |
      rfl | rfl
    all_goals first
      | exact ⟨_, rfl⟩
      | simp [Action.isPostStatus] at hstatus
  · intro w2 a2 assignment2 l1 l2 terminal hsplit hterm
    have hcases := statusUpdates_executeTest w2 a2 assignment2
    rw [hsplit] at hcases
    simp only [List.mem_cons, List.mem_singleton, List.not_mem_nil, or_false] at hcases
    intro hmem
    rcases hcases with h | h | h | h | h
    · simp at h
    · rcases l1 with _ | ⟨y, l1⟩
      · simp at h; rcases hterm with ht | ht <;> simp [ht] at h
      · simp at h
    · rcases l1 with _ | ⟨y, l1⟩
      · simp at h; rw [h.2] at hmem; simp at hmem
      · simp at h
    · rcases l1 with _ | ⟨y, _ | ⟨z, l1⟩⟩
      · simp at h; rcases hterm with ht | ht <;> simp [ht] at h
      · simp at h; rw [h.2.2] at hmem; simp at hmem
      · simp at h
    · rcases l1 with _ | ⟨y, _ | ⟨z, l1⟩⟩
      · simp at h; rcases hterm with ht | ht <;> simp [ht] at h
      · simp at h; rw [h.2.2] at hmem; simp at hmem
      · simp at h
/-- C11 at the end-to-end assignment: a run without error gives "started",
"completed"; a run that exits with status 1 gives "started", "failed". -/
theorem status_sequence_witness :
    statusUpdates (ExecuteTest fineWorld idleAgent firefoxAssignment).actions =
      ["started", "completed"] ∧
    statusUpdates (ExecuteTest failingRunWorld idleAgent firefoxAssignment).actions =
      ["started", "failed"] :=
  ⟨(status_sequence fineWorld idleAgent firefoxAssignment "/tmp/qamax-agent-1-42"
      (by decide) (by decide) (by decide) rfl rfl rfl rfl rfl rfl).1 rfl,
   (status_sequence failingRunWorld idleAgent firefoxAssignment "/tmp/qamax-agent-1-42"
      (by decide) (by decide) (by decide) rfl rfl rfl rfl rfl rfl).2.1 (by decide)⟩

/-- Every action of `reportResult` is the call itself, a result POST or a status
POST. -/
theorem reportResult_kinds (w : World) (a : Agent) (assignmentID : String)
    (success : Bool) (message : String) (resultData : Option ResultData) :
    ∀ x ∈ reportResult w a assignmentID success message resultData,
      x.isReportCall = true ∨ x.isPostResult = true ∨ x.isPostStatus = true := by
  intro x hx
  unfold reportResult updateAssignmentStatus at hx
  by_cases hreg : a.AgentID = "" ∨ a.APIKey = ""
  · simp only [hreg, if_true, List.mem_singleton] at hx
    subst hx
    exact Or.inl rfl
  · simp only [hreg, if_false] at hx
    cases hp : w.postResult with
    | error e =>
      simp only [hp, List.mem_cons, List.mem_singleton, List.not_mem_nil, or_false] at hx
      rcases hx with rfl | rfl
      · exact Or.inl rfl
      · exact Or.inr (Or.inl rfl)
    | ok code =>
      by_cases h200 : code = 200
      · simp only [hp, h200, if_true, List.mem_cons, List.mem_singleton, List.not_mem_nil,
          or_false] at hx
        rcases hx with rfl | rfl | rfl
        · exact Or.inl rfl
        · exact Or.inr (Or.inl rfl)
        · exact Or.inr (Or.inr rfl)
      · simp only [hp, h200, if_false, List.mem_cons, List.mem_singleton, List.not_mem_nil,
          or_false] at hx
        rcases hx with rfl | rfl
        · exact Or.inl rfl
        · exact Or.inr (Or.inl rfl)

/-- The calls of `reportResult` within its own actions: the one call. -/
theorem reportResult_calls (w : World) (a : Agent) (assignmentID : String)
    (success : Bool) (message : String) (resultData : Option ResultData) :
    (reportResult w a assignmentID success message resultData).filter Action.isReportCall =
      [Action.callReportResult assignmentID success message] := by
  by_cases hreg : a.AgentID = "" ∨ a.APIKey = ""
  · simp [reportResult, hreg, Action.isReportCall]
  · rw [reportResult_registered w a assignmentID success message resultData hreg]
    cases hp : w.postResult with
    | error e => simp [Action.isReportCall]
    | ok code =>
      have : ∀ l : List Action, (∀ x ∈ l, x.isPostStatus = true) →
          l.filter Action.isReportCall = [] := by
        intro l hl
        rw [List.filter_eq_nil_iff]
        intro x hx
        have := hl x hx
        cases x <;> simp_all [Action.isReportCall, Action.isPostStatus]
      simp only [List.filter_cons, Action.isReportCall, if_true, Bool.false_eq_true, if_false]
      rw [this]
      intro x hx
      split at hx
      · simp only [List.mem_singleton] at hx
        subst hx; rfl
      · simp at hx

/-- C12. Once the workspace exists and its three files are written, the test
runner is invoked if and only if `npm install` succeeded, and what the
browser-engine installation returns changes nothing in what the pipeline does.
When `npm install` fails, the pipeline's only call of `reportResult` is its last
step before the deferred calls, with success false and the message
"Dependency installation failed: " followed by the command error, ": " and the
complete combined output; on a registered agent this is the one result posted. -/
theorem runner_iff_install_ok (w : World) (a : Agent) (assignment : Assignment)
    (testDir : String)
    (hcode : (resolveTestCode w assignment).2 ≠ "")
    (hdir : w.mkdirTemp = .ok testDir)
    (h1 : w.writeFile (joinPath testDir "test.spec.js") = none)
    (h2 : w.writeFile (joinPath testDir "package.json") = none)
    (h3 : w.writeFile (joinPath testDir "playwright.config.js") = none) :
    ((∃ x ∈ (ExecuteTest w a assignment).actions, x.isRunner = true) ↔
      w.npmInstall.err = none) ∧
    (∀ r : CmdResult,
      (ExecuteTest { w with playwrightInstall := r } a assignment).actions =
        (ExecuteTest w a assignment).actions) ∧
    (∀ e : String, w.npmInstall.err = some e →
      (ExecuteTest w a assignment).actions.filter Action.isReportCall =
        [Action.callReportResult (sprintV assignment.ID) false
          ("Dependency installation failed: " ++ e ++ ": " ++ w.npmInstall.out)] ∧
      (∃ before : List Action, (ExecuteTest w a assignment).actions =
        before ++ reportResult w a (sprintV assignment.ID) false
          ("Dependency installation failed: " ++ e ++ ": " ++ w.npmInstall.out) none ++
        [Action.trackerRelease (sprintV assignment.ID), Action.removeAll testDir]) ∧
      (a.AgentID ≠ "" → a.APIKey ≠ "" →
        (ExecuteTest w a assignment).actions.filter Action.isPostResult =
          [Action.postResult (sprintV assignment.ID)
            { success := false,
              message := "Dependency installation failed: " ++ e ++ ": " ++ w.npmInstall.out,
              output := "", errors := "", artifacts := none }])) := by
  have hact : (ExecuteTest w a assignment).actions =
      (resolveTestCode w assignment).1 ++
      [Action.mkdirTemp ("qamax-agent-" ++ sprintV assignment.ID ++ "-")] ++
      runPipeline w a assignment (sprintV assignment.ID) (resolveTestCode w assignment).2
        testDir ++
      [Action.trackerRelease (sprintV assignment.ID), Action.removeAll testDir] := by
    simp [ExecuteTest, hcode, hdir]
  have hfetch : ∀ x ∈ (resolveTestCode w assignment).1,
      x = Action.getScript (sprintV assignment.ScriptID) := by
    intro x hx
    rcases resolveTestCode_actions w assignment with h | h
    · rw [h] at hx; simp at hx
    · rw [h] at hx; simpa using hx
  have hstart : ∀ x ∈ updateAssignmentStatus a (sprintV assignment.ID) "started",
      x = Action.postStatus (sprintV assignment.ID) "started" := by
    intro x hx
    unfold updateAssignmentStatus at hx
    split at hx
    · simp at hx
    · simpa using hx
  refine ⟨?_, fun r => rfl, ?_⟩
  · cases hn : w.npmInstall.err with
    | none =>
      simp only [iff_true]
      refine ⟨Action.exec testDir "npx"
        ["playwright", "test", "--project", (configArgs assignment).playwrightBrowser] 600,
        ?_, by simp [Action.isRunner]⟩
      rw [hact, runPipeline_of_install_ok w a assignment _ _ testDir h1 h2 h3 hn]
      simp
    | some e =>
      simp only [reduceCtorEq, iff_false, not_exists, not_and]
      intro x hx
      rw [hact, runPipeline_of_install_failed w a assignment _ _ testDir e h1 h2 h3 hn] at hx
      simp only [List.mem_append, List.mem_cons, List.mem_singleton, List.not_mem_nil,
        or_false] at hx
      rcases hx with ((hx | rfl) | (hx | rfl | rfl | rfl | rfl) | hx) | rfl | rfl
      · rw [hfetch x hx]; simp [Action.isRunner]
      · simp [Action.isRunner]
      · rw [hstart x hx]; simp [Action.isRunner]
      · simp [Action.isRunner]
      · simp [Action.isRunner]
      · simp [Action.isRunner]
      · simp [Action.isRunner]
      · rcases reportResult_kinds _ _ _ _ _ _ x hx with h | h | h <;>
          cases x <;> simp_all [Action.isRunner, Action.isReportCall, Action.isPostResult,
            Action.isPostStatus]
      · simp [Action.isRunner]
      · simp [Action.isRunner]
  · intro e hn
    have hmsg : "Dependency installation failed: " ++ e ++ ": " ++ w.npmInstall.out =
        "Dependency installation failed: " ++ (e ++ ": " ++ w.npmInstall.out) := by
      simp [String.append_assoc]
    rw [hmsg, hact, runPipeline_of_install_failed w a assignment _ _ testDir e h1 h2 h3 hn]
    have hf1 : (resolveTestCode w assignment).1.filter Action.isReportCall = [] := by
      rw [List.filter_eq_nil_iff]
      intro x hx
      rw [hfetch x hx]; simp [Action.isReportCall]
    have hf2 : (resolveTestCode w assignment).1.filter Action.isPostResult = [] := by
      rw [List.filter_eq_nil_iff]
      intro x hx
      rw [hfetch x hx]; simp [Action.isPostResult]
    have hs1 : (updateAssignmentStatus a (sprintV assignment.ID) "started").filter
        Action.isReportCall = [] := by
      rw [List.filter_eq_nil_iff]
      intro x hx
      rw [hstart x hx]; simp [Action.isReportCall]
    have hs2 : (updateAssignmentStatus a (sprintV assignment.ID) "started").filter
        Action.isPostResult = [] := by
      rw [List.filter_eq_nil_iff]
      intro x hx
      rw [hstart x hx]; simp [Action.isPostResult]
    refine ⟨?_, ⟨(resolveTestCode w assignment).1 ++
      [Action.mkdirTemp ("qamax-agent-" ++ sprintV assignment.ID ++ "-")] ++
      updateAssignmentStatus a (sprintV assignment.ID) "started" ++
      [Action.writeFile (joinPath testDir "test.spec.js") (resolveTestCode w assignment).2,
       Action.writeFile (joinPath testDir "package.json") (packageJSON (sprintV assignment.ID)),
       Action.writeFile (joinPath testDir "playwright.config.js")
         (playwrightConfig (configArgs assignment)),
       Action.exec testDir "npm" (Fields "install") 300], by simp⟩, ?_⟩
    · simp only [List.filter_append, hf1, hs1, reportResult_calls]
      simp [Action.isReportCall]
    · intro hid hkey
      have hreg : ¬ (a.AgentID = "" ∨ a.APIKey = "") := not_or.2 ⟨hid, hkey⟩
      rw [reportResult_registered _ _ _ _ _ _ hreg]
      simp only [List.filter_append, hf2, hs2]
      cases hp : w.postResult with
      | error err => simp [Action.isPostResult]
      | ok code =>
        by_cases h200 : code = 200
        · subst h200; simp [Action.isPostResult]
        · have : (match (Except.ok code : Except String Nat) with
              | .ok 200 => [Action.postStatus (sprintV assignment.ID)
                  (if false = true then "completed" else "failed")]
              | _ => []) = [] := by
            split
            · rename_i heq
              exact absurd (by simpa using heq) h200
            · rfl
          rw [this]
          simp [Action.isPostResult]

/-- C12 at concrete worlds: with a successful `npm install` the runner is invoked;
with a failing one it is not, and the one report carries the error and the
output of the tool. -/
theorem runner_iff_install_ok_witness :
    (∃ x ∈ (ExecuteTest fineWorld idleAgent firefoxAssignment).actions, x.isRunner = true) ∧
    (¬ ∃ x ∈ (ExecuteTest failingInstallWorld idleAgent firefoxAssignment).actions,
      x.isRunner = true) ∧
    (ExecuteTest failingInstallWorld idleAgent firefoxAssignment).actions.filter
        Action.isReportCall =
      [Action.callReportResult "1" false
        "Dependency installation failed: exit status 1: npm ERR! network"] :=
  have hfine := runner_iff_install_ok fineWorld idleAgent firefoxAssignment
    "/tmp/qamax-agent-1-42" (by decide) rfl rfl rfl rfl
  have hfail := runner_iff_install_ok failingInstallWorld idleAgent firefoxAssignment
    "/tmp/qamax-agent-1-42" (by decide) rfl rfl rfl rfl
  ⟨hfine.1.2 rfl, fun h => absurd (hfail.1.1 h) (by decide), by decide⟩
/-! ## Registration and start-up -/

/-- C14. When the registration request fails in transport, is answered with a
status other than 200, or has a body that cannot be decoded, `Register` returns an
error, leaves the agent (AgentID and APIKey included) unchanged and does not call
`OnRegistered`; `Run` then returns an error and neither starts the heartbeat
loop, nor polls, nor starts a pipeline, whatever ticks would have followed. -/
theorem register_failure_is_fatal (a : Agent) (onRegisteredSet : Bool)
    (answer : RegisterAnswer)
    (ticks : List (Except String (Nat × Except String (List Assignment))))
    (hfail : (∃ err, answer = RegisterAnswer.transportError err) ∨
      (∃ code body decoded, answer = RegisterAnswer.response code body decoded ∧ code ≠ 200) ∨
      (∃ body err, answer = RegisterAnswer.response 200 body (.error err))) :
    (Register a onRegisteredSet answer).err ≠ none ∧
    (Register a onRegisteredSet answer).agent = a ∧
    (Register a onRegisteredSet answer).agent.AgentID = a.AgentID ∧
    (Register a onRegisteredSet answer).agent.APIKey = a.APIKey ∧
    (Register a onRegisteredSet answer).actions.filter RegisterAction.isOnRegistered = [] ∧
    (Run a onRegisteredSet answer ticks).err ≠ none ∧
    (Run a onRegisteredSet answer ticks).events = [RunEvent.registration
      RegisterAction.postRegister] ∧
    RunEvent.heartbeatLoopStarted ∉ (Run a onRegisteredSet answer ticks).events ∧
    RunEvent.poll ∉ (Run a onRegisteredSet answer ticks).events ∧
    (∀ assignment : Assignment,
      RunEvent.pipelineStarted assignment ∉ (Run a onRegisteredSet answer ticks).events) ∧
    (Run a onRegisteredSet answer ticks).agent = a := by
  rcases hfail with ⟨err, rfl⟩ | ⟨code, body, decoded, rfl, hcode⟩ | ⟨body, err, rfl⟩
  · simp [Register, Run, RegisterAction.isOnRegistered]
  · simp [Register, Run, hcode, RegisterAction.isOnRegistered]
  · simp [Register, Run, RegisterAction.isOnRegistered]

/-- C14 at concrete answers: a refused connection and a 401. -/
theorem register_failure_is_fatal_witness :
    (Run idleAgent true (RegisterAnswer.transportError "connection refused")
      [.ok (200, .ok [firefoxAssignment])]).err =
      some "failed to register agent: registration request failed: connection refused" ∧
    (Run idleAgent true (RegisterAnswer.response 401 "denied" (.error "unexpected end"))
      [.ok (200, .ok [firefoxAssignment])]).events =
      [RunEvent.registration RegisterAction.postRegister] :=
  ⟨by decide,
   (register_failure_is_fatal idleAgent true
      (RegisterAnswer.response 401 "denied" (.error "unexpected end"))
      [.ok (200, .ok [firefoxAssignment])]
      (Or.inr (Or.inl ⟨401, "denied", .error "unexpected end", rfl, by decide⟩))).2.2.2.2.2.2.1⟩

/-- C15 (as stated, refuted). A registration answered 200 with the number 7 as
`agent_id` succeeds and leaves AgentID at its old value, and `OnRegistered` is
called with that old value; answered 200 with an empty object, `Register`
succeeds on an agent without identity and calls `OnRegistered` with two empty
strings. -/
theorem register_keeps_id_when_not_a_string :
    (Register idleAgent true numericIdAnswer).err = none ∧
    (Register idleAgent true numericIdAnswer).agent.AgentID = "agent-1" ∧
    sprintV (GoValue.num 7) = "7" ∧
    (Register idleAgent true numericIdAnswer).actions =
      [RegisterAction.postRegister, RegisterAction.onRegistered "agent-1" "new-key"] ∧
    (Register (NewAgent "https://app.qamax.co" "" "" (60 * Second)) true emptyObjectAnswer).err =
      none ∧
    (Register (NewAgent "https://app.qamax.co" "" "" (60 * Second)) true
      emptyObjectAnswer).actions =
      [RegisterAction.postRegister, RegisterAction.onRegistered "" ""] := by
  decide

/-- C15 (amended). Whenever `Register` returns without error, the answer had
status 200 and a decodable body; AgentID is the response's `agent_id` when that is
a string and is unchanged otherwise, and likewise APIKey with `api_key`; when
`OnRegistered` is set it has been called exactly once, with the agent's AgentID
and APIKey as they are after that, and when it is not set it is not called. -/
theorem register_adopts_string_identity (a : Agent) (onRegisteredSet : Bool)
    (answer : RegisterAnswer) (hok : (Register a onRegisteredSet answer).err = none) :
    ∃ (body : String) (data : RegisterBody),
      answer = RegisterAnswer.response 200 body (.ok data) ∧
      (∀ id : String, data.agent_id = GoValue.str id →
        (Register a onRegisteredSet answer).agent.AgentID = id) ∧
      ((∀ id : String, data.agent_id ≠ GoValue.str id) →
        (Register a onRegisteredSet answer).agent.AgentID = a.AgentID) ∧
      (∀ key : String, data.api_key = GoValue.str key →
        (Register a onRegisteredSet answer).agent.APIKey = key) ∧
      ((∀ key : String, data.api_key ≠ GoValue.str key) →
        (Register a onRegisteredSet answer).agent.APIKey = a.APIKey) ∧
      (onRegisteredSet = true →
        (Register a onRegisteredSet answer).actions.filter RegisterAction.isOnRegistered =
          [RegisterAction.onRegistered (Register a onRegisteredSet answer).agent.AgentID
            (Register a onRegisteredSet answer).agent.APIKey]) ∧
      (onRegisteredSet = false →
        (Register a onRegisteredSet answer).actions.filter RegisterAction.isOnRegistered = []) := by
  cases answer with
  | transportError err => simp [Register] at hok
  | response code body decoded =>
    by_cases hcode : code = 200
    · subst hcode
      cases decoded with
      | error err => simp [Register] at hok
      | ok data =>
        refine ⟨body, data, rfl, ?_, ?_, ?_, ?_, ?_, ?_⟩
        · intro id hid
          cases hk : data.api_key <;> simp [Register, hid, hk]
        · intro hid
          cases hi : data.agent_id <;> cases hk : data.api_key <;>
            simp_all [Register]
        · intro key hkey
          cases hi : data.agent_id <;> simp [Register, hkey, hi]
        · intro hkey
          cases hi : data.agent_id <;> cases hk : data.api_key <;>
            simp_all [Register]
        · intro hcb
          simp [Register, hcb, RegisterAction.isOnRegistered]
        · intro hcb
          simp [Register, hcb, RegisterAction.isOnRegistered]
    · simp [Register, hcode] at hok

/-- C15 (amended) at concrete answers: two strings are both adopted; a numeric
`agent_id` is not. -/
theorem register_adopts_string_identity_witness :
    (Register idleAgent true fullAnswer).agent.AgentID = "agent-9" ∧
    (Register idleAgent true fullAnswer).agent.APIKey = "new-key" ∧
    (Register idleAgent true fullAnswer).actions =
      [RegisterAction.postRegister, RegisterAction.onRegistered "agent-9" "new-key"] ∧
    (∃ (body : String) (data : RegisterBody),
      numericIdAnswer = RegisterAnswer.response 200 body (.ok data) ∧
      (Register idleAgent true numericIdAnswer).agent.APIKey = "new-key") :=
  ⟨by decide, by decide, by decide,
   (register_adopts_string_identity idleAgent true numericIdAnswer (by decide)).imp
     fun _ h => h.imp fun _ h2 => ⟨h2.1, by decide⟩⟩
/-! ## Heartbeat -/

/-- C16 (as stated, refuted). With a configured interval of 600 s the delay after
one failure is 300 s, less than the interval: the failure raises the heartbeat
frequency. -/
theorem backoff_below_long_interval :
    heartbeatWait (600 * Second) 1 = 300 * Second ∧
    ¬ (600 * Second ≤ heartbeatWait (600 * Second) 1) ∧
    ¬ (∀ (heartbeatInterval : Int) (c : Nat), 1 ≤ c →
        heartbeatInterval ≤ heartbeatWait heartbeatInterval c) := by
  refine ⟨by decide, by decide, ?_⟩
  intro h
  exact absurd (h (600 * Second) 1 (le_refl 1)) (by decide)

/-- C16 (amended). For a configured interval between 0 and 300 s and `c ≥ 1`
failures, as long as `interval * 2^c` fits into an `int64`, the delay before the
next heartbeat is at least the interval and at most 300 s. For an interval above
300 s the delay after a failure is 300 s, below the interval. -/
theorem backoff_at_least_interval (heartbeatInterval : Int) (c : Nat)
    (h0 : 0 ≤ heartbeatInterval) (hc : 1 ≤ c)
    (hfit : heartbeatInterval * 2 ^ c < 2 ^ 63) :
    (heartbeatInterval ≤ maxBackoff →
      heartbeatInterval ≤ heartbeatWait heartbeatInterval c ∧
      heartbeatWait heartbeatInterval c ≤ maxBackoff) ∧
    (maxBackoff < heartbeatInterval →
      heartbeatWait heartbeatInterval c = maxBackoff ∧
      heartbeatWait heartbeatInterval c < heartbeatInterval) := by
  have hw := heartbeatWait_of_no_overflow heartbeatInterval c h0 hc hfit
  have hpow : (1 : Int) ≤ 2 ^ c := by
    have : (0 : Int) < 2 ^ c := by positivity
    omega
  have hle : heartbeatInterval ≤ heartbeatInterval * 2 ^ c := by nlinarith
  constructor
  · intro hmax
    rw [hw]
    exact ⟨le_min hle hmax, min_le_right _ _⟩
  · intro hgt
    rw [hw]
    have : min (heartbeatInterval * 2 ^ c) maxBackoff = maxBackoff :=
      min_eq_right (by omega)
    rw [this]
    exact ⟨rfl, hgt⟩

/-- C16 (amended) at concrete values: 60 s with three failures waits 300 s, which
is at least 60 s; 600 s with one failure waits 300 s. -/
theorem backoff_at_least_interval_witness :
    60 * Second ≤ heartbeatWait (60 * Second) 3 ∧
    heartbeatWait (60 * Second) 3 ≤ maxBackoff ∧
    heartbeatWait (600 * Second) 1 = maxBackoff :=
  ⟨((backoff_at_least_interval (60 * Second) 3 (by decide) (by decide) (by decide)).1
      (by decide)).1,
   ((backoff_at_least_interval (60 * Second) 3 (by decide) (by decide) (by decide)).1
      (by decide)).2,
   ((backoff_at_least_interval (600 * Second) 1 (by decide) (by decide) (by decide)).2
      (by decide)).1⟩

/-- The counter after one more outcome. -/
theorem failuresAfter_concat (start : Nat) (outcomes : List Bool) (failed : Bool) :
    failuresAfter start (outcomes ++ [failed]) =
      nextFailures (failuresAfter start outcomes) failed := by
  simp [failuresAfter, List.foldl_append]

/-- The run of failures at the end after one more outcome. -/
theorem failuresSinceSuccess_concat (outcomes : List Bool) (failed : Bool) :
    failuresSinceSuccess (outcomes ++ [failed]) =
      if failed then failuresSinceSuccess outcomes + 1 else 0 := by
  cases failed <;> simp [failuresSinceSuccess, List.takeWhile_cons]

/-- C17. After any finite sequence of heartbeat outcomes, starting from 0, the
counter `consecutiveFailures` is the number of failures since the most recent
success: 0 when the last heartbeat succeeded, and `n` after `n` failures in a row,
for every `n`. For an interval whose double fits into an `int64`, one failure
makes the next delay `min(2 * interval, 300 s)` and a success after it makes the
next delay the interval again. -/
theorem consecutive_failures_count (outcomes : List Bool) (heartbeatInterval : Int)
    (hlo : -(2 ^ 62) ≤ heartbeatInterval) (hhi : heartbeatInterval < 2 ^ 62) :
    failuresAfter 0 outcomes = failuresSinceSuccess outcomes ∧
    (∀ earlier : List Bool, failuresAfter 0 (earlier ++ [false]) = 0) ∧
    (∀ (earlier : List Bool) (n : Nat),
      failuresAfter 0 (earlier ++ false :: List.replicate n true) = n) ∧
    (∀ n : Nat, failuresAfter 0 (List.replicate n true) = n) ∧
    heartbeatWait heartbeatInterval (failuresAfter 0 [true]) =
      min (2 * heartbeatInterval) (300 * Second) ∧
    heartbeatWait heartbeatInterval (failuresAfter 0 [true, false]) = heartbeatInterval := by
  have hmain : ∀ l : List Bool, failuresAfter 0 l = failuresSinceSuccess l := by
    intro l
    induction l using List.reverseRecOn with
    | nil => rfl
    | append_singleton xs x ih =>
      rw [failuresAfter_concat, failuresSinceSuccess_concat, ih]
      cases x <;> simp [nextFailures]
  have hrep : ∀ (start n : Nat), failuresAfter start (List.replicate n true) = start + n := by
    intro start n
    induction n generalizing start with
    | zero => rfl
    | succ k ih =>
      rw [List.replicate_succ, failuresAfter, List.foldl_cons]
      have := ih (nextFailures start true)
      rw [failuresAfter] at this
      rw [this]
      simp [nextFailures]
      omega
  refine ⟨hmain outcomes, ?_, ?_, ?_, ?_, ?_⟩
  · intro earlier
    rw [failuresAfter_concat]
    rfl
  · intro earlier n
    have : earlier ++ false :: List.replicate n true =
        (earlier ++ [false]) ++ List.replicate n true := by simp
    rw [this, failuresAfter, List.foldl_append]
    have h0 : List.foldl nextFailures 0 (earlier ++ [false]) = 0 := by
      have := failuresAfter_concat 0 earlier false
      rw [failuresAfter] at this
      rw [this]; rfl
    rw [h0]
    have := hrep 0 n
    rw [failuresAfter] at this
    rw [this]; omega
  · intro n
    rw [hrep]; omega
  · have h1 : failuresAfter 0 [true] = 1 := rfl
    have hw2 : wrapInt64 (2 ^ 1) = 2 := by decide
    have hwrap : wrapInt64 (heartbeatInterval * 2) = heartbeatInterval * 2 := by
      unfold wrapInt64
      rw [Int.emod_eq_of_lt (by omega) (by omega)]
      omega
    rw [h1]
    simp only [heartbeatWait, Nat.lt_one_iff, gt_iff_lt, Nat.zero_lt_one, if_true, hw2, hwrap]
    have hmb : maxBackoff = 300 * Second := rfl
    rw [← hmb]
    split
    · rw [min_eq_right (by omega)]
    · rw [min_eq_left (by omega)]
      ring
  · rfl

/-- C17 at a concrete history: fail, fail, success, fail leaves the counter at 1;
with the default interval of 60 s the delay after one failure is 120 s and after
the next success 60 s. -/
theorem consecutive_failures_count_witness :
    failuresAfter 0 [true, true, false, true] = 1 ∧
    failuresSinceSuccess [true, true, false, true] = 1 ∧
    heartbeatWait (60 * Second) (failuresAfter 0 [true]) = 120 * Second ∧
    heartbeatWait (60 * Second) (failuresAfter 0 [true, false]) = 60 * Second :=
  have h := consecutive_failures_count [true, true, false, true] (60 * Second)
    (by decide) (by decide)
  ⟨by decide, by decide, by rw [h.2.2.2.2.1]; decide, h.2.2.2.2.2⟩

/-- The keys `Range` visits are the tracked keys. -/
theorem Range_toFinset (tracked : Finset String) (order : List String) :
    (Range tracked order).toFinset = tracked := by
  ext key
  simp only [Range, List.toFinset_append, Finset.mem_union, List.mem_toFinset, List.mem_filter,
    List.mem_dedup, Finset.mem_sort, Finset.mem_filter, decide_eq_true_eq]
  constructor
  · rintro (h | h)
    · exact h.2
    · exact h.1
  · intro h
    by_cases ho : key ∈ order
    · exact Or.inl ⟨ho, h⟩
    · exact Or.inr ⟨h, ho⟩

/-- No key is visited twice. -/
theorem Range_nodup (tracked : Finset String) (order : List String) :
    (Range tracked order).Nodup := by
  unfold Range
  refine List.Nodup.append ((List.nodup_dedup order).filter _) (Finset.sort_nodup _ _) ?_
  intro key h1 h2
  have h1o : key ∈ order := List.mem_dedup.1 (List.mem_of_mem_filter h1)
  have h2o := (Finset.mem_filter.1 ((Finset.mem_sort _).1 h2)).2
  exact h2o h1o

/-- As many keys are visited as are tracked. -/
theorem Range_length (tracked : Finset String) (order : List String) :
    (Range tracked order).length = tracked.card := by
  rw [← Range_toFinset tracked order, List.toFinset_card_of_nodup (Range_nodup tracked order)]
  rw [Range_toFinset]


/-- C20. On a registered agent `SendHeartbeat` posts a payload whose
`active_tests` are the IDs tracked in the agent's `activeTests`, each once, in the
order `Range` visits them; whose status is "busy" when an ID is tracked and "online"
when none is; and whose `system_metrics` is exactly what the metrics collector
returned for the number of tracked IDs: present if and only if it returned a value,
which it does unless both readings are unavailable. On an agent whose AgentID or
APIKey is empty it posts nothing and returns the error "agent not registered". -/
theorem heartbeat_payload (a : Agent) (hw : HeartbeatWorld) :
    (a.AgentID ≠ "" → a.APIKey ≠ "" →
      ∃ p : HeartbeatPayload, (SendHeartbeat a hw).posted = some p ∧
        p.active_tests = Range a.activeTests hw.rangeOrder ∧
        p.active_tests.toFinset = a.activeTests ∧
        p.active_tests.Nodup ∧
        (a.activeTests.Nonempty → p.status = "busy") ∧
        (a.activeTests = ∅ → p.status = "online") ∧
        p.system_metrics = Collect hw.cpu hw.mem a.activeTests.card ∧
        (p.system_metrics.isSome = true ↔
          (Collect hw.cpu hw.mem a.activeTests.card).isSome = true) ∧
        (p.system_metrics = none ↔ (hw.cpu < 0 ∧ hw.mem < 0))) ∧
    (a.AgentID = "" ∨ a.APIKey = "" →
      (SendHeartbeat a hw).posted = none ∧
      (SendHeartbeat a hw).err = some "agent not registered") := by
  constructor
  · intro hid hkey
    have hreg : ¬ (a.AgentID = "" ∨ a.APIKey = "") := not_or.2 ⟨hid, hkey⟩
    have hlen := Range_length a.activeTests hw.rangeOrder
    refine ⟨{ status := if (Range a.activeTests hw.rangeOrder).length > 0 then "busy"
                        else "online",
              active_tests := Range a.activeTests hw.rangeOrder,
              system_metrics :=
                Collect hw.cpu hw.mem (Range a.activeTests hw.rangeOrder).length },
            ?_, rfl, Range_toFinset _ _, Range_nodup _ _, ?_, ?_, ?_, ?_, ?_⟩
    · unfold SendHeartbeat
      rw [if_neg hreg]
      cases hw.answer with
      | error e => rfl
      | ok code => by_cases h : code = 200 <;> simp [h]
    · intro hne
      have hpos : (Range a.activeTests hw.rangeOrder).length > 0 := by
        rw [hlen]
        exact Finset.card_pos.2 hne
      simp [hpos]
    · intro hempty
      have hzero : (Range a.activeTests hw.rangeOrder).length = 0 := by
        rw [hlen, hempty]
        rfl
      simp [hzero]
    · simp only [hlen]
    · simp only [hlen]
    · simp only [Collect]
      constructor
      · intro h
        by_contra hc
        rw [if_neg hc] at h
        simp at h
      · intro h
        rw [if_pos h]
  · intro hreg
    simp [SendHeartbeat, hreg]

/-- C20 at concrete agents: an agent without identity gets the error; a registered
agent with "1" tracked posts a busy payload with that ID and metrics; a registered
agent with nothing tracked and no readings posts an online payload without IDs and
without metrics, whatever order the world names. -/
theorem heartbeat_payload_witness :
    (SendHeartbeat (NewAgent "https://app.qamax.co" "" "" (60 * Second))
      { rangeOrder := [], cpu := 12, mem := -1, answer := .ok 200 }).err =
      some "agent not registered" ∧
    (∃ p : HeartbeatPayload,
      (SendHeartbeat (idleAgent.claim firefoxAssignment).1
        { rangeOrder := ["1"], cpu := 12, mem := -1, answer := .ok 200 }).posted = some p ∧
      p.active_tests.toFinset = {"1"} ∧ p.status = "busy" ∧
      p.system_metrics =
        some { CPUPercent := 12, MemoryPercent := 0, ActiveTests := 1 }) ∧
    (∃ p : HeartbeatPayload,
      (SendHeartbeat idleAgent
        { rangeOrder := ["1"], cpu := -1, mem := -1, answer := .ok 200 }).posted = some p ∧
      p.active_tests.toFinset = ∅ ∧ p.status = "online" ∧ p.system_metrics = none) :=
  ⟨((heartbeat_payload (NewAgent "https://app.qamax.co" "" "" (60 * Second))
      { rangeOrder := [], cpu := 12, mem := -1, answer := .ok 200 }).2 (by decide)).2,
   ((heartbeat_payload (idleAgent.claim firefoxAssignment).1
      { rangeOrder := ["1"], cpu := 12, mem := -1, answer := .ok 200 }).1
      (by decide) (by decide)).imp
      fun _ h => ⟨h.1, h.2.2.1, h.2.2.2.2.1 (by decide), h.2.2.2.2.2.2.1.trans (by decide)⟩,
   ((heartbeat_payload idleAgent
      { rangeOrder := ["1"], cpu := -1, mem := -1, answer := .ok 200 }).1
      (by decide) (by decide)).imp
      fun _ h => ⟨h.1, h.2.2.1, h.2.2.2.2.2.1 (by decide), h.2.2.2.2.2.2.2.2.2 (by decide)⟩⟩

/-! ## Workspaces -/

/-- An inert action leaves the host as it is. -/
theorem perform_of_inert (w : World) (h : Host) (x : Action) (hx : x.isInert = true) :
    perform w h x = h := by
  cases x <;> simp_all [perform, Action.isInert]

/-- A sequence of inert actions leaves the host as it is. -/
theorem performAll_of_inert (w : World) (h : Host) (actions : List Action)
    (hall : ∀ x ∈ actions, x.isInert = true) : performAll w h actions = h := by
  induction actions generalizing h with
  | nil => rfl
  | cons x rest ih =>
    rw [performAll, List.foldl_cons, perform_of_inert w h x (hall x (List.mem_cons_self _ _))]
    exact ih h (fun y hy => hall y (List.mem_cons_of_mem _ hy))

/-- The host after two action lists in a row. -/
theorem performAll_append (w : World) (h : Host) (xs ys : List Action) :
    performAll w h (xs ++ ys) = performAll w (performAll w h xs) ys := by
  simp [performAll, List.foldl_append]

/-- The fetch step is inert. -/
theorem resolveTestCode_inert (w : World) (assignment : Assignment) :
    ∀ x ∈ (resolveTestCode w assignment).1, x.isInert = true := by
  intro x hx
  rcases resolveTestCode_actions w assignment with h | h
  · rw [h] at hx; simp at hx
  · rw [h] at hx
    simp only [List.mem_singleton] at hx
    subst hx; rfl

/-- A call of `reportResult` is inert. -/
theorem reportResult_inert (w : World) (a : Agent) (assignmentID : String)
    (success : Bool) (message : String) (resultData : Option ResultData) :
    ∀ x ∈ reportResult w a assignmentID success message resultData, x.isInert = true := by
  intro x hx
  rcases reportResult_kinds w a assignmentID success message resultData x hx with h | h | h <;>
    cases x <;> simp_all [Action.isInert, Action.isReportCall, Action.isPostResult,
      Action.isPostStatus]

/-- The pipeline body is inert: the workspace and the tracker entry last from
`MkdirTemp` to the deferred calls. -/
theorem runPipeline_inert (w : World) (a : Agent) (assignment : Assignment)
    (assignmentID testCode testDir : String) :
    ∀ x ∈ runPipeline w a assignment assignmentID testCode testDir, x.isInert = true := by
  obtain ⟨mid, success, message, resultData, hshape, hmid⟩ :=
    runPipeline_shape w a assignment assignmentID testCode testDir
  intro x hx
  rw [hshape] at hx
  rcases List.mem_append.1 hx with hx | hx
  · rcases List.mem_append.1 hx with hx | hx
    · unfold updateAssignmentStatus at hx
      split at hx
      · simp at hx
      · simp only [List.mem_singleton] at hx
        subst hx; rfl
    · rcases hmid x hx with h | h <;>
        cases x <;> simp_all [Action.isInert, Action.isWriteFile, Action.isExec]
  · exact reportResult_inert _ _ _ _ _ _ x hx

/-- The actions of a pipeline that got its workspace: the fetch, `MkdirTemp`, the
body, and the two deferred calls, release first. -/
theorem executeTest_actions_of_workspace (w : World) (a : Agent) (assignment : Assignment)
    (testDir : String) (hcode : (resolveTestCode w assignment).2 ≠ "")
    (hdir : w.mkdirTemp = .ok testDir) :
    (ExecuteTest w a assignment).actions =
      (resolveTestCode w assignment).1 ++
      Action.mkdirTemp ("qamax-agent-" ++ sprintV assignment.ID ++ "-") ::
      (runPipeline w a assignment (sprintV assignment.ID) (resolveTestCode w assignment).2
        testDir ++
      [Action.trackerRelease (sprintV assignment.ID), Action.removeAll testDir]) := by
  simp [ExecuteTest, hcode, hdir]

/-- What one execution does to the host: nothing when the pipeline returns before
it has a workspace; otherwise the ID is released and the workspace, created and
removed, is gone. -/
theorem execute_eq (h : Host) (w : World) (assignment : Assignment) :
    execute h w assignment =
      if (resolveTestCode w assignment).2 = "" then h
      else
        match w.mkdirTemp with
        | .error _ => h
        | .ok testDir =>
          { agent := h.agent.release (sprintV assignment.ID),
            dirs := (insert testDir h.dirs).erase testDir } := by
  by_cases hcode : (resolveTestCode w assignment).2 = ""
  · rw [if_pos hcode]
    apply performAll_of_inert
    intro x hx
    have hact : (ExecuteTest w h.agent assignment).actions =
        (resolveTestCode w assignment).1 ++
          reportResult w h.agent (sprintV assignment.ID) false "No test code provided" none := by
      simp [ExecuteTest, hcode]
    rw [hact] at hx
    rcases List.mem_append.1 hx with hx | hx
    · exact resolveTestCode_inert w assignment x hx
    · exact reportResult_inert _ _ _ _ _ _ x hx
  · rw [if_neg hcode]
    cases hdir : w.mkdirTemp with
    | error err =>
      have hact : (ExecuteTest w h.agent assignment).actions =
          (resolveTestCode w assignment).1 ++
          Action.mkdirTemp ("qamax-agent-" ++ sprintV assignment.ID ++ "-") ::
          reportResult w h.agent (sprintV assignment.ID) false
            ("Failed to create temp dir: " ++ err) none := by
        simp [ExecuteTest, hcode, hdir]
      simp only [execute, hact, performAll_append,
        performAll_of_inert w h _ (resolveTestCode_inert w assignment)]
      rw [performAll, List.foldl_cons]
      have : perform w h (Action.mkdirTemp ("qamax-agent-" ++ sprintV assignment.ID ++ "-")) =
          h := by simp [perform, hdir]
      rw [this]
      exact performAll_of_inert w h _ (reportResult_inert _ _ _ _ _ _)
    | ok testDir =>
      simp only [execute, executeTest_actions_of_workspace w h.agent assignment testDir hcode hdir,
        performAll_append, performAll_of_inert w h _ (resolveTestCode_inert w assignment)]
      rw [performAll, List.foldl_cons]
      have hmk : perform w h (Action.mkdirTemp ("qamax-agent-" ++ sprintV assignment.ID ++ "-")) =
          { h with dirs := insert testDir h.dirs } := by simp [perform, hdir]
      rw [hmk, List.foldl_append]
      have hbody := performAll_of_inert w { h with dirs := insert testDir h.dirs } _
        (runPipeline_inert w h.agent assignment (sprintV assignment.ID)
          (resolveTestCode w assignment).2 testDir)
      rw [performAll] at hbody
      rw [hbody]
      rfl

/-- C18. Whenever `ExecuteTest` got its workspace, on every path that follows
(a file write fails, `npm install` fails, the runner fails or is stopped, or the
run completes) its last action is `os.RemoveAll` of that workspace, and the
workspace does not exist when it returns. Hence after any number of executions
one after the other every directory that exists was there before: no workspace
created by them remains. -/
theorem workspace_removed (h : Host) (w : World) (assignment : Assignment) (testDir : String)
    (hcode : (resolveTestCode w assignment).2 ≠ "")
    (hdir : w.mkdirTemp = .ok testDir) :
    (ExecuteTest w h.agent assignment).actions.getLast? = some (Action.removeAll testDir) ∧
    testDir ∉ (execute h w assignment).dirs ∧
    (∀ (runs : List (World × Assignment)) (h0 : Host),
      (executeSequentially h0 runs).dirs ⊆ h0.dirs) ∧
    (∀ (runs : List (World × Assignment)) (h0 : Host),
      (∀ r ∈ runs, ∀ d : String, r.1.mkdirTemp = .ok d → d ∉ h0.dirs) →
      (executeSequentially h0 runs).dirs = h0.dirs) := by
  have hsub : ∀ (h1 : Host) (w1 : World) (x : Assignment),
      (execute h1 w1 x).dirs ⊆ h1.dirs := by
    intro h1 w1 x
    rw [execute_eq]
    split
    · exact Finset.Subset.refl _
    · split
      · exact Finset.Subset.refl _
      · exact Finset.erase_insert_subset _ _
  refine ⟨?_, ?_, ?_, ?_⟩
  · rw [executeTest_actions_of_workspace w h.agent assignment testDir hcode hdir]
    exact List.getLast?_eq_some_iff.2
      ⟨(resolveTestCode w assignment).1 ++
        Action.mkdirTemp ("qamax-agent-" ++ sprintV assignment.ID ++ "-") ::
        (runPipeline w h.agent assignment (sprintV assignment.ID)
          (resolveTestCode w assignment).2 testDir ++
        [Action.trackerRelease (sprintV assignment.ID)]), by simp⟩
  · rw [execute_eq, if_neg hcode, hdir]
    simp
  · intro runs
    induction runs with
    | nil => intro h0; exact Finset.Subset.refl _
    | cons r rest ih =>
      intro h0
      obtain ⟨w1, x⟩ := r
      exact Finset.Subset.trans (ih (execute h0 w1 x)) (hsub h0 w1 x)
  · intro runs
    induction runs with
    | nil => intro h0 _; rfl
    | cons r rest ih =>
      intro h0 hfresh
      obtain ⟨w1, x⟩ := r
      have hstep : (execute h0 w1 x).dirs = h0.dirs := by
        rw [execute_eq]
        split
        · rfl
        · split
          · rfl
          · rename_i d hd
            exact Finset.erase_insert (hfresh (w1, x) (List.mem_cons_self _ _) d hd)
      rw [executeSequentially, ih (execute h0 w1 x), hstep]
      intro r hr d hd
      rw [hstep]
      exact hfresh r (List.mem_cons_of_mem _ hr) d hd

/-- C18 at a concrete run: the end-to-end assignment executed three times in a
row on the claimed host leaves no directory. -/
theorem workspace_removed_witness :
    (ExecuteTest fineWorld claimedHost.agent firefoxAssignment).actions.getLast? =
      some (Action.removeAll "/tmp/qamax-agent-1-42") ∧
    "/tmp/qamax-agent-1-42" ∉ (execute claimedHost fineWorld firefoxAssignment).dirs ∧
    (executeSequentially claimedHost
      [(fineWorld, firefoxAssignment), (failingInstallWorld, firefoxAssignment),
       (failingRunWorld, firefoxAssignment)]).dirs = ∅ :=
  have h := workspace_removed claimedHost fineWorld firefoxAssignment "/tmp/qamax-agent-1-42"
    (by decide) rfl
  ⟨h.1, h.2.1, Finset.subset_empty.1 (h.2.2.1 _ claimedHost)⟩
/-- C19 (as stated, refuted). Right after the poller's claim, before the pipeline
has done anything, ID "1" is tracked and counted while its workspace does not
exist; and after the first twelve of the thirteen actions of a complete run, that
is after the deferred release and before the deferred `RemoveAll`, the ID is no
longer tracked while the workspace still exists. -/
theorem tracked_without_workspace :
    "1" ∈ claimedHost.agent.activeTests ∧
    claimedHost.agent.activeCount = 1 ∧
    fineWorld.mkdirTemp = .ok "/tmp/qamax-agent-1-42" ∧
    "/tmp/qamax-agent-1-42" ∉ claimedHost.dirs ∧
    (ExecuteTest fineWorld claimedHost.agent firefoxAssignment).actions.length = 13 ∧
    "1" ∉ (performAll fineWorld claimedHost
      ((ExecuteTest fineWorld claimedHost.agent firefoxAssignment).actions.take 12)
      ).agent.activeTests ∧
    "/tmp/qamax-agent-1-42" ∈ (performAll fineWorld claimedHost
      ((ExecuteTest fineWorld claimedHost.agent firefoxAssignment).actions.take 12)).dirs :=
  ⟨by decide, by decide, rfl, by decide, by decide, by decide, by decide⟩

/-- C19 (amended). At the granularity of claims and releases the counter equals
the number of tracked IDs in every reachable state, so an ID is tracked exactly
when it contributes one to the counter. For a claimed assignment whose pipeline
gets a workspace, the actions are: a part before `MkdirTemp`, `MkdirTemp`, the
body, the deferred release and the deferred `RemoveAll`. The ID is tracked and the
workspace does not exist during the first part; the ID is tracked, the counter
unchanged and the workspace exists from `MkdirTemp` through the body; after the
release the ID is untracked, the counter one less and the workspace still there;
after `RemoveAll` the ID is untracked and the workspace gone. -/
theorem tracker_counter_workspace (h : Host) (w : World) (assignment : Assignment)
    (testDir : String)
    (hcode : (resolveTestCode w assignment).2 ≠ "")
    (hdir : w.mkdirTemp = .ok testDir)
    (htracked : sprintV assignment.ID ∈ h.agent.activeTests)
    (hfresh : testDir ∉ h.dirs) :
    (∀ s : System, Reachable s → s.agent.activeCount = (s.agent.activeTests.card : Int)) ∧
    ∃ (before body : List Action) (pattern : String),
      (ExecuteTest w h.agent assignment).actions =
        before ++ Action.mkdirTemp pattern ::
          (body ++ [Action.trackerRelease (sprintV assignment.ID), Action.removeAll testDir]) ∧
      (∀ p q : List Action, before = p ++ q →
        sprintV assignment.ID ∈ (performAll w h p).agent.activeTests ∧
        (performAll w h p).agent.activeCount = h.agent.activeCount ∧
        testDir ∉ (performAll w h p).dirs) ∧
      (∀ p q : List Action, body = p ++ q →
        sprintV assignment.ID ∈
          (performAll w h (before ++ Action.mkdirTemp pattern :: p)).agent.activeTests ∧
        (performAll w h (before ++ Action.mkdirTemp pattern :: p)).agent.activeCount =
          h.agent.activeCount ∧
        testDir ∈ (performAll w h (before ++ Action.mkdirTemp pattern :: p)).dirs) ∧
      (sprintV assignment.ID ∉ (performAll w h (before ++ Action.mkdirTemp pattern ::
          (body ++ [Action.trackerRelease (sprintV assignment.ID)]))).agent.activeTests ∧
        (performAll w h (before ++ Action.mkdirTemp pattern ::
          (body ++ [Action.trackerRelease (sprintV assignment.ID)]))).agent.activeCount =
          h.agent.activeCount - 1 ∧
        testDir ∈ (performAll w h (before ++ Action.mkdirTemp pattern ::
          (body ++ [Action.trackerRelease (sprintV assignment.ID)]))).dirs) ∧
      (sprintV assignment.ID ∉ (execute h w assignment).agent.activeTests ∧
        (execute h w assignment).agent.activeCount = h.agent.activeCount - 1 ∧
        testDir ∉ (execute h w assignment).dirs) := by
  refine ⟨fun s hs => (trackerInv_of_reachable hs).1,
    (resolveTestCode w assignment).1,
    runPipeline w h.agent assignment (sprintV assignment.ID) (resolveTestCode w assignment).2
      testDir,
    "qamax-agent-" ++ sprintV assignment.ID ++ "-",
    executeTest_actions_of_workspace w h.agent assignment testDir hcode hdir, ?_, ?_, ?_, ?_⟩
  · intro p q hpq
    have hp : performAll w h p = h := by
      apply performAll_of_inert
      intro x hx
      exact resolveTestCode_inert w assignment x (by rw [hpq]; exact List.mem_append_left _ hx)
    rw [hp]
    exact ⟨htracked, rfl, hfresh⟩
  · intro p q hpq
    have hp : performAll w h ((resolveTestCode w assignment).1 ++
        Action.mkdirTemp ("qamax-agent-" ++ sprintV assignment.ID ++ "-") :: p) =
        { h with dirs := insert testDir h.dirs } := by
      rw [performAll_append, performAll_of_inert w h _ (resolveTestCode_inert w assignment),
        performAll, List.foldl_cons]
      have hmk : perform w h (Action.mkdirTemp ("qamax-agent-" ++ sprintV assignment.ID ++ "-")) =
          { h with dirs := insert testDir h.dirs } := by simp [perform, hdir]
      rw [hmk]
      apply performAll_of_inert
      intro x hx
      exact runPipeline_inert w h.agent assignment _ _ testDir x
        (by rw [hpq]; exact List.mem_append_left _ hx)
    rw [hp]
    exact ⟨htracked, rfl, Finset.mem_insert_self _ _⟩
  · have hp : performAll w h ((resolveTestCode w assignment).1 ++
        Action.mkdirTemp ("qamax-agent-" ++ sprintV assignment.ID ++ "-") ::
        (runPipeline w h.agent assignment (sprintV assignment.ID)
          (resolveTestCode w assignment).2 testDir ++
          [Action.trackerRelease (sprintV assignment.ID)])) =
        { agent := h.agent.release (sprintV assignment.ID), dirs := insert testDir h.dirs } := by
      rw [performAll_append, performAll_of_inert w h _ (resolveTestCode_inert w assignment),
        performAll, List.foldl_cons]
      have hmk : perform w h (Action.mkdirTemp ("qamax-agent-" ++ sprintV assignment.ID ++ "-")) =
          { h with dirs := insert testDir h.dirs } := by simp [perform, hdir]
      rw [hmk, List.foldl_append]
      have hbody := performAll_of_inert w { h with dirs := insert testDir h.dirs } _
        (runPipeline_inert w h.agent assignment (sprintV assignment.ID)
          (resolveTestCode w assignment).2 testDir)
      rw [performAll] at hbody
      rw [hbody]
      rfl
    rw [hp]
    exact ⟨by simp [Agent.release], rfl, Finset.mem_insert_self _ _⟩
  · rw [execute_eq, if_neg hcode, hdir]
    exact ⟨by simp [Agent.release], rfl, by simp⟩

/-- C19 (amended) at the end-to-end run on the claimed host: after `MkdirTemp` and
the "started" status the ID is tracked and the workspace exists; at the end
neither holds. -/
theorem tracker_counter_workspace_witness :
    (∃ (before body : List Action) (pattern : String),
      (ExecuteTest fineWorld claimedHost.agent firefoxAssignment).actions =
        before ++ Action.mkdirTemp pattern ::
          (body ++ [Action.trackerRelease "1", Action.removeAll "/tmp/qamax-agent-1-42"])) ∧
    "1" ∉ (execute claimedHost fineWorld firefoxAssignment).agent.activeTests ∧
    (execute claimedHost fineWorld firefoxAssignment).agent.activeCount = 0 ∧
    "/tmp/qamax-agent-1-42" ∉ (execute claimedHost fineWorld firefoxAssignment).dirs :=
  have h := (tracker_counter_workspace claimedHost fineWorld firefoxAssignment
    "/tmp/qamax-agent-1-42" (by decide) rfl (by decide) (by decide)).2
  ⟨h.imp fun _ h1 => h1.imp fun _ h2 => h2.imp fun _ h3 => h3.1,
   by decide, by decide, by decide⟩

/-! ## One report per pipeline -/

/-- The "started" status is no call of `reportResult` and no runner. -/
theorem updateAssignmentStatus_kinds (a : Agent) (assignmentID status : String) :
    ∀ x ∈ updateAssignmentStatus a assignmentID status,
      x = Action.postStatus assignmentID status := by
  intro x hx
  unfold updateAssignmentStatus at hx
  split at hx
  · simp at hx
  · simpa using hx

/-- No action of `reportResult` is an external command. -/
theorem reportResult_no_runner (w : World) (a : Agent) (assignmentID : String)
    (success : Bool) (message : String) (resultData : Option ResultData) :
    ∀ x ∈ reportResult w a assignmentID success message resultData, x.isRunner = false := by
  intro x hx
  rcases reportResult_kinds w a assignmentID success message resultData x hx with h | h | h <;>
    cases x <;> simp_all [Action.isRunner, Action.isReportCall, Action.isPostResult,
      Action.isPostStatus]

/-- The pipeline body calls `reportResult` exactly once, and with success true
exactly when the runner was invoked and returned without error. -/
theorem runPipeline_reports_once (w : World) (a : Agent) (assignment : Assignment)
    (assignmentID testCode testDir : String) :
    ∃ (success : Bool) (message : String),
      (runPipeline w a assignment assignmentID testCode testDir).filter Action.isReportCall =
        [Action.callReportResult assignmentID success message] ∧
      (success = true ↔
        ((∃ x ∈ runPipeline w a assignment assignmentID testCode testDir, x.isRunner = true) ∧
          w.testRun.runErr = none)) := by
  have hstart : (updateAssignmentStatus a assignmentID "started").filter Action.isReportCall =
      [] := by
    rw [List.filter_eq_nil_iff]
    intro x hx
    rw [updateAssignmentStatus_kinds a assignmentID "started" x hx]
    simp [Action.isReportCall]
  have hnorun : ∀ (pre : List Action) (message : String),
      (∀ x ∈ pre, x.isRunner = false) →
      ¬ ∃ x ∈ updateAssignmentStatus a assignmentID "started" ++ pre ++
        reportResult w a assignmentID false message none, x.isRunner = true := by
    intro pre message hpre
    rintro ⟨x, hx, hr⟩
    rcases List.mem_append.1 hx with hx | hx
    · rcases List.mem_append.1 hx with hx | hx
      · rw [updateAssignmentStatus_kinds a assignmentID "started" x hx] at hr
        simp [Action.isRunner] at hr
      · rw [hpre x hx] at hr; simp at hr
    · rw [reportResult_no_runner _ _ _ _ _ _ x hx] at hr; simp at hr
  have hfail : ∀ (pre : List Action) (message : String),
      (∀ x ∈ pre, x.isRunner = false) → pre.filter Action.isReportCall = [] →
      runPipeline w a assignment assignmentID testCode testDir =
        updateAssignmentStatus a assignmentID "started" ++ pre ++
          reportResult w a assignmentID false message none →
      ∃ (success : Bool) (message : String),
        (runPipeline w a assignment assignmentID testCode testDir).filter Action.isReportCall =
          [Action.callReportResult assignmentID success message] ∧
        (success = true ↔
          ((∃ x ∈ runPipeline w a assignment assignmentID testCode testDir,
            x.isRunner = true) ∧ w.testRun.runErr = none)) := by
    intro pre message hpre hfilter heq
    refine ⟨false, message, ?_, ?_⟩
    · rw [heq, List.filter_append, List.filter_append, hstart, hfilter, reportResult_calls]
      rfl
    · rw [heq]
      constructor
      · intro h; simp at h
      · intro h; exact absurd h.1 (hnorun pre message hpre)
  cases h1 : w.writeFile (joinPath testDir "test.spec.js") with
  | some err =>
    refine hfail [Action.writeFile (joinPath testDir "test.spec.js") testCode]
      ("Failed to write test file: " ++ err) (by simp [Action.isRunner])
      (by simp [Action.isReportCall]) ?_
    simp [runPipeline, h1]
  | none =>
    cases h2 : w.writeFile (joinPath testDir "package.json") with
    | some err =>
      refine hfail [Action.writeFile (joinPath testDir "test.spec.js") testCode,
        Action.writeFile (joinPath testDir "package.json") (packageJSON assignmentID)]
        ("Failed to write package.json: " ++ err) (by simp [Action.isRunner])
        (by simp [Action.isReportCall]) ?_
      simp [runPipeline, h1, h2]
    | none =>
      cases h3 : w.writeFile (joinPath testDir "playwright.config.js") with
      | some err =>
        refine hfail [Action.writeFile (joinPath testDir "test.spec.js") testCode,
          Action.writeFile (joinPath testDir "package.json") (packageJSON assignmentID),
          Action.writeFile (joinPath testDir "playwright.config.js")
            (playwrightConfig (configArgs assignment))]
          ("Failed to write config: " ++ err) (by simp [Action.isRunner])
          (by simp [Action.isReportCall]) ?_
        simp [runPipeline, h1, h2, h3]
      | none =>
        cases hn : w.npmInstall.err with
        | some e =>
          refine hfail [Action.writeFile (joinPath testDir "test.spec.js") testCode,
            Action.writeFile (joinPath testDir "package.json") (packageJSON assignmentID),
            Action.writeFile (joinPath testDir "playwright.config.js")
              (playwrightConfig (configArgs assignment)),
            Action.exec testDir "npm" (Fields "install") 300]
            ("Dependency installation failed: " ++ (e ++ ": " ++ w.npmInstall.out))
            (by simp [Action.isRunner]) (by simp [Action.isReportCall]) ?_
          rw [runPipeline_of_install_failed w a assignment assignmentID testCode testDir e
            h1 h2 h3 hn]
        | none =>
          refine ⟨w.testRun.runErr.isNone, w.testRun.stdout, ?_, ?_⟩
          · rw [runPipeline_of_install_ok w a assignment assignmentID testCode testDir
              h1 h2 h3 hn, List.filter_append, List.filter_append, hstart, reportResult_calls]
            simp [Action.isReportCall]
          · rw [runPipeline_of_install_ok w a assignment assignmentID testCode testDir
              h1 h2 h3 hn]
            constructor
            · intro h
              refine ⟨⟨Action.exec testDir "npx" ["playwright", "test", "--project",
                (configArgs assignment).playwrightBrowser] 600, by simp,
                by simp [Action.isRunner]⟩, ?_⟩
              exact Option.isNone_iff_eq_none.1 h
            · intro h
              exact Option.isNone_iff_eq_none.2 h.2

/-- C27. On every path through `ExecuteTest`, in every world and for every agent
and assignment (no code, no workspace, one of the three file writes failing,
`npm install` failing, or a run with any exit status), `reportResult` is called
exactly once, for the assignment's ID; its success argument is true exactly when
the test runner was invoked and returned without error. -/
theorem reportResult_called_once (w : World) (a : Agent) (assignment : Assignment) :
    ∃ (success : Bool) (message : String),
      (ExecuteTest w a assignment).actions.filter Action.isReportCall =
        [Action.callReportResult (sprintV assignment.ID) success message] ∧
      ((ExecuteTest w a assignment).actions.filter Action.isReportCall).length = 1 ∧
      (success = true ↔
        ((∃ x ∈ (ExecuteTest w a assignment).actions, x.isRunner = true) ∧
          w.testRun.runErr = none)) := by
  have hfetch : (resolveTestCode w assignment).1.filter Action.isReportCall = [] := by
    rcases resolveTestCode_actions w assignment with h | h <;> simp [h, Action.isReportCall]
  have hfetchrun : ∀ x ∈ (resolveTestCode w assignment).1, x.isRunner = false := by
    intro x hx
    rcases resolveTestCode_actions w assignment with h | h
    · rw [h] at hx; simp at hx
    · rw [h] at hx
      simp only [List.mem_singleton] at hx
      subst hx; rfl
  by_cases hcode : (resolveTestCode w assignment).2 = ""
  · have hact : (ExecuteTest w a assignment).actions = (resolveTestCode w assignment).1 ++
        reportResult w a (sprintV assignment.ID) false "No test code provided" none := by
      simp [ExecuteTest, hcode]
    refine ⟨false, "No test code provided", ?_, ?_, ?_⟩
    · rw [hact, List.filter_append, hfetch, reportResult_calls]; rfl
    · rw [hact, List.filter_append, hfetch, reportResult_calls]; rfl
    · rw [hact]
      constructor
      · intro h; simp at h
      · rintro ⟨⟨x, hx, hr⟩, _⟩
        rcases List.mem_append.1 hx with hx | hx
        · rw [hfetchrun x hx] at hr; simp at hr
        · rw [reportResult_no_runner _ _ _ _ _ _ x hx] at hr; simp at hr
  · cases hdir : w.mkdirTemp with
    | error err =>
      have hact : (ExecuteTest w a assignment).actions =
          (resolveTestCode w assignment).1 ++
          Action.mkdirTemp ("qamax-agent-" ++ sprintV assignment.ID ++ "-") ::
          reportResult w a (sprintV assignment.ID) false
            ("Failed to create temp dir: " ++ err) none := by
        simp [ExecuteTest, hcode, hdir]
      refine ⟨false, "Failed to create temp dir: " ++ err, ?_, ?_, ?_⟩
      · rw [hact, List.filter_append, hfetch, List.filter_cons, reportResult_calls]; rfl
      · rw [hact, List.filter_append, hfetch, List.filter_cons, reportResult_calls]; rfl
      · rw [hact]
        constructor
        · intro h; simp at h
        · rintro ⟨⟨x, hx, hr⟩, _⟩
          rcases List.mem_append.1 hx with hx | hx
          · rw [hfetchrun x hx] at hr; simp at hr
          · rcases List.mem_cons.1 hx with hx | hx
            · subst hx; simp [Action.isRunner] at hr
            · rw [reportResult_no_runner _ _ _ _ _ _ x hx] at hr; simp at hr
    | ok testDir =>
      obtain ⟨success, message, hcalls, hiff⟩ := runPipeline_reports_once w a assignment
        (sprintV assignment.ID) (resolveTestCode w assignment).2 testDir
      have hact := executeTest_actions_of_workspace w a assignment testDir hcode hdir
      have hfilter : (ExecuteTest w a assignment).actions.filter Action.isReportCall =
          [Action.callReportResult (sprintV assignment.ID) success message] := by
        rw [hact, List.filter_append, hfetch, List.filter_cons, List.filter_append, hcalls]
        simp [Action.isReportCall]
      refine ⟨success, message, hfilter, by rw [hfilter]; rfl, ?_⟩
      rw [hiff, hact]
      constructor
      · rintro ⟨⟨x, hx, hr⟩, herr⟩
        exact ⟨⟨x, by simp [hx], hr⟩, herr⟩
      · rintro ⟨⟨x, hx, hr⟩, herr⟩
        refine ⟨⟨x, ?_, hr⟩, herr⟩
        simp only [List.mem_append, List.mem_cons, List.mem_singleton, List.not_mem_nil,
          or_false] at hx
        rcases hx with hx | rfl | hx | rfl | rfl
        · rw [hfetchrun x hx] at hr; simp at hr
        · simp [Action.isRunner] at hr
        · exact hx
        · simp [Action.isRunner] at hr
        · simp [Action.isRunner] at hr

/-- C27 at concrete worlds: a successful run reports success once; a run that
exits with status 1 and a failed `npm install` report failure once. -/
theorem reportResult_called_once_witness :
    (∃ (success : Bool) (message : String),
      (ExecuteTest fineWorld idleAgent firefoxAssignment).actions.filter Action.isReportCall =
        [Action.callReportResult "1" success message]) ∧
    (ExecuteTest fineWorld idleAgent firefoxAssignment).actions.filter Action.isReportCall =
      [Action.callReportResult "1" true "ok"] ∧
    (ExecuteTest failingRunWorld idleAgent firefoxAssignment).actions.filter
      Action.isReportCall = [Action.callReportResult "1" false ""] ∧
    (ExecuteTest fineWorld idleAgent noCodeAssignment).actions.filter Action.isReportCall =
      [Action.callReportResult "1" false "No test code provided"] :=
  ⟨(reportResult_called_once fineWorld idleAgent firefoxAssignment).imp
      fun _ h => h.imp fun _ h2 => h2.1,
   by decide, by decide, by decide⟩
/-! ## The browser name in configuration and command lines -/

/-- The table lookup yields one of the three entries of the table. -/
theorem browserMapping_cases (browser : String) :
    browserMapping browser = ("chromium", "Desktop Chrome") ∨
    browserMapping browser = ("firefox", "Desktop Firefox") ∨
    browserMapping browser = ("webkit", "Desktop Safari") := by
  by_cases h1 : browser = "chromium"
  · subst h1; exact Or.inl (by decide)
  · by_cases h2 : browser = "firefox"
    · subst h2; exact Or.inr (Or.inl (by decide))
    · by_cases h3 : browser = "webkit"
      · subst h3; exact Or.inr (Or.inr (by decide))
      · left
        have e1 : (browser == "chromium") = false := by simpa using h1
        have e2 : (browser == "firefox") = false := by simpa using h2
        have e3 : (browser == "webkit") = false := by simpa using h3
        simp [browserMapping, browserMap, List.lookup, e1, e2, e3]

/-- A Browser value outside the three names is mapped like chromium. -/
theorem configArgs_of_other_browser (assignment : Assignment) (browser : String)
    (h1 : browser ≠ "chromium") (h2 : browser ≠ "firefox") (h3 : browser ≠ "webkit") :
    configArgs { assignment with Browser := browser } =
      configArgs { assignment with Browser := "chromium" } := by
  have e1 : (browser == "chromium") = false := by simpa using h1
  have e2 : (browser == "firefox") = false := by simpa using h2
  have e3 : (browser == "webkit") = false := by simpa using h3
  by_cases hb : browser = ""
  · subst hb
    simp [configArgs]
  · simp [configArgs, hb, browserMapping, browserMap, List.lookup, e1, e2, e3]

/-- C28. For every assignment the project name of the generated configuration is
one of chromium, firefox, webkit; the configuration names it as the project, the
engine installer is run with the arguments `playwright install <name>` and the
test runner with `playwright test --project <name>`, for that same name. Two
assignments that differ only in Browser values outside the three names yield the
same configuration arguments, the same configuration text and the same actions of
`ExecuteTest` altogether, in every world. -/
theorem browser_text_is_confined (w : World) (a : Agent) (assignment : Assignment) :
    ((configArgs assignment).playwrightBrowser = "chromium" ∨
      (configArgs assignment).playwrightBrowser = "firefox" ∨
      (configArgs assignment).playwrightBrowser = "webkit") ∧
    (∃ before after : String, generatedConfig assignment =
      before ++ ("      name: \x27" ++ (configArgs assignment).playwrightBrowser ++ "\x27,\n") ++
        after) ∧
    Fields ("playwright install " ++ (configArgs assignment).playwrightBrowser) =
      ["playwright", "install", (configArgs assignment).playwrightBrowser] ∧
    (∀ testDir : String, w.mkdirTemp = .ok testDir →
      (resolveTestCode w assignment).2 ≠ "" →
      w.writeFile (joinPath testDir "test.spec.js") = none →
      w.writeFile (joinPath testDir "package.json") = none →
      w.writeFile (joinPath testDir "playwright.config.js") = none →
      w.npmInstall.err = none →
      (ExecuteTest w a assignment).actions.filter Action.isExec =
        [Action.exec testDir "npm" ["install"] 300,
         Action.exec testDir "npx"
           ["playwright", "install", (configArgs assignment).playwrightBrowser] 300,
         Action.exec testDir "npx"
           ["playwright", "test", "--project", (configArgs assignment).playwrightBrowser] 600] ∧
      Action.writeFile (joinPath testDir "playwright.config.js") (generatedConfig assignment) ∈
        (ExecuteTest w a assignment).actions) ∧
    (∀ browser1 browser2 : String,
      browser1 ≠ "chromium" → browser1 ≠ "firefox" → browser1 ≠ "webkit" →
      browser2 ≠ "chromium" → browser2 ≠ "firefox" → browser2 ≠ "webkit" →
      configArgs { assignment with Browser := browser1 } =
        configArgs { assignment with Browser := browser2 } ∧
      generatedConfig { assignment with Browser := browser1 } =
        generatedConfig { assignment with Browser := browser2 } ∧
      (ExecuteTest w a { assignment with Browser := browser1 }).actions =
        (ExecuteTest w a { assignment with Browser := browser2 }).actions) := by
  have hmem : (configArgs assignment).playwrightBrowser = "chromium" ∨
      (configArgs assignment).playwrightBrowser = "firefox" ∨
      (configArgs assignment).playwrightBrowser = "webkit" := by
    have hpb : (configArgs assignment).playwrightBrowser =
        (browserMapping (if assignment.Browser = "" then "chromium"
          else assignment.Browser)).1 := rfl
    rw [hpb]
    rcases browserMapping_cases (if assignment.Browser = "" then "chromium"
      else assignment.Browser) with h | h | h <;> rw [h] <;> simp
  have hfields : Fields ("playwright install " ++ (configArgs assignment).playwrightBrowser) =
      ["playwright", "install", (configArgs assignment).playwrightBrowser] := by
    rcases hmem with h | h | h <;> rw [h] <;> decide
  refine ⟨hmem, ?_, hfields, ?_, ?_⟩
  · refine ⟨"// @ts-check\n" ++
      "const \x7b defineConfig, devices \x7d = require(\x27@playwright/test\x27);\n" ++
      "\n" ++
      "module.exports = defineConfig(\x7b\n" ++
      "  testDir: \x27./\x27,\n" ++
      "  fullyParallel: false,\n" ++
      "  workers: 1,\n" ++
      "  retries: 0,\n" ++
      "  reporter: \x27json\x27,\n" ++
      "  projects: [\n" ++
      "    \x7b\n",
      "      use: \x7b\n" ++
      "        ...devices[\x27" ++ (configArgs assignment).deviceName ++ "\x27],\n" ++
      "        baseURL: " ++ (configArgs assignment).baseURLJS ++ ",\n" ++
      "        headless: " ++ (if (configArgs assignment).headless then "true" else "false") ++
      ",\n" ++
      "        viewport: \x7b width: " ++ toString (configArgs assignment).vpWidth ++
      ", height: " ++ toString (configArgs assignment).vpHeight ++ " \x7d,\n" ++
      "        screenshot: \x27on\x27,\n" ++
      "        video: \x27on\x27,\n" ++
      "      \x7d,\n" ++
      "    \x7d,\n" ++
      "  ],\n" ++
      "\x7d);\n", ?_⟩
    simp only [generatedConfig, playwrightConfig, String.append_assoc]
  · intro testDir hdir hcode h1 h2 h3 hn
    have hact := executeTest_actions_of_workspace w a assignment testDir hcode hdir
    rw [runPipeline_of_install_ok w a assignment _ _ testDir h1 h2 h3 hn] at hact
    have hfetch : (resolveTestCode w assignment).1.filter Action.isExec = [] := by
      rcases resolveTestCode_actions w assignment with h | h <;> simp [h, Action.isExec]
    have hstart : (updateAssignmentStatus a (sprintV assignment.ID) "started").filter
        Action.isExec = [] := by
      rw [List.filter_eq_nil_iff]
      intro x hx
      rw [updateAssignmentStatus_kinds a _ "started" x hx]
      simp [Action.isExec]
    have hreport : ∀ (s : Bool) (m : String) (d : Option ResultData),
        (reportResult w a (sprintV assignment.ID) s m d).filter Action.isExec = [] := by
      intro s m d
      rw [List.filter_eq_nil_iff]
      intro x hx
      rcases reportResult_kinds w a _ s m d x hx with h | h | h <;>
        cases x <;> simp_all [Action.isExec, Action.isReportCall, Action.isPostResult,
          Action.isPostStatus]
    constructor
    · rw [hact, hfields]
      simp only [List.filter_append, List.filter_cons, hfetch, hstart, hreport]
      simp [Action.isExec]
      decide
    · rw [hact]
      simp [generatedConfig]
  · intro browser1 browser2 a1 a2 a3 b1 b2 b3
    have hcfg : configArgs { assignment with Browser := browser1 } =
        configArgs { assignment with Browser := browser2 } := by
      rw [configArgs_of_other_browser assignment browser1 a1 a2 a3,
        configArgs_of_other_browser assignment browser2 b1 b2 b3]
    refine ⟨hcfg, by simp only [generatedConfig, hcfg], ?_⟩
    have hrun : ∀ (id code dir : String),
        runPipeline w a { assignment with Browser := browser1 } id code dir =
          runPipeline w a { assignment with Browser := browser2 } id code dir := by
      intro id code dir
      simp only [runPipeline, hcfg]
    simp only [ExecuteTest, resolveTestCode, hrun]

/-- C28 at concrete assignments: "edge" and the empty Browser give the same
actions as each other, with chromium as the project. -/
theorem browser_text_is_confined_witness :
    (configArgs { firefoxAssignment with Browser := "edge; rm -rf /" }).playwrightBrowser =
      "chromium" ∧
    (ExecuteTest fineWorld idleAgent { firefoxAssignment with Browser := "edge; rm -rf /" }).actions =
      (ExecuteTest fineWorld idleAgent { firefoxAssignment with Browser := "" }).actions ∧
    (ExecuteTest fineWorld idleAgent firefoxAssignment).actions.filter Action.isExec =
      [Action.exec "/tmp/qamax-agent-1-42" "npm" ["install"] 300,
       Action.exec "/tmp/qamax-agent-1-42" "npx" ["playwright", "install", "firefox"] 300,
       Action.exec "/tmp/qamax-agent-1-42" "npx"
         ["playwright", "test", "--project", "firefox"] 600] :=
  have h := browser_text_is_confined fineWorld idleAgent firefoxAssignment
  ⟨by decide,
   (h.2.2.2.2 "edge; rm -rf /" "" (by decide) (by decide) (by decide) (by decide) (by decide)
     (by decide)).2.2,
   by decide⟩
/-! ## The API base URL -/

/-- A trailing slash is trimmed. -/
theorem TrimRight_concat_slash (s : GoString) :
    TrimRight (s ++ [GoRune.rune '/']) "/" = TrimRight s "/" := by
  unfold TrimRight
  rw [List.rdropWhile_concat_pos]
  decide

/-- Trimming slashes changes nothing when the string does not end in a slash. -/
theorem TrimRight_of_no_slash (s : GoString) (h : s.getLast? ≠ some (GoRune.rune '/')) :
    TrimRight s "/" = s := by
  unfold TrimRight
  rw [List.rdropWhile_eq_self_iff]
  intro hne hp
  apply h
  rw [List.getLast?_eq_getLast _ hne]
  cases hl : s.getLast hne with
  | rune c =>
    rw [hl] at hp
    have : c = '/' := by simpa using hp
    rw [this]
  | invalid b =>
    rw [hl] at hp
    exact absurd hp (by simp)

/-- What slash-trimming returns does not end in a slash. -/
theorem TrimRight_getLast (s : GoString) :
    (TrimRight s "/").getLast? ≠ some (GoRune.rune '/') := by
  induction s using List.reverseRecOn with
  | nil => simp [TrimRight]
  | append_singleton l x ih =>
    by_cases hx : x = GoRune.rune '/'
    · subst hx
      rw [TrimRight_concat_slash]
      exact ih
    · rw [TrimRight_of_no_slash (l ++ [x]) (by simpa using hx)]
      simpa using hx

/-- A suffix that is there is cut off. -/
theorem TrimSuffix_append (s suffix : GoString) : TrimSuffix (s ++ suffix) suffix = s := by
  unfold TrimSuffix
  have : suffix.isSuffixOf (s ++ suffix) = true := by
    rw [List.isSuffixOf_iff_suffix]
    exact List.suffix_append _ _
  rw [if_pos this]
  simp

/-- C22. For every URL `b` that ends neither in "/" nor in "/app",
`GetAPIBaseURL` returns `b` for each of the inputs `b`, `b + "/"`, `b + "/app"`
and `b + "/app/"`; for the empty input it returns the empty string. -/
theorem getAPIBaseURL_normalises (b : GoString)
    (hslash : b.getLast? ≠ some (GoRune.rune '/'))
    (happ : (GoString.ofString "/app").isSuffixOf b = false) :
    (configWithURL b).GetAPIBaseURL = b ∧
    (configWithURL (b ++ GoString.ofString "/")).GetAPIBaseURL = b ∧
    (configWithURL (b ++ GoString.ofString "/app")).GetAPIBaseURL = b ∧
    (configWithURL (b ++ GoString.ofString "/app/")).GetAPIBaseURL = b ∧
    (configWithURL []).GetAPIBaseURL = [] := by
  have hb : TrimSuffix (TrimRight b "/") (GoString.ofString "/app") = b := by
    rw [TrimRight_of_no_slash b hslash]
    unfold TrimSuffix
    rw [happ]
    rfl
  have happ2 : TrimRight (b ++ GoString.ofString "/app") "/" = b ++ GoString.ofString "/app" := by
    apply TrimRight_of_no_slash
    have : b ++ GoString.ofString "/app" =
        (b ++ [GoRune.rune '/', GoRune.rune 'a', GoRune.rune 'p']) ++ [GoRune.rune 'p'] := by
      simp [GoString.ofString]
    rw [this, List.getLast?_concat]
    decide
  refine ⟨hb, ?_, ?_, ?_, by decide⟩
  · show TrimSuffix (TrimRight (b ++ [GoRune.rune '/']) "/") (GoString.ofString "/app") = b
    rw [TrimRight_concat_slash]
    exact hb
  · show TrimSuffix (TrimRight (b ++ GoString.ofString "/app") "/") (GoString.ofString "/app") = b
    rw [happ2, TrimSuffix_append]
  · have : b ++ GoString.ofString "/app/" = (b ++ GoString.ofString "/app") ++ [GoRune.rune '/'] := by
      simp [GoString.ofString]
    show TrimSuffix (TrimRight (b ++ GoString.ofString "/app/") "/") (GoString.ofString "/app") = b
    rw [this, TrimRight_concat_slash, happ2, TrimSuffix_append]

/-- C22 at the URL of the test table. -/
theorem getAPIBaseURL_normalises_witness :
    (configWithURL (GoString.ofString "https://app.qamax.co")).GetAPIBaseURL =
      GoString.ofString "https://app.qamax.co" ∧
    (configWithURL (GoString.ofString "https://app.qamax.co" ++
      GoString.ofString "/")).GetAPIBaseURL = GoString.ofString "https://app.qamax.co" ∧
    (configWithURL (GoString.ofString "https://app.qamax.co" ++
      GoString.ofString "/app")).GetAPIBaseURL = GoString.ofString "https://app.qamax.co" ∧
    (configWithURL (GoString.ofString "https://app.qamax.co" ++
      GoString.ofString "/app/")).GetAPIBaseURL = GoString.ofString "https://app.qamax.co" :=
  have h := getAPIBaseURL_normalises (GoString.ofString "https://app.qamax.co")
    (by decide) (by decide)
  ⟨h.1, h.2.1, h.2.2.1, h.2.2.2.1⟩

/-- C23 (as stated, refuted). For the API URL `https://a.co/app/app` the method
returns `https://a.co/app`, which ends in "/app". -/
theorem getAPIBaseURL_keeps_second_app :
    (configWithURL (GoString.ofString "https://a.co/app/app")).GetAPIBaseURL =
      GoString.ofString "https://a.co/app" ∧
    (GoString.ofString "/app").isSuffixOf
      (configWithURL (GoString.ofString "https://a.co/app/app")).GetAPIBaseURL = true := by
  decide

/-- C23 (amended). For every APIURL, `GetAPIBaseURL` returns the URL without its
trailing slashes and without one "/app" at the end of what is left: the URL is
the result, then "/app" or nothing, then slashes only. The result does not end in
a slash unless a "/app" was cut off, and it ends in "/app" exactly when the URL
without its trailing slashes ends in "/app/app". -/
theorem getAPIBaseURL_removes_one_app (c : Config) :
    c.GetAPIBaseURL = TrimSuffix (TrimRight c.APIURL "/") (GoString.ofString "/app") ∧
    (∃ n : Nat,
      c.APIURL = c.GetAPIBaseURL ++ List.replicate n (GoRune.rune '/') ∨
      c.APIURL = c.GetAPIBaseURL ++ GoString.ofString "/app" ++
        List.replicate n (GoRune.rune '/')) ∧
    ((GoString.ofString "/app").isSuffixOf (TrimRight c.APIURL "/") = false →
      c.GetAPIBaseURL = TrimRight c.APIURL "/" ∧
      c.GetAPIBaseURL.getLast? ≠ some (GoRune.rune '/')) ∧
    ((GoString.ofString "/app").isSuffixOf c.GetAPIBaseURL = true ↔
      (GoString.ofString "/app/app").isSuffixOf (TrimRight c.APIURL "/") = true) := by
  have hslashes : ∀ s : GoString, ∃ n : Nat,
      s = TrimRight s "/" ++ List.replicate n (GoRune.rune '/') := by
    intro s
    induction s using List.reverseRecOn with
    | nil => exact ⟨0, by simp [TrimRight]⟩
    | append_singleton l x ih =>
      by_cases hx : x = GoRune.rune '/'
      · subst hx
        obtain ⟨n, hn⟩ := ih
        refine ⟨n + 1, ?_⟩
        rw [TrimRight_concat_slash, List.replicate_succ', ← List.append_assoc, ← hn]
      · exact ⟨0, by rw [TrimRight_of_no_slash (l ++ [x]) (by simpa using hx)]; simp⟩
  obtain ⟨n, hn⟩ := hslashes c.APIURL
  by_cases happ : (GoString.ofString "/app").isSuffixOf (TrimRight c.APIURL "/") = true
  · obtain ⟨r, hr⟩ := List.isSuffixOf_iff_suffix.1 happ
    have hres : c.GetAPIBaseURL = r := by
      unfold Config.GetAPIBaseURL
      rw [← hr, TrimSuffix_append]
    refine ⟨rfl, ⟨n, Or.inr ?_⟩, ?_, ?_⟩
    · rw [hres, hr]; exact hn
    · intro h; rw [h] at happ; exact absurd happ (by simp)
    · rw [hres, ← hr, List.isSuffixOf_iff_suffix, List.isSuffixOf_iff_suffix]
      constructor
      · rintro ⟨t, ht⟩
        refine ⟨t, ?_⟩
        rw [← ht]
        simp [GoString.ofString]
      · rintro ⟨t, ht⟩
        refine ⟨t, ?_⟩
        have : (t ++ GoString.ofString "/app") ++ GoString.ofString "/app" =
            r ++ GoString.ofString "/app" := by
          rw [← ht]
          simp [GoString.ofString]
        exact List.append_cancel_right this
  · have hfalse : (GoString.ofString "/app").isSuffixOf (TrimRight c.APIURL "/") = false :=
      Bool.eq_false_iff.2 happ
    have hres : c.GetAPIBaseURL = TrimRight c.APIURL "/" := by
      unfold Config.GetAPIBaseURL TrimSuffix
      rw [hfalse]
      rfl
    refine ⟨rfl, ⟨n, Or.inl ?_⟩, ?_, ?_⟩
    · rw [hres]; exact hn
    · intro _
      exact ⟨hres, by rw [hres]; exact TrimRight_getLast _⟩
    · rw [hres, hfalse]
      constructor
      · intro h; simp at h
      · intro h
        exfalso
        apply happ
        rw [List.isSuffixOf_iff_suffix] at h ⊢
        obtain ⟨t, ht⟩ := h
        refine ⟨t ++ GoString.ofString "/app", ?_⟩
        rw [← ht]
        simp [GoString.ofString]

/-- C23 (amended) at concrete URLs: one "/app" goes, a second stays. -/
theorem getAPIBaseURL_removes_one_app_witness :
    (configWithURL (GoString.ofString "https://a.co/app//")).GetAPIBaseURL =
      GoString.ofString "https://a.co" ∧
    (GoString.ofString "/app").isSuffixOf
      (configWithURL (GoString.ofString "https://a.co/app/app")).GetAPIBaseURL = true :=
  ⟨by decide,
   (getAPIBaseURL_removes_one_app
     (configWithURL (GoString.ofString "https://a.co/app/app"))).2.2.2.2 (by decide)⟩
/-! ## The login callback -/

/-- C25 (as stated, refuted). A POST request without a token parameter is not
answered 400: the method is checked first and the answer is 405. -/
theorem callback_post_without_token_is_405 :
    Values.Get ({ Method := "POST", Query := [] } : Request).Query "token" = [] ∧
    (callbackHandler { Method := "POST", Query := [] }).response.status = 405 ∧
    (callbackHandler { Method := "POST", Query := [] }).response.status ≠ 400 ∧
    (callbackHandler { Method := "POST", Query := [] }).sent = none := by
  decide

/-- C25 (amended). The `/callback` handler answers 405 to every request whose
method is not GET, whatever its query. To a GET request it answers 400 when the
token parameter is missing or empty, or shorter than 10 or longer than 8192 bytes.
It answers 200 and sends the token, unchanged, to the login flow exactly when the
method is GET and the length of the token is between 10 and 8192 bytes inclusive;
every other request sends no token and is not answered 200. -/
theorem callback_answers (r : Request) :
    (r.Method ≠ "GET" →
      (callbackHandler r).response = httpError "Method not allowed" 405 ∧
      (callbackHandler r).sent = none) ∧
    (r.Method = "GET" → Values.Get r.Query "token" = [] →
      (callbackHandler r).response = httpError "Missing token parameter" 400 ∧
      (callbackHandler r).sent = none) ∧
    (r.Method = "GET" →
      (Values.Get r.Query "token").len < 10 ∨ 8192 < (Values.Get r.Query "token").len →
      (callbackHandler r).response.status = 400 ∧ (callbackHandler r).sent = none) ∧
    (((callbackHandler r).response.status = 200 ∧
        (callbackHandler r).sent = some (Values.Get r.Query "token")) ↔
      (r.Method = "GET" ∧ 10 ≤ (Values.Get r.Query "token").len ∧
        (Values.Get r.Query "token").len ≤ 8192)) ∧
    (¬ (r.Method = "GET" ∧ 10 ≤ (Values.Get r.Query "token").len ∧
        (Values.Get r.Query "token").len ≤ 8192) →
      (callbackHandler r).sent = none ∧ (callbackHandler r).response.status ≠ 200) := by
  have hlen : Values.Get r.Query "token" = [] → (Values.Get r.Query "token").len = 0 := by
    intro h; rw [h]; rfl
  by_cases hm : r.Method = "GET"
  · by_cases he : Values.Get r.Query "token" = []
    · have h0 := hlen he
      simp [callbackHandler, hm, he, httpError] at h0 ⊢
      intro h; rw [GoString.len] at h; simp at h
    · by_cases hr : (Values.Get r.Query "token").len < 10 ∨
          (Values.Get r.Query "token").len > 8192
      · simp only [callbackHandler, hm, he, hr]
        simp [httpError]
        omega
      · simp only [callbackHandler, hm, he, hr]
        simp
        omega
  · simp [callbackHandler, hm, httpError]

/-- C25 (amended) at the requests of the tests: a GET with the 14-byte token
`test-jwt-token` is answered 200 and sends it; a POST with the same token is
answered 405 and sends nothing. -/
theorem callback_answers_witness :
    ((callbackHandler (tokenRequest "GET" "test-jwt-token")).response.status = 200 ∧
      (callbackHandler (tokenRequest "GET" "test-jwt-token")).sent =
        some (GoString.ofString "test-jwt-token")) ∧
    ((callbackHandler (tokenRequest "POST" "test-jwt-token")).response =
        httpError "Method not allowed" 405 ∧
      (callbackHandler (tokenRequest "POST" "test-jwt-token")).sent = none) :=
  ⟨((callback_answers (tokenRequest "GET" "test-jwt-token")).2.2.2.1).2
      ⟨by decide, by decide, by decide⟩,
   (callback_answers (tokenRequest "POST" "test-jwt-token")).1 (by decide)⟩
/-! ## The tracker under interleaving -/

/-- Every statement preserves the invariant of the interleavings. -/
theorem interleavingInv_step (s t : Interleaving) (e : Micro) (hs : InterleavingInv s)
    (hst : s.step e = some t) : InterleavingInv t := by
  obtain ⟨hcount, hnodup, htracked, hloaded, hheld⟩ := hs
  cases e with
  | load assignment =>
    cases hp : s.poller with
    | idle =>
      simp only [Interleaving.step, hp] at hst
      split at hst
      · cases hst
        exact ⟨hcount, hnodup, htracked, hloaded, hheld⟩
      · rename_i hnot
        cases hst
        refine ⟨?_, hnodup, htracked, ?_, ?_⟩
        · simpa [Interleaving.claimPending, hp] using hcount
        · intro id hid
          cases hid
          exact hnot
        · intro id hid
          rcases hid with hid | hid <;> cases hid
    | loaded id => simp [Interleaving.step, hp] at hst
    | stored id => simp [Interleaving.step, hp] at hst
    | counted id => simp [Interleaving.step, hp] at hst
  | store =>
    cases hp : s.poller with
    | loaded id =>
      simp only [Interleaving.step, hp] at hst
      cases hst
      have hnot := hloaded id hp
      refine ⟨?_, hnodup, ?_, ?_, ?_⟩
      · simp only [Interleaving.claimPending, hp] at hcount
        simp only [Interleaving.claimPending]
        rw [Finset.card_insert_of_not_mem hnot, hcount]
        push_cast
        simp
      · intro x hx
        exact Finset.mem_insert_of_mem (htracked x hx)
      · intro x hx
        cases hx
      · intro x hx
        have hxid : x = id := by
          rcases hx with hx | hx
          · cases hx; rfl
          · cases hx
        subst hxid
        exact ⟨Finset.mem_insert_self _ _, fun hrun => hnot (htracked _ hrun)⟩
    | idle => simp [Interleaving.step, hp] at hst
    | stored id => simp [Interleaving.step, hp] at hst
    | counted id => simp [Interleaving.step, hp] at hst
  | count =>
    cases hp : s.poller with
    | stored id =>
      simp only [Interleaving.step, hp] at hst
      cases hst
      refine ⟨?_, hnodup, htracked, ?_, ?_⟩
      · simp only [Interleaving.claimPending, hp] at hcount
        simp only [Interleaving.claimPending]
        rw [hcount]
        simp
        ring
      · intro x hx
        cases hx
      · intro x hx
        have hxid : x = id := by
          rcases hx with hx | hx
          · cases hx
          · cases hx; rfl
        subst hxid
        exact hheld x (Or.inl hp)
    | idle => simp [Interleaving.step, hp] at hst
    | loaded id => simp [Interleaving.step, hp] at hst
    | counted id => simp [Interleaving.step, hp] at hst
  | spawn =>
    cases hp : s.poller with
    | counted id =>
      simp only [Interleaving.step, hp] at hst
      cases hst
      have hid := hheld id (Or.inr hp)
      refine ⟨?_, ?_, ?_, ?_, ?_⟩
      · simpa [Interleaving.claimPending, hp] using hcount
      · exact List.Nodup.append hnodup (List.nodup_singleton id)
          (by simpa using hid.2)
      · intro x hx
        rcases List.mem_append.1 hx with hx | hx
        · exact htracked x hx
        · have : x = id := by simpa using hx
          rw [this]
          exact hid.1
      · intro x hx
        cases hx
      · intro x hx
        rcases hx with hx | hx <;> cases hx
    | idle => simp [Interleaving.step, hp] at hst
    | loaded id => simp [Interleaving.step, hp] at hst
    | stored id => simp [Interleaving.step, hp] at hst
  | earlyReturn id =>
    simp only [Interleaving.step] at hst
    split at hst
    · cases hst
      refine ⟨hcount, hnodup.erase id, ?_, hloaded, ?_⟩
      · intro x hx
        exact htracked x (List.mem_of_mem_erase hx)
      · intro x hx
        exact ⟨(hheld x hx).1, fun h => (hheld x hx).2 (List.mem_of_mem_erase h)⟩
    · cases hst
  | delete id =>
    simp only [Interleaving.step] at hst
    split at hst
    · rename_i hrun
      cases hst
      have hin := htracked id hrun
      refine ⟨?_, hnodup.erase id, ?_, ?_, ?_⟩
      · have hpos : 0 < s.agent.activeTests.card := Finset.card_pos.2 ⟨id, hin⟩
        simp only [Interleaving.claimPending] at hcount ⊢
        rw [Finset.card_erase_of_mem hin, hcount]
        simp only [List.length_cons]
        push_cast [Nat.cast_sub (Nat.succ_le_of_lt hpos)]
        ring
      · intro x hx
        have hx2 := (List.Nodup.mem_erase_iff hnodup).1 hx
        exact Finset.mem_erase.2 ⟨hx2.1, htracked x hx2.2⟩
      · intro x hx hmem
        exact hloaded x hx (Finset.mem_of_mem_erase hmem)
      · intro x hx
        have hh := hheld x hx
        refine ⟨Finset.mem_erase.2 ⟨?_, hh.1⟩, fun h => hh.2 (List.mem_of_mem_erase h)⟩
        intro hxid
        rw [hxid] at hh
        exact hh.2 hrun
    · cases hst
  | uncount id =>
    simp only [Interleaving.step] at hst
    split at hst
    · rename_i hrel
      cases hst
      refine ⟨?_, hnodup, htracked, hloaded, hheld⟩
      have hpos : 0 < s.releasing.length := List.length_pos_of_mem hrel
      simp only [Interleaving.claimPending] at hcount ⊢
      rw [hcount, List.length_erase_of_mem hrel]
      push_cast [Nat.cast_sub (Nat.succ_le_of_lt hpos)]
      ring
    · cases hst

/-- Every sequence of statements preserves the invariant of the interleavings. -/
theorem interleavingInv_run (events : List Micro) (s t : Interleaving)
    (hs : InterleavingInv s) (hst : s.run events = some t) : InterleavingInv t := by
  induction events generalizing s with
  | nil =>
    simp only [Interleaving.run] at hst
    cases hst
    exact hs
  | cons e later ih =>
    simp only [Interleaving.run] at hst
    cases hstep : s.step e with
    | none => rw [hstep] at hst; cases hst
    | some u =>
      rw [hstep] at hst
      exact ih u (interleavingInv_step s u e hs hstep) hst

/-- The invariant holds when polling starts. -/
theorem interleavingInv_start (cloudURL apiKey agentID : String) (heartbeatInterval : Int) :
    InterleavingInv (Interleaving.start cloudURL apiKey agentID heartbeatInterval) := by
  refine ⟨by simp [Interleaving.start, NewAgent, Interleaving.claimPending], ?_, ?_, ?_, ?_⟩
  · simp [Interleaving.start]
  · simp [Interleaving.start]
  · intro id h; cases h
  · intro id h
    rcases h with h | h <;> cases h

/-- C26 (as stated, refuted). The insertion into the ID set and the counter update
are two statements, not one atomic unit: after the poller's `Store` for an
assignment and before its `activeCount++`, the heartbeat loop reads a set of one ID
while the counter, which `waitForActiveTests` reads, is still zero. -/
theorem store_and_count_are_separate_steps :
    ∃ s : Interleaving,
      (Interleaving.start "https://app.qamax.co" "key" "agent-1" (60 * Second)).run
        storeOnly = some s ∧
      s.observed = ({"1"}, 0) ∧
      (s.agent.activeTests.card : Int) = 1 ∧ s.agent.activeCount = 0 ∧
      (s.agent.activeTests.card : Int) ≠ s.agent.activeCount :=
  ⟨{ agent := { NewAgent "https://app.qamax.co" "key" "agent-1" (60 * Second) with
                activeTests := {"1"} },
     poller := .stored "1", running := [], releasing := [] },
   by decide, by decide, by decide, by decide, by decide⟩

/-- C26 (amended). The ID set and the counter are updated by separate statements
(the set by `sync.Map` operations, the counter under the mutex `mu`), so they can
differ while a claim or a release is in progress: in every state reached by any
interleaving of the statements of the poller and the pipelines, the counter equals
the number of tracked IDs, less one when the poller has stored an ID and not yet
counted it, plus the number of pipelines that have deleted their ID and not yet
decremented the counter. The two are equal whenever no claim and no release is in
progress. No ID is claimed twice: the running pipelines have distinct IDs, all of
them tracked. -/
theorem tracker_under_interleaving (cloudURL apiKey agentID : String)
    (heartbeatInterval : Int) (events : List Micro) (s : Interleaving)
    (hrun : (Interleaving.start cloudURL apiKey agentID heartbeatInterval).run events =
      some s) :
    s.agent.activeCount =
      (s.agent.activeTests.card : Int) - (if s.claimPending then 1 else 0) +
        s.releasing.length ∧
    (s.claimPending = false → s.releasing = [] →
      s.agent.activeCount = (s.agent.activeTests.card : Int)) ∧
    s.running.Nodup ∧
    (∀ id ∈ s.running, id ∈ s.agent.activeTests) := by
  have hinv := interleavingInv_run events _ s
    (interleavingInv_start cloudURL apiKey agentID heartbeatInterval) hrun
  refine ⟨hinv.1, ?_, hinv.2.1, hinv.2.2.1⟩
  intro hp hr
  have h := hinv.1
  rw [hp, hr] at h
  simpa using h

/-- C26 (amended) at a concrete interleaving: after one claim and one full release
the counter and the set agree again, both empty. -/
theorem tracker_under_interleaving_witness :
    ∃ s : Interleaving,
      (Interleaving.start "https://app.qamax.co" "key" "agent-1" (60 * Second)).run
        claimAndRelease = some s ∧
      s.claimPending = false ∧ s.releasing = [] ∧
      s.agent.activeCount = (s.agent.activeTests.card : Int) ∧ s.running.Nodup :=
  ⟨{ agent := NewAgent "https://app.qamax.co" "key" "agent-1" (60 * Second),
     poller := .idle, running := [], releasing := [] },
   by decide, rfl, rfl,
   (tracker_under_interleaving "https://app.qamax.co" "key" "agent-1" (60 * Second)
      claimAndRelease _ (by decide)).2.1 rfl rfl,
   (tracker_under_interleaving "https://app.qamax.co" "key" "agent-1" (60 * Second)
      claimAndRelease _ (by decide)).2.2.1⟩

/-! ## Reading back what `json.MarshalIndent` wrote -/

/-- One step of the string reader at a valid rune. -/
theorem readUnitsFrom_plain_rune (c : Char) (rest : GoString) :
    readUnitsFrom .plain (.rune c :: rest) =
      if c = dquote then some ([], rest)
      else if c = backslash then readUnitsFrom .escaped rest
      else if c.toNat < 32 then none
      else consUnit (CodeUnit.char c) (readUnitsFrom .plain rest) := by
  simp [readUnitsFrom]

/-- One step of the string reader after a backslash. -/
theorem readUnitsFrom_escaped_rune (e : Char) (rest : GoString) :
    readUnitsFrom .escaped (.rune e :: rest) =
      if e = 'u' then readUnitsFrom (.hex 0 0) rest
      else
        match simpleEscape e with
        | some ch => consUnit (CodeUnit.char ch) (readUnitsFrom .plain rest)
        | none => none := by
  simp [readUnitsFrom]

/-- One step of the string reader inside a `\u` escape. -/
theorem readUnitsFrom_hex (seen value : Nat) (h : GoRune) (rest : GoString) :
    readUnitsFrom (.hex seen value) (h :: rest) =
      match h.hexVal with
      | none => none
      | some d =>
        if seen = 3 then consUnit (escapeUnit (value * 16 + d)) (readUnitsFrom .plain rest)
        else readUnitsFrom (.hex (seen + 1) (value * 16 + d)) rest := by
  simp [readUnitsFrom]

/-- The string reader on a `\u` escape of a value outside the surrogate range. -/
theorem readUnitsFrom_hex4 (h1 h2 h3 h4 : GoRune) (v1 v2 v3 v4 : Nat) (rest : GoString)
    (e1 : h1.hexVal = some v1) (e2 : h2.hexVal = some v2) (e3 : h3.hexVal = some v3)
    (e4 : h4.hexVal = some v4) :
    readUnitsFrom .plain (.rune backslash :: .rune 'u' :: h1 :: h2 :: h3 :: h4 :: rest) =
      consUnit (escapeUnit (((v1 * 16 + v2) * 16 + v3) * 16 + v4))
        (readUnitsFrom .plain rest) := by
  rw [readUnitsFrom_plain_rune, if_neg (by decide), if_pos rfl, readUnitsFrom_escaped_rune,
    if_pos rfl, readUnitsFrom_hex, e1]
  simp only [show ¬ (0 = 3) by decide, if_false]
  rw [readUnitsFrom_hex, e2]
  simp only [show ¬ (0 + 1 = 3) by decide, if_false]
  rw [readUnitsFrom_hex, e3]
  simp only [show ¬ (0 + 1 + 1 = 3) by decide, if_false]
  rw [readUnitsFrom_hex, e4]
  simp

/-- The string reader on a one-letter escape. -/
theorem readUnitsFrom_simple (e ch : Char) (rest : GoString) (hu : e ≠ 'u')
    (he : simpleEscape e = some ch) :
    readUnitsFrom .plain (.rune backslash :: .rune e :: rest) =
      consUnit (CodeUnit.char ch) (readUnitsFrom .plain rest) := by
  rw [readUnitsFrom_plain_rune, if_neg (by decide), if_pos rfl, readUnitsFrom_escaped_rune,
    if_neg hu, he]

/-- The string reader undoes the escape of one valid rune. -/
theorem readUnits_escapeRune (c : Char) (rest : GoString) :
    readUnitsFrom .plain ((escapeRune c).map GoRune.rune ++ rest) =
      consUnit (CodeUnit.char c) (readUnitsFrom .plain rest) := by
  unfold escapeRune
  split
  · rename_i h
    rcases h with rfl | rfl
    · exact readUnitsFrom_simple _ _ _ (by decide) (by decide)
    · exact readUnitsFrom_simple _ _ _ (by decide) (by decide)
  · rename_i hne
    have hcb : c ≠ backslash := fun h => hne (Or.inl h)
    have hcq : c ≠ dquote := fun h => hne (Or.inr h)
    split
    · rename_i h; subst h
      exact readUnitsFrom_simple _ _ _ (by decide) (by decide)
    split
    · rename_i h; subst h
      exact readUnitsFrom_simple _ _ _ (by decide) (by decide)
    split
    · rename_i h; subst h
      exact readUnitsFrom_simple _ _ _ (by decide) (by decide)
    split
    · rename_i h; subst h
      exact readUnitsFrom_simple _ _ _ (by decide) (by decide)
    split
    · rename_i h; subst h
      exact readUnitsFrom_simple _ _ _ (by decide) (by decide)
    split
    · rename_i h
      have hlt : c.toNat < 128 := by
        rcases h with h | rfl | rfl | rfl
        · omega
        · decide
        · decide
        · decide
      have h0 : (GoRune.rune '0').hexVal = some 0 := by decide
      have h1 : (GoRune.rune (hexDigit (c.toNat / 16))).hexVal = some (c.toNat / 16) :=
        hexVal_hexDigit (c.toNat / 16) (by omega)
      have h2 : (GoRune.rune (hexDigit (c.toNat % 16))).hexVal = some (c.toNat % 16) :=
        hexVal_hexDigit (c.toNat % 16) (by omega)
      have hv : ((0 * 16 + 0) * 16 + c.toNat / 16) * 16 + c.toNat % 16 = c.toNat := by omega
      have hunit : escapeUnit c.toNat = CodeUnit.char c := by
        unfold escapeUnit
        rw [if_neg (by omega), Char.ofNat_toNat]
      have := readUnitsFrom_hex4 _ _ _ _ _ _ _ _ rest h0 h0 h1 h2
      rw [hv, hunit] at this
      exact this
    split
    · rename_i h
      have h2 : (GoRune.rune '2').hexVal = some 2 := by decide
      have h0 : (GoRune.rune '0').hexVal = some 0 := by decide
      rcases h with rfl | rfl
      · exact readUnitsFrom_hex4 _ _ _ _ 2 0 2 8 rest h2 h0 h2
          (show (GoRune.rune (hexDigit ((Char.ofNat 8232).toNat % 16))).hexVal = some 8 by
            decide)
      · exact readUnitsFrom_hex4 _ _ _ _ 2 0 2 9 rest h2 h0 h2
          (show (GoRune.rune (hexDigit ((Char.ofNat 8233).toNat % 16))).hexVal = some 9 by
            decide)
    · rename_i h1 h2 h3 h4 h5 h6 h7
      have hge : ¬ c.toNat < 32 := fun h => h6 (Or.inl h)
      simp [readUnitsFrom_plain_rune, hcb, hcq, hge]

/-- The string reader undoes what `appendString` wrote for one rune, up to the
replacement of an invalid byte by U+FFFD. -/
theorem readUnits_appendRune (r : GoRune) (rest : GoString) :
    readUnitsFrom .plain ((appendRune r).map GoRune.rune ++ rest) =
      consUnit (CodeUnit.char r.toValid) (readUnitsFrom .plain rest) := by
  cases r with
  | rune c => exact readUnits_escapeRune c rest
  | invalid b =>
    exact readUnitsFrom_hex4 _ _ _ _ 15 15 15 13 rest (by decide) (by decide) (by decide)
      (by decide)

/-- The string reader undoes what `appendString` wrote for a whole string, up to
the closing quote. -/
theorem readUnits_flatMap_appendRune (s rest : GoString) :
    readUnits ((s.flatMap appendRune ++ [dquote]).map GoRune.rune ++ rest) =
      some (s.map (fun r => CodeUnit.char r.toValid), rest) := by
  unfold readUnits
  induction s with
  | nil => simp [readUnitsFrom_plain_rune]
  | cons r tail ih =>
    rw [List.flatMap_cons, List.append_assoc, List.map_append, List.append_assoc,
      readUnits_appendRune, ih]
    rfl

/-- Units that are all characters stand for these characters. -/
theorem decodeUnits_map_char (cs : List Char) :
    decodeUnits (cs.map CodeUnit.char) = cs := by
  unfold decodeUnits
  induction cs with
  | nil => rfl
  | cons c rest ih => simp [decodeUnitsFrom, ih]

/-- Reading the string literal `json.Marshal` wrote gives the string back, up to the
replacement of invalid bytes. -/
theorem readString_marshal (s rest : GoString) :
    readString ((s.flatMap appendRune ++ [dquote]).map GoRune.rune ++ rest) =
      some (s.map GoRune.toValid, rest) := by
  unfold readString
  rw [readUnits_flatMap_appendRune]
  have : s.map (fun r => CodeUnit.char r.toValid) = (s.map GoRune.toValid).map CodeUnit.char := by
    simp
  simp only [Option.map_some', this, decodeUnits_map_char]
/-- White space is skipped. -/
theorem skipSpace_cons_space (r : GoRune) (s : GoString) (h : isJSONSpace r = true) :
    skipSpace (r :: s) = skipSpace s := by
  simp [skipSpace, List.dropWhile, h]

/-- A rune that is not white space stops the skipping. -/
theorem skipSpace_cons_other (r : GoRune) (s : GoString) (h : isJSONSpace r = false) :
    skipSpace (r :: s) = r :: s := by
  simp [skipSpace, List.dropWhile, h]

/-- The value reader at a string literal. -/
theorem parseValue_string (fuel depth : Nat) (body : GoString) :
    parseValue (fuel + 1) depth (.rune dquote :: body) =
      (readString body).map (fun p => (JSONValue.string p.1, p.2)) := by
  simp [parseValue, show dquote ≠ lbrace by decide, show dquote ≠ '[' by decide]

/-- The text of a member, rune by rune. -/
theorem renderMember_runes (m : String × GoString) (after : GoString) :
    (renderMember m).map GoRune.rune ++ after =
      .rune dquote :: (((GoString.ofString m.1).flatMap appendRune ++ [dquote]).map GoRune.rune ++
        (.rune ':' :: .rune ' ' :: .rune dquote ::
          ((m.2.flatMap appendRune ++ [dquote]).map GoRune.rune ++ after))) := by
  simp [renderMember, marshalGoString]

/-- The decoded name of a member is the name. -/
theorem ofString_map_toValid (name : String) :
    (GoString.ofString name).map GoRune.toValid = name.data := by
  simp [GoString.ofString, Function.comp_def, GoRune.toValid]

/-- The member reader on one member `json.MarshalIndent` wrote: the member is read,
and what follows decides how the reading goes on. -/
theorem parseMembers_renderMember (m : String × GoString) (after : GoString)
    (fuel depth : Nat) :
    parseMembers (fuel + 2) depth ((renderMember m).map GoRune.rune ++ after) =
      match skipSpace after with
      | sep :: afterSep =>
        if sep = .rune ',' then
          (parseMembers (fuel + 1) depth (skipSpace afterSep)).map
            (fun p => ((m.1.data, JSONValue.string (m.2.map GoRune.toValid)) :: p.1, p.2))
        else if sep = .rune rbrace then
          some ([(m.1.data, JSONValue.string (m.2.map GoRune.toValid))], afterSep)
        else none
      | [] => none := by
  rw [renderMember_runes, parseMembers]
  simp only [if_true, readString_marshal, ofString_map_toValid]
  rw [skipSpace_cons_other _ _ (by decide)]
  simp only [if_true]
  rw [skipSpace_cons_space _ _ (by decide), skipSpace_cons_other _ _ (by decide),
    parseValue_string, readString_marshal]
  rfl
/-- The text of the members of an object starts with the quote of the first
name. -/
theorem renderMembers_starts_with_quote (ms : List (String × GoString)) (hne : ms ≠ [])
    (rest : GoString) :
    ∃ t, (List.intercalate [',', Char.ofNat 10, ' ', ' '] (ms.map renderMember) ++
        [Char.ofNat 10, rbrace]).map GoRune.rune ++ rest = .rune dquote :: t := by
  cases ms with
  | nil => exact absurd rfl hne
  | cons m tail =>
    have htext : ∃ after, (List.intercalate [',', Char.ofNat 10, ' ', ' ']
          ((m :: tail).map renderMember) ++ [Char.ofNat 10, rbrace]).map GoRune.rune ++ rest =
        (renderMember m).map GoRune.rune ++ after := by
      cases tail with
      | nil => exact ⟨.rune (Char.ofNat 10) :: .rune rbrace :: rest, by simp [List.intercalate]⟩
      | cons m3 tail3 =>
        exact ⟨.rune ',' :: .rune (Char.ofNat 10) :: .rune ' ' :: .rune ' ' ::
              ((List.intercalate [',', Char.ofNat 10, ' ', ' ']
                  ((m3 :: tail3).map renderMember) ++
                [Char.ofNat 10, rbrace]).map GoRune.rune ++ rest),
          by simp [List.intercalate, List.intersperse]⟩
    obtain ⟨after, hafter⟩ := htext
    rw [hafter, renderMember_runes]
    exact ⟨_, rfl⟩

/-- The member reader on the members `json.MarshalIndent` wrote, up to the closing
brace. -/
theorem parseMembers_render (ms : List (String × GoString)) (hne : ms ≠ [])
    (fuel depth : Nat) (rest : GoString) (hfuel : ms.length < fuel) :
    parseMembers fuel depth
        ((List.intercalate [',', Char.ofNat 10, ' ', ' '] (ms.map renderMember) ++
          [Char.ofNat 10, rbrace]).map GoRune.rune ++ rest) =
      some (ms.map (fun m => (m.1.data, JSONValue.string (m.2.map GoRune.toValid))), rest) := by
  induction ms generalizing fuel with
  | nil => exact absurd rfl hne
  | cons m tail ih =>
    obtain ⟨g, rfl⟩ : ∃ g, fuel = g + 2 := ⟨fuel - 2, by simp at hfuel; omega⟩
    cases tail with
    | nil =>
      have htext : (List.intercalate [',', Char.ofNat 10, ' ', ' '] ([m].map renderMember) ++
          [Char.ofNat 10, rbrace]).map GoRune.rune ++ rest =
          (renderMember m).map GoRune.rune ++
            (.rune (Char.ofNat 10) :: .rune rbrace :: rest) := by
        simp [List.intercalate]
      rw [htext, parseMembers_renderMember, skipSpace_cons_space _ _ (by decide),
        skipSpace_cons_other _ _ (by decide)]
      simp [show rbrace ≠ ',' by decide]
    | cons m2 tail2 =>
      have htext : (List.intercalate [',', Char.ofNat 10, ' ', ' ']
            ((m :: m2 :: tail2).map renderMember) ++
          [Char.ofNat 10, rbrace]).map GoRune.rune ++ rest =
          (renderMember m).map GoRune.rune ++
            (.rune ',' :: .rune (Char.ofNat 10) :: .rune ' ' :: .rune ' ' ::
              ((List.intercalate [',', Char.ofNat 10, ' ', ' ']
                  ((m2 :: tail2).map renderMember) ++
                [Char.ofNat 10, rbrace]).map GoRune.rune ++ rest)) := by
        simp [List.intercalate, List.intersperse]
      have hnext := ih (by simp) (g + 1) (by simp at hfuel ⊢; omega)
      obtain ⟨t, ht⟩ := renderMembers_starts_with_quote (m2 :: tail2) (by simp) rest
      rw [htext, parseMembers_renderMember, skipSpace_cons_other _ _ (by decide)]
      simp only [if_true]
      rw [skipSpace_cons_space _ _ (by decide), skipSpace_cons_space _ _ (by decide),
        skipSpace_cons_space _ _ (by decide)]
      have hskip : skipSpace ((List.intercalate [',', Char.ofNat 10, ' ', ' ']
                  ((m2 :: tail2).map renderMember) ++
                [Char.ofNat 10, rbrace]).map GoRune.rune ++ rest) =
            (List.intercalate [',', Char.ofNat 10, ' ', ' ']
                  ((m2 :: tail2).map renderMember) ++
                [Char.ofNat 10, rbrace]).map GoRune.rune ++ rest := by
        rw [ht]
        exact skipSpace_cons_other _ _ (by decide)
      rw [hskip, hnext]
      rfl

/-- The text of an object with at least one member starts with the opening brace, a
line break and two spaces, and goes on with the members. -/
theorem renderObject_of_ne_nil (ms : List (String × GoString)) (hne : ms ≠ []) :
    renderObject ms =
      lbrace :: Char.ofNat 10 :: ' ' :: ' ' ::
        (List.intercalate [',', Char.ofNat 10, ' ', ' '] (ms.map renderMember) ++
          [Char.ofNat 10, rbrace]) := by
  cases ms with
  | nil => exact absurd rfl hne
  | cons m tail => rfl

/-- Parsing the text `json.MarshalIndent` wrote for an object of at most five
string members gives the members back, up to the replacement of invalid bytes. -/
theorem parseJSON_renderObject (ms : List (String × GoString)) (hlen : ms.length ≤ 5) :
    parseJSON ((renderObject ms).map GoRune.rune) =
      some (JSONValue.object
        (ms.map (fun m => (m.1.data, JSONValue.string (m.2.map GoRune.toValid))))) := by
  by_cases hne : ms = []
  · subst hne
    rfl
  · obtain ⟨t, ht⟩ := renderMembers_starts_with_quote ms hne []
    rw [List.append_nil] at ht
    have hmembers := parseMembers_render ms hne
      (2 * ((renderObject ms).map GoRune.rune).length + 1) 1 []
      (by rw [renderObject_of_ne_nil ms hne]; simp; omega)
    rw [List.append_nil] at hmembers
    unfold parseJSON
    have hskip : skipSpace ((renderObject ms).map GoRune.rune) =
        .rune lbrace :: .rune (Char.ofNat 10) :: .rune ' ' :: .rune ' ' ::
          ((List.intercalate [',', Char.ofNat 10, ' ', ' '] (ms.map renderMember) ++
            [Char.ofNat 10, rbrace]).map GoRune.rune) := by
      rw [renderObject_of_ne_nil ms hne]
      exact skipSpace_cons_other _ _ (by decide)
    rw [hskip, parseValue]
    simp only [if_true]
    rw [if_neg (by decide), skipSpace_cons_space _ _ (by decide),
      skipSpace_cons_space _ _ (by decide), skipSpace_cons_space _ _ (by decide), ht,
      skipSpace_cons_other _ _ (by decide)]
    simp only
    rw [if_neg (by decide), ← ht, hmembers]
    rfl
/-- Every name of a field of `Config` is found as itself. -/
theorem findField_fieldNames : ∀ name ∈ fieldNames, findField name.data = some name := by
  decide

/-- A string member with the name of a field is stored in that field. -/
theorem storeMember_string (d : DecodeState) (name : String) (s : List Char)
    (hname : name ∈ fieldNames) :
    d.storeMember (name.data, JSONValue.string s) =
      { d with cfg := d.cfg.set name (s.map GoRune.rune) } := by
  simp [DecodeState.storeMember, findField_fieldNames name hname]

/-- Decoding the members read from the text of string fields stores them all and
saves no error. -/
theorem foldl_storeMember (values : List (String × GoString))
    (hnames : ∀ f ∈ values, f.1 ∈ fieldNames) (cfg : Config) :
    (values.map (fun m => (m.1.data, JSONValue.string (m.2.map GoRune.toValid)))).foldl
        DecodeState.storeMember { cfg := cfg, savedError := none } =
      { cfg := cfg.storeAll values, savedError := none } := by
  induction values generalizing cfg with
  | nil => rfl
  | cons f rest ih =>
    rw [List.map_cons, List.foldl_cons, storeMember_string _ _ _ (hnames f (by simp))]
    have := ih (fun g hg => hnames g (by simp [hg])) (cfg.set f.1 f.2.toValid)
    simpa [Config.storeAll, GoString.toValid] using this

/-- Storing the non-empty fields of a `Config` in an empty one gives the `Config`,
invalid bytes replaced by U+FFFD. -/
theorem storeAll_fields (c : Config) :
    zeroConfig.storeAll (c.fields.filter (fun f => !f.2.isEmpty)) = c.toValid := by
  obtain ⟨t, u, a, k, r⟩ := c
  have hempty : ∀ s : GoString, s.isEmpty = true → s.toValid = [] := by
    intro s hs
    cases s with
    | nil => rfl
    | cons x xs => cases hs
  cases ht : t.isEmpty <;> cases hu : u.isEmpty <;> cases ha : a.isEmpty <;>
    cases hk : k.isEmpty <;> cases hr : r.isEmpty <;>
    simp [Config.fields, List.filter, ht, hu, ha, hk, hr, Config.storeAll, Config.set,
      zeroConfig, Config.toValid, hempty]

/-- Decoding what `json.MarshalIndent` wrote for a `Config` gives the `Config`
back, invalid bytes replaced by U+FFFD. -/
theorem unmarshal_marshalIndent (c : Config) :
    Unmarshal (MarshalIndent c) zeroConfig = .ok c.toValid := by
  have hlen : (c.fields.filter (fun f => !f.2.isEmpty)).length ≤ 5 :=
    List.length_filter_le _ _
  have hnames : ∀ f ∈ c.fields.filter (fun f => !f.2.isEmpty), f.1 ∈ fieldNames := by
    intro f hf
    have hmem := List.mem_of_mem_filter hf
    simp only [Config.fields, List.mem_cons, List.mem_singleton, List.not_mem_nil,
      or_false] at hmem
    rcases hmem with rfl | rfl | rfl | rfl | rfl <;> simp [fieldNames]
  unfold Unmarshal MarshalIndent
  rw [parseJSON_renderObject _ hlen]
  simp only [foldl_storeMember _ hnames, storeAll_fields]

/-- A valid Go string is left as it is. -/
theorem toValid_of_isValid (s : GoString) (h : s.isValid = true) : s.toValid = s := by
  induction s with
  | nil => rfl
  | cons r rest ih =>
    cases r with
    | rune c =>
      have hrest : GoString.isValid rest = true := by
        simpa [GoString.isValid] using h
      have := ih hrest
      simp only [GoString.toValid] at this ⊢
      rw [List.map_cons, this]
      rfl
    | invalid b => simp [GoString.isValid] at h
/-! ## The bound of the readers is never used up -/

/-- Skipping white space does not lengthen the input. -/
theorem skipSpace_length_le (s : GoString) : (skipSpace s).length ≤ s.length :=
  (List.dropWhile_suffix isJSONSpace).length_le

/-- The string reader does not lengthen the input. -/
theorem readUnitsFrom_length_le (s : GoString) :
    ∀ (st : StringState) (units : List CodeUnit) (rest : GoString),
      readUnitsFrom st s = some (units, rest) → rest.length ≤ s.length := by
  induction s with
  | nil => intro st units rest h; simp [readUnitsFrom] at h
  | cons r tail ih =>
    intro st units rest h
    have hcons : ∀ (u : CodeUnit) (st2 : StringState),
        consUnit u (readUnitsFrom st2 tail) = some (units, rest) →
        rest.length ≤ (r :: tail).length := by
      intro u st2 h2
      cases hread : readUnitsFrom st2 tail with
      | none => rw [hread] at h2; cases h2
      | some p =>
        rw [hread] at h2
        simp only [consUnit, Option.map_some', Option.some.injEq, Prod.mk.injEq] at h2
        have := ih st2 p.1 p.2 hread
        rw [h2.2] at this
        simp only [List.length_cons]
        omega
    cases st with
    | plain =>
      cases r with
      | invalid b =>
        simp only [readUnitsFrom] at h
        exact hcons _ _ h
      | rune c =>
        rw [readUnitsFrom_plain_rune] at h
        split at h
        · cases h
          simp
        split at h
        · have := ih _ _ _ h
          simp only [List.length_cons]
          omega
        split at h
        · cases h
        · exact hcons _ _ h
    | escaped =>
      cases r with
      | invalid b => simp [readUnitsFrom] at h
      | rune e =>
        rw [readUnitsFrom_escaped_rune] at h
        split at h
        · have := ih _ _ _ h
          simp only [List.length_cons]
          omega
        split at h
        · exact hcons _ _ h
        · cases h
    | hex seen value =>
      rw [readUnitsFrom_hex] at h
      split at h
      · cases h
      split at h
      · exact hcons _ _ h
      · have := ih _ _ _ h
        simp only [List.length_cons]
        omega

/-- Reading a string literal does not lengthen the input. -/
theorem readString_length_le (s rest : GoString) (x : List Char)
    (h : readString s = some (x, rest)) : rest.length ≤ s.length := by
  unfold readString readUnits at h
  cases hread : readUnitsFrom .plain s with
  | none => rw [hread] at h; cases h
  | some p =>
    rw [hread] at h
    simp only [Option.map_some', Option.some.injEq, Prod.mk.injEq] at h
    have := readUnitsFrom_length_le s _ p.1 p.2 hread
    rw [h.2] at this
    exact this

/-- Reading a word does not lengthen the input. -/
theorem readWord_length_le (word : String) (s rest : GoString)
    (h : readWord word s = some rest) : rest.length ≤ s.length := by
  unfold readWord at h
  split at h
  · cases h
    simp
  · cases h

/-- Reading digits does not lengthen the input. -/
theorem readDigits_length_le (s rest : GoString) (h : readDigits s = some rest) :
    rest.length ≤ s.length := by
  unfold readDigits at h
  split at h
  · split at h
    · cases h
      rename_i d tail _
      have := (List.dropWhile_suffix isDigit : tail.dropWhile isDigit <:+ tail).length_le
      simp only [List.length_cons]
      omega
    · cases h
  · cases h

/-- Reading a number does not lengthen the input. -/
theorem readNumber_length_le (s rest : GoString) (h : readNumber s = some rest) :
    rest.length ≤ s.length := by
  unfold readNumber at h
  simp only [Option.bind_eq_some] at h
  obtain ⟨afterFrac, ⟨afterInt, hint, hfrac⟩, hexp⟩ := h
  have h1 : afterInt.length ≤ s.length := by
    have hgen : ∀ u : GoString, readInt u = some afterInt → afterInt.length ≤ u.length := by
      intro u hu
      unfold readInt at hu
      split at hu
      · rename_i d tail
        split at hu
        · cases hu; simp
        split at hu
        · cases hu
          have := (List.dropWhile_suffix isDigit : tail.dropWhile isDigit <:+ tail).length_le
          simp only [List.length_cons]
          omega
        · cases hu
      · cases hu
    cases s with
    | nil => exact hgen _ hint
    | cons d tail =>
      simp only at hint
      split at hint
      · have := hgen _ hint
        simp only [List.length_cons]
        omega
      · exact hgen _ hint
  have h2 : afterFrac.length ≤ afterInt.length := by
    unfold readFrac at hfrac
    split at hfrac
    · split at hfrac
      · have := readDigits_length_le _ _ hfrac
        simp only [List.length_cons]
        omega
      · cases hfrac; exact le_refl _
    · cases hfrac; exact le_refl _
  have h3 : rest.length ≤ afterFrac.length := by
    unfold readExp at hexp
    split at hexp
    · split at hexp
      · split at hexp
        · split at hexp
          · have := readDigits_length_le _ _ hexp
            simp only [List.length_cons]
            omega
          · have := readDigits_length_le _ _ hexp
            simp only [List.length_cons] at this ⊢
            omega
        · cases hexp
      · cases hexp; exact le_refl _
    · cases hexp; exact le_refl _
  omega
/-- A reading that succeeds with some bound succeeds, with the same result, with
every bound of at least twice the number of runes it consumed, and one. -/
theorem readers_bound (fuel : Nat) :
    (∀ (depth : Nat) (s : GoString) (v : JSONValue) (rest : GoString),
      parseValue fuel depth s = some (v, rest) →
      rest.length ≤ s.length ∧
      ∀ bound, 2 * (s.length - rest.length) + 1 ≤ bound →
        parseValue bound depth s = some (v, rest)) ∧
    (∀ (depth : Nat) (s : GoString) (ms : List (List Char × JSONValue)) (rest : GoString),
      parseMembers fuel depth s = some (ms, rest) →
      rest.length ≤ s.length ∧
      ∀ bound, 2 * (s.length - rest.length) + 1 ≤ bound →
        parseMembers bound depth s = some (ms, rest)) ∧
    (∀ (depth : Nat) (s : GoString) (vs : List JSONValue) (rest : GoString),
      parseElements fuel depth s = some (vs, rest) →
      rest.length ≤ s.length ∧
      ∀ bound, 2 * (s.length - rest.length) + 1 ≤ bound →
        parseElements bound depth s = some (vs, rest)) := by
  induction fuel with
  | zero =>
    refine ⟨?_, ?_, ?_⟩
    · intro depth s v rest h; simp [parseValue] at h
    · intro depth s ms rest h; simp [parseMembers] at h
    · intro depth s vs rest h; simp [parseElements] at h
  | succ f ih =>
    obtain ⟨ihV, ihM, ihE⟩ := ih
    refine ⟨?_, ?_, ?_⟩
    · intro depth s v rest h
      cases s with
      | nil => simp [parseValue] at h
      | cons r tail =>
        have hleaf : ∀ (x : Option (JSONValue × GoString)),
            x = some (v, rest) → rest.length ≤ (r :: tail).length →
            (∀ g, parseValue (g + 1) depth (r :: tail) = x) →
            rest.length ≤ (r :: tail).length ∧
            ∀ bound, 2 * ((r :: tail).length - rest.length) + 1 ≤ bound →
              parseValue bound depth (r :: tail) = some (v, rest) := by
          intro x hx hlen hall
          refine ⟨hlen, ?_⟩
          intro bound hb
          obtain ⟨g, rfl⟩ : ∃ g, bound = g + 1 := ⟨bound - 1, by omega⟩
          rw [hall g, hx]
        rw [parseValue] at h
        by_cases h1 : r = GoRune.rune lbrace
        · rw [if_pos h1] at h
          by_cases hd : depth + 1 > maxNestingDepth
          · rw [if_pos hd] at h; cases h
          · rw [if_neg hd] at h
            have hsl := skipSpace_length_le tail
            cases hs : skipSpace tail with
            | nil => rw [hs] at h; cases h
            | cons r1 rest1 =>
              rw [hs] at h hsl
              simp only [List.length_cons] at hsl
              simp only at h
              by_cases h2 : r1 = GoRune.rune rbrace
              · rw [if_pos h2] at h
                simp only [Option.some.injEq, Prod.mk.injEq] at h
                obtain ⟨rfl, rfl⟩ := h
                refine ⟨by simp only [List.length_cons]; omega, ?_⟩
                intro bound hb
                obtain ⟨g, rfl⟩ : ∃ g, bound = g + 1 := ⟨bound - 1, by omega⟩
                rw [parseValue, if_pos h1, if_neg hd, hs]
                simp only
                rw [if_pos h2]
              · rw [if_neg h2] at h
                cases hm : parseMembers f (depth + 1) (r1 :: rest1) with
                | none => rw [hm] at h; cases h
                | some p =>
                  obtain ⟨ms, after⟩ := p
                  rw [hm] at h
                  simp only [Option.map_some', Option.some.injEq, Prod.mk.injEq] at h
                  obtain ⟨rfl, rfl⟩ := h
                  obtain ⟨hlen, hbound⟩ := ihM _ _ _ _ hm
                  simp only [List.length_cons] at hlen hbound
                  refine ⟨by simp only [List.length_cons]; omega, ?_⟩
                  intro bound hb
                  simp only [List.length_cons] at hb
                  obtain ⟨g, rfl⟩ : ∃ g, bound = g + 1 := ⟨bound - 1, by omega⟩
                  rw [parseValue, if_pos h1, if_neg hd, hs]
                  simp only
                  rw [if_neg h2, hbound g (by omega)]
                  rfl
        · rw [if_neg h1] at h
          by_cases h3 : r = GoRune.rune '['
          · rw [if_pos h3] at h
            by_cases hd : depth + 1 > maxNestingDepth
            · rw [if_pos hd] at h; cases h
            · rw [if_neg hd] at h
              have hsl := skipSpace_length_le tail
              cases hs : skipSpace tail with
              | nil => rw [hs] at h; cases h
              | cons r1 rest1 =>
                rw [hs] at h hsl
                simp only [List.length_cons] at hsl
                simp only at h
                by_cases h2 : r1 = GoRune.rune ']'
                · rw [if_pos h2] at h
                  simp only [Option.some.injEq, Prod.mk.injEq] at h
                  obtain ⟨rfl, rfl⟩ := h
                  refine ⟨by simp only [List.length_cons]; omega, ?_⟩
                  intro bound hb
                  obtain ⟨g, rfl⟩ : ∃ g, bound = g + 1 := ⟨bound - 1, by omega⟩
                  rw [parseValue, if_neg h1, if_pos h3, if_neg hd, hs]
                  simp only
                  rw [if_pos h2]
                · rw [if_neg h2] at h
                  cases hm : parseElements f (depth + 1) (r1 :: rest1) with
                  | none => rw [hm] at h; cases h
                  | some p =>
                    obtain ⟨vs, after⟩ := p
                    rw [hm] at h
                    simp only [Option.map_some', Option.some.injEq, Prod.mk.injEq] at h
                    obtain ⟨rfl, rfl⟩ := h
                    obtain ⟨hlen, hbound⟩ := ihE _ _ _ _ hm
                    simp only [List.length_cons] at hlen hbound
                    refine ⟨by simp only [List.length_cons]; omega, ?_⟩
                    intro bound hb
                    simp only [List.length_cons] at hb
                    obtain ⟨g, rfl⟩ : ∃ g, bound = g + 1 := ⟨bound - 1, by omega⟩
                    rw [parseValue, if_neg h1, if_pos h3, if_neg hd, hs]
                    simp only
                    rw [if_neg h2, hbound g (by omega)]
                    rfl
          · rw [if_neg h3] at h
            by_cases h4 : r = GoRune.rune dquote
            · rw [if_pos h4] at h
              refine hleaf _ h ?_ (fun g => by rw [parseValue, if_neg h1, if_neg h3, if_pos h4])
              cases hr : readString tail with
              | none => rw [hr] at h; cases h
              | some p =>
                obtain ⟨x, after⟩ := p
                rw [hr] at h
                simp only [Option.map_some', Option.some.injEq, Prod.mk.injEq] at h
                have := readString_length_le _ _ _ hr
                rw [h.2] at this
                simp only [List.length_cons]
                omega
            · rw [if_neg h4] at h
              have hword : ∀ (word : String) (value : JSONValue),
                  Option.map (fun t => (value, t)) (readWord word (r :: tail)) = some (v, rest) →
                  rest.length ≤ (r :: tail).length := by
                intro word value hw
                cases hr : readWord word (r :: tail) with
                | none => rw [hr] at hw; cases hw
                | some after =>
                  rw [hr] at hw
                  simp only [Option.map_some', Option.some.injEq, Prod.mk.injEq] at hw
                  have := readWord_length_le _ _ _ hr
                  rw [hw.2] at this
                  exact this
              by_cases h5 : r = GoRune.rune 't'
              · rw [if_pos h5] at h
                exact hleaf _ h (hword _ _ h)
                  (fun g => by rw [parseValue, if_neg h1, if_neg h3, if_neg h4, if_pos h5])
              · rw [if_neg h5] at h
                by_cases h6 : r = GoRune.rune 'f'
                · rw [if_pos h6] at h
                  exact hleaf _ h (hword _ _ h)
                    (fun g => by
                      rw [parseValue, if_neg h1, if_neg h3, if_neg h4, if_neg h5, if_pos h6])
                · rw [if_neg h6] at h
                  by_cases h7 : r = GoRune.rune 'n'
                  · rw [if_pos h7] at h
                    exact hleaf _ h (hword _ _ h)
                      (fun g => by
                        rw [parseValue, if_neg h1, if_neg h3, if_neg h4, if_neg h5, if_neg h6,
                          if_pos h7])
                  · rw [if_neg h7] at h
                    refine hleaf _ h ?_
                      (fun g => by
                        rw [parseValue, if_neg h1, if_neg h3, if_neg h4, if_neg h5, if_neg h6,
                          if_neg h7])
                    cases hr : readNumber (r :: tail) with
                    | none => rw [hr] at h; cases h
                    | some after =>
                      rw [hr] at h
                      simp only [Option.map_some', Option.some.injEq, Prod.mk.injEq] at h
                      have := readNumber_length_le _ _ hr
                      rw [h.2] at this
                      exact this
    · intro depth s ms rest h
      cases s with
      | nil => simp [parseMembers] at h
      | cons r tail =>
        rw [parseMembers] at h
        by_cases h1 : r = GoRune.rune dquote
        · rw [if_pos h1] at h
          cases hkey : readString tail with
          | none => rw [hkey] at h; cases h
          | some p =>
            obtain ⟨key, afterKey⟩ := p
            rw [hkey] at h
            simp only at h
            have l1 := readString_length_le _ _ _ hkey
            have l2 := skipSpace_length_le afterKey
            cases hcolon : skipSpace afterKey with
            | nil => rw [hcolon] at h; cases h
            | cons colon afterColon =>
              rw [hcolon] at h l2
              simp only at h
              simp only [List.length_cons] at l2
              by_cases h2 : colon = GoRune.rune ':'
              · rw [if_pos h2] at h
                have l3 := skipSpace_length_le afterColon
                cases hvalue : parseValue f depth (skipSpace afterColon) with
                | none => rw [hvalue] at h; cases h
                | some q =>
                  obtain ⟨v, afterValue⟩ := q
                  rw [hvalue] at h
                  simp only at h
                  obtain ⟨l4, hboundV⟩ := ihV _ _ _ _ hvalue
                  have l5 := skipSpace_length_le afterValue
                  cases hsep : skipSpace afterValue with
                  | nil => rw [hsep] at h; cases h
                  | cons sep afterSep =>
                    rw [hsep] at h l5
                    simp only at h
                    simp only [List.length_cons] at l5
                    by_cases h3 : sep = GoRune.rune ','
                    · rw [if_pos h3] at h
                      have l6 := skipSpace_length_le afterSep
                      cases hnext : parseMembers f depth (skipSpace afterSep) with
                      | none => rw [hnext] at h; cases h
                      | some q2 =>
                        obtain ⟨more, after⟩ := q2
                        rw [hnext] at h
                        simp only [Option.map_some', Option.some.injEq, Prod.mk.injEq] at h
                        obtain ⟨rfl, rfl⟩ := h
                        obtain ⟨l7, hboundM⟩ := ihM _ _ _ _ hnext
                        refine ⟨by simp only [List.length_cons]; omega, ?_⟩
                        intro bound hb
                        simp only [List.length_cons] at hb
                        obtain ⟨g, rfl⟩ : ∃ g, bound = g + 1 := ⟨bound - 1, by omega⟩
                        rw [parseMembers, if_pos h1, hkey]
                        simp only
                        rw [hcolon]
                        simp only
                        rw [if_pos h2, hboundV g (by omega)]
                        simp only
                        rw [hsep]
                        simp only
                        rw [if_pos h3, hboundM g (by omega)]
                        rfl
                    · rw [if_neg h3] at h
                      by_cases h4 : sep = GoRune.rune rbrace
                      · rw [if_pos h4] at h
                        simp only [Option.some.injEq, Prod.mk.injEq] at h
                        obtain ⟨rfl, rfl⟩ := h
                        refine ⟨by simp only [List.length_cons]; omega, ?_⟩
                        intro bound hb
                        simp only [List.length_cons] at hb
                        obtain ⟨g, rfl⟩ : ∃ g, bound = g + 1 := ⟨bound - 1, by omega⟩
                        rw [parseMembers, if_pos h1, hkey]
                        simp only
                        rw [hcolon]
                        simp only
                        rw [if_pos h2, hboundV g (by omega)]
                        simp only
                        rw [hsep]
                        simp only
                        rw [if_neg h3, if_pos h4]
                      · rw [if_neg h4] at h
                        cases h
              · rw [if_neg h2] at h
                cases h
        · rw [if_neg h1] at h
          cases h
    · intro depth s vs rest h
      rw [parseElements] at h
      cases hvalue : parseValue f depth s with
      | none => rw [hvalue] at h; cases h
      | some q =>
        obtain ⟨v, afterValue⟩ := q
        rw [hvalue] at h
        simp only at h
        obtain ⟨l4, hboundV⟩ := ihV _ _ _ _ hvalue
        have l5 := skipSpace_length_le afterValue
        cases hsep : skipSpace afterValue with
        | nil => rw [hsep] at h; cases h
        | cons sep afterSep =>
          rw [hsep] at h l5
          simp only at h
          simp only [List.length_cons] at l5
          by_cases h3 : sep = GoRune.rune ','
          · rw [if_pos h3] at h
            have l6 := skipSpace_length_le afterSep
            cases hnext : parseElements f depth (skipSpace afterSep) with
            | none => rw [hnext] at h; cases h
            | some q2 =>
              obtain ⟨more, after⟩ := q2
              rw [hnext] at h
              simp only [Option.map_some', Option.some.injEq, Prod.mk.injEq] at h
              obtain ⟨rfl, rfl⟩ := h
              obtain ⟨l7, hboundE⟩ := ihE _ _ _ _ hnext
              refine ⟨by omega, ?_⟩
              intro bound hb
              obtain ⟨g, rfl⟩ : ∃ g, bound = g + 1 := ⟨bound - 1, by omega⟩
              rw [parseElements, hboundV g (by omega)]
              simp only
              rw [hsep]
              simp only
              rw [if_pos h3, hboundE g (by omega)]
              rfl
          · rw [if_neg h3] at h
            by_cases h4 : sep = GoRune.rune ']'
            · rw [if_pos h4] at h
              simp only [Option.some.injEq, Prod.mk.injEq] at h
              obtain ⟨rfl, rfl⟩ := h
              refine ⟨by omega, ?_⟩
              intro bound hb
              obtain ⟨g, rfl⟩ : ∃ g, bound = g + 1 := ⟨bound - 1, by omega⟩
              rw [parseElements, hboundV g (by omega)]
              simp only
              rw [hsep]
              simp only
              rw [if_neg h3, if_pos h4]
            · rw [if_neg h4] at h
              cases h
/-- A text that the value reader reads with some bound, up to white space at its
end, is read by `parseJSON` with its own bound. -/
theorem parseJSON_of_bound (data : GoString) (fuel : Nat) (v : JSONValue) (rest : GoString)
    (h : parseValue fuel 0 (skipSpace data) = some (v, rest))
    (hrest : (skipSpace rest).isEmpty = true) : parseJSON data = some v := by
  obtain ⟨_, hbound⟩ := (readers_bound fuel).1 _ _ _ _ h
  have hlen := skipSpace_length_le data
  unfold parseJSON
  rw [hbound (2 * data.length + 2) (by omega)]
  simp only [hrest, if_true]

/-- The function `Valid` does not depend on the bound of the readers: a text is
valid exactly when some bound lets the value reader read it up to white space at its
end. -/
theorem valid_iff (data : GoString) :
    Valid data = true ↔
      ∃ (fuel : Nat) (v : JSONValue) (rest : GoString),
        parseValue fuel 0 (skipSpace data) = some (v, rest) ∧
        (skipSpace rest).isEmpty = true := by
  constructor
  · intro h
    unfold Valid parseJSON at h
    cases hp : parseValue (2 * data.length + 2) 0 (skipSpace data) with
    | none => rw [hp] at h; cases h
    | some p =>
      obtain ⟨v, rest⟩ := p
      rw [hp] at h
      simp only at h
      by_cases hrest : (skipSpace rest).isEmpty = true
      · exact ⟨_, v, rest, hp, hrest⟩
      · rw [if_neg hrest] at h
        cases h
  · rintro ⟨fuel, v, rest, h, hrest⟩
    unfold Valid
    rw [parseJSON_of_bound data fuel v rest h hrest]
    rfl

/-! ## The configuration file -/

/-- C21 (as stated, refuted). A `Config` whose token is ten bytes `0xff`, which the
login callback accepts and stores, is saved without error on a disk where every
call succeeds, and `LoadConfig` then returns a `Config` whose token is ten runes
U+FFFD: not the token that was saved. -/
theorem save_load_changes_invalid_token :
    (invalidTokenConfig.Save emptyDisk).1 = none ∧
    LoadConfig (invalidTokenConfig.Save emptyDisk).2 = .ok invalidTokenConfig.toValid ∧
    invalidTokenConfig.toValid.Token = List.replicate 10 (GoRune.rune replacementChar) ∧
    invalidTokenConfig.toValid.Token ≠ invalidTokenConfig.Token ∧
    LoadConfig (invalidTokenConfig.Save emptyDisk).2 ≠ .ok invalidTokenConfig := by
  refine ⟨by decide, ?_, by decide, by decide, ?_⟩
  · exact (by
      set_option maxRecDepth 100000 in
      decide)
  · exact (by
      set_option maxRecDepth 100000 in
      decide)

/-- C21 (amended). On a disk where the home directory is known, the configuration
directory can be created and the configuration file can be written and read,
`c.Save()` succeeds for every `Config` c and writes what `json.MarshalIndent`
returns, which is valid JSON; `LoadConfig()` then succeeds and returns c with every
byte that is not part of a valid UTF-8 encoding replaced by U+FFFD. When all fields
of c are valid UTF-8, it returns a `Config` whose Token, APIURL, AgentID, APIKey and
RegistrationSecret equal those of c, also when some of the fields are empty and
therefore omitted from the file. -/
theorem save_then_load (c : Config) (disk : Disk) (home : String)
    (hhome : disk.home = .ok home)
    (hmkdir : disk.mkdirAll (joinPath home ".qamax") = none)
    (hwrite : disk.writeFile (configFile home) = none)
    (hread : disk.readError (configFile home) = none) :
    (c.Save disk).1 = none ∧
    (c.Save disk).2.ReadFile (configFile home) = .data (MarshalIndent c) ∧
    Valid (MarshalIndent c) = true ∧
    LoadConfig (c.Save disk).2 = .ok c.toValid ∧
    (c.isValid = true →
      LoadConfig (c.Save disk).2 = .ok c ∧
      ∃ loaded, LoadConfig (c.Save disk).2 = .ok loaded ∧
        loaded.Token = c.Token ∧ loaded.APIURL = c.APIURL ∧ loaded.AgentID = c.AgentID ∧
        loaded.APIKey = c.APIKey ∧ loaded.RegistrationSecret = c.RegistrationSecret) := by
  have hwrite2 : disk.writeFile (joinPath (joinPath home ".qamax") "config.json") = none :=
    hwrite
  have hsave : c.Save disk = (none, { disk with
      files := Function.update disk.files (configFile home) (some (MarshalIndent c)) }) := by
    simp [Config.Save, ConfigDir, hhome, hmkdir, hwrite2, configFile]
  have hfile : (c.Save disk).2.ReadFile (configFile home) = .data (MarshalIndent c) := by
    rw [hsave]
    simp [Disk.ReadFile, hread]
  have hload : LoadConfig (c.Save disk).2 = .ok c.toValid := by
    have hpath : ConfigPath (c.Save disk).2 = .ok (configFile home) := by
      rw [hsave]
      simp [ConfigPath, hhome, configFile]
    unfold LoadConfig
    rw [hpath]
    simp only [hfile, unmarshal_marshalIndent]
  have hvalid : Valid (MarshalIndent c) = true := by
    have hlen : (c.fields.filter (fun f => !f.2.isEmpty)).length ≤ 5 :=
      List.length_filter_le _ _
    unfold Valid MarshalIndent
    rw [parseJSON_renderObject _ hlen]
    rfl
  refine ⟨by rw [hsave], hfile, hvalid, hload, ?_⟩
  intro hc
  have hc2 : c.toValid = c := by
    simp only [Config.isValid, Bool.and_eq_true] at hc
    obtain ⟨⟨⟨⟨h1, h2⟩, h3⟩, h4⟩, h5⟩ := hc
    obtain ⟨t, u, a, k, r⟩ := c
    simp only [Config.toValid, toValid_of_isValid _ h1, toValid_of_isValid _ h2,
      toValid_of_isValid _ h3, toValid_of_isValid _ h4, toValid_of_isValid _ h5]
  rw [hc2] at hload
  exact ⟨hload, c, hload, rfl, rfl, rfl, rfl, rfl⟩

/-- C21 (amended) at the `Config` of the test and at one with three empty fields,
on a disk where every call succeeds. -/
theorem save_then_load_witness :
    ((testConfig.Save emptyDisk).1 = none ∧
      LoadConfig (testConfig.Save emptyDisk).2 = .ok testConfig) ∧
    LoadConfig (tokenOnlyConfig.Save emptyDisk).2 = .ok tokenOnlyConfig ∧
    MarshalIndent zeroConfig = GoString.ofString "\x7b\x7d" :=
  ⟨⟨(save_then_load testConfig emptyDisk "/home/u" rfl rfl rfl rfl).1,
    ((save_then_load testConfig emptyDisk "/home/u" rfl rfl rfl rfl).2.2.2.2 (by decide)).1⟩,
   ((save_then_load tokenOnlyConfig emptyDisk "/home/u" rfl rfl rfl rfl).2.2.2.2
      (by decide)).1,
   by decide⟩

/-- C24. With the home directory known, `LoadConfig` returns a `Config` with all
fields empty and no error when the configuration file does not exist, and it returns
an error and no `Config` whenever the file exists and its content is not valid
JSON, such as the text `not json`. That a content is not valid JSON does not hang on
the bound of the readers: with no bound do they read it as one JSON value. -/
theorem loadConfig_missing_or_invalid (disk : Disk) (home : String)
    (hhome : disk.home = .ok home) :
    (disk.ReadFile (configFile home) = .notExist →
      LoadConfig disk = .ok zeroConfig ∧
      zeroConfig.Token = [] ∧ zeroConfig.APIURL = [] ∧ zeroConfig.AgentID = [] ∧
      zeroConfig.APIKey = [] ∧ zeroConfig.RegistrationSecret = []) ∧
    (∀ data : GoString, disk.ReadFile (configFile home) = .data data → Valid data = false →
      LoadConfig disk = .error (.parse .syntaxError) ∧
      (∀ cfg : Config, LoadConfig disk ≠ .ok cfg) ∧
      ∀ (fuel : Nat) (v : JSONValue) (rest : GoString),
        parseValue fuel 0 (skipSpace data) = some (v, rest) →
        (skipSpace rest).isEmpty = false) ∧
    Valid (GoString.ofString "not json") = false := by
  have hpath : ConfigPath disk = .ok (configFile home) := by
    simp [ConfigPath, hhome, configFile]
  refine ⟨?_, ?_, by decide⟩
  · intro hmissing
    refine ⟨?_, rfl, rfl, rfl, rfl, rfl⟩
    unfold LoadConfig
    rw [hpath]
    simp only [hmissing]
  · intro data hdata hinvalid
    have hnone : parseJSON data = none := by
      simpa [Valid] using hinvalid
    have herr : LoadConfig disk = .error (.parse .syntaxError) := by
      unfold LoadConfig
      rw [hpath]
      simp only [hdata, Unmarshal, hnone]
    refine ⟨herr, ?_, ?_⟩
    · intro cfg h
      rw [herr] at h
      cases h
    · intro fuel v rest hparse
      cases hrest : (skipSpace rest).isEmpty with
      | false => rfl
      | true =>
        have := (valid_iff data).2 ⟨fuel, v, rest, hparse, hrest⟩
        rw [hinvalid] at this
        cases this

/-- C24 at the disks of the tests: no file, and a file with the text `not json`. -/
theorem loadConfig_missing_or_invalid_witness :
    LoadConfig emptyDisk = .ok zeroConfig ∧
    LoadConfig (diskWith "not json") = .error (.parse .syntaxError) :=
  ⟨((loadConfig_missing_or_invalid emptyDisk "/home/u" rfl).1 rfl).1,
   ((loadConfig_missing_or_invalid (diskWith "not json") "/home/u" rfl).2.1
      (GoString.ofString "not json") (by decide) (by decide)).1⟩

end QamaxAgent
